import Mathlib

/-!
# Rolling update of a kops cluster: a verification development

Shallow embedding of `upup/pkg/kutil/rollingupdate_cluster.go` and of the
command that drives it (`cmd/kops/rollingupdate_cluster.go`), with the small
functions of `upup/pkg/fi/values.go`,
`upup/pkg/fi/cloudup/awstasks/block_device_mappings.go`,
`pkg/model/iam/subject.go`, `upup/pkg/fi/cloudup/gce/gce_cloud.go` and
`test/validation_test.go`. The Dependency Resolver and the Convergence Executor
are not among the source files; they are modelled from the specification.

* Go pointers to strings are `Option String`; `aws.StringValue` reads them.
* A Go `map[string]T` is the list of its entries (`GoMap`), written with
  `GoMap.set` and read with `GoMap.get`; the order of a `range` over a map is
  not fixed by the language and is a parameter of the model (`Runtime`).
* A Go `error` is `Option Err` (`none` is `nil`).
* The collaborators (kubectl cordon, EC2 terminate, `time.Sleep`, the cluster
  validator) act on an abstract world state `σ` (`Env σ`); every call is
  recorded as an `Event`.
* A goroutine body is a tree of collaborator calls (`Prog`): it is run to
  completion by `Prog.run`, or one call at a time by `Prog.step`, which is
  what the worker phase (one goroutine per node group) interleaves.
* Dereferencing a nil `*v1.Node` is a panic (`Result.panicked`); a panic in a
  goroutine ends the process, so a run that panics makes no further call and
  returns nothing.
* The calls of a run of `RollingUpdateCluster.RollingUpdate` are recorded with
  the key of the group they were made for; the master groups run one after
  another (`runSerial`), the node groups concurrently (`runPool`).
-/

namespace Kops

/-! ## Data model -/

/-- The Go helper `aws.StringValue`: the pointed-to string, or the empty string for nil. -/
def StringValue (p : Option String) : String :=
  match p with
  | some s => s
  | none => ""

/-- Go `time.Duration` (a signed count of nanoseconds). -/
abbrev Duration := Int

/-- The role constant `api.InstanceGroupRoleMaster`. -/
def InstanceGroupRoleMaster : String := "Master"

/-- The role constant `api.InstanceGroupRoleNode`. -/
def InstanceGroupRoleNode : String := "Node"

/-- The part of `api.InstanceGroupSpec` the rolling update reads. -/
structure InstanceGroupSpec where
  Role : String
deriving DecidableEq, Repr

/-- The declared instance group `api.InstanceGroup`. -/
structure InstanceGroup where
  Name : String
  Spec : InstanceGroupSpec
deriving DecidableEq, Repr

/-- The part of `api.Cluster` discovery reads. -/
structure Cluster where
  Name : String
deriving DecidableEq, Repr

/-- The part of `v1.NodeSpec` discovery reads. -/
structure NodeSpec where
  ExternalID : String
deriving DecidableEq, Repr

/-- The observed cluster node `v1.Node`. -/
structure Node where
  Name : String
  ClusterName : String
  Spec : NodeSpec
deriving DecidableEq, Repr

/-- The live instance `autoscaling.Instance`. -/
structure AutoscalingInstance where
  InstanceId : Option String
  LaunchConfigurationName : Option String
deriving DecidableEq, Repr

/-- The live autoscaling group `autoscaling.Group`. -/
structure AutoscalingGroup where
  AutoScalingGroupName : Option String
  LaunchConfigurationName : Option String
  Instances : List AutoscalingInstance
  MinSize : Option Int
  MaxSize : Option Int
deriving DecidableEq, Repr

/-- The struct `CloudInstanceGroupInstance`: an instance in an autoscaling group
with the linked cluster node, when there is one (`Node` is a nil-able pointer). -/
structure CloudInstanceGroupInstance where
  ASGInstance : AutoscalingInstance
  Node : Option Node
deriving DecidableEq, Repr

/-- The struct `CloudInstanceGroup`: the AWS ASG backing an InstanceGroup. -/
structure CloudInstanceGroup where
  InstanceGroup : InstanceGroup
  ASGName : String
  Status : String
  Ready : List CloudInstanceGroupInstance
  NeedUpdate : List CloudInstanceGroupInstance
  asg : AutoscalingGroup
deriving DecidableEq, Repr

/-- A Go `map[string]α`, as the list of its entries. -/
abbrev GoMap (α : Type) := List (String × α)

/-- Reading `m[k]`: the value stored under `k`, if any. -/
def GoMap.get {α : Type} (m : GoMap α) (k : String) : Option α :=
  match m with
  | [] => none
  | (k', v) :: rest => if k' = k then some v else GoMap.get rest k

/-- The assignment `m[k] = v`: overwrites the entry of `k`, or adds one. -/
def GoMap.set {α : Type} (m : GoMap α) (k : String) (v : α) : GoMap α :=
  match m with
  | [] => [(k, v)]
  | (k', v') :: rest => if k' = k then (k, v) :: rest else (k', v') :: GoMap.set rest k v

/-- The keys of a map. -/
def GoMap.keys {α : Type} (m : GoMap α) : List String := m.map Prod.fst

/-! ## Discovery: `buildCloudInstanceGroup` -/

/-- One iteration of the loop over `g.Instances` in `buildCloudInstanceGroup`. -/
def buildStep (readyLaunchConfigurationName : String) (nodeMap : GoMap Node)
    (n : CloudInstanceGroup) (i : AutoscalingInstance) : CloudInstanceGroup :=
  let c : CloudInstanceGroupInstance :=
    { ASGInstance := i, Node := GoMap.get nodeMap (StringValue i.InstanceId) }
  if readyLaunchConfigurationName = StringValue i.LaunchConfigurationName then
    { n with Ready := n.Ready ++ [c] }
  else
    { n with NeedUpdate := n.NeedUpdate ++ [c] }

/-- The function `buildCloudInstanceGroup`. -/
def buildCloudInstanceGroup (ig : InstanceGroup) (g : AutoscalingGroup)
    (nodeMap : GoMap Node) : CloudInstanceGroup :=
  let n : CloudInstanceGroup :=
    { InstanceGroup := ig, ASGName := StringValue g.AutoScalingGroupName, Status := "",
      Ready := [], NeedUpdate := [], asg := g }
  let readyLaunchConfigurationName := StringValue g.LaunchConfigurationName
  let n := g.Instances.foldl (buildStep readyLaunchConfigurationName nodeMap) n
  if n.NeedUpdate.length = 0 then
    { n with Status := "Ready" }
  else
    { n with Status := "NeedsUpdate" }

/-! ## Collaborators, events and goroutine bodies -/

/-- The error values the embedded functions handle or build. -/
inductive Err where
  /-- An error returned by a collaborator (kubectl, EC2, the validator). -/
  | collaborator (msg : String)
  /-- The value of `fmt.Errorf("error deleting instance %q: %v", instanceID, err)`. -/
  | deletingInstance (instanceID : String) (cause : Err)
  /-- The value of `fmt.Errorf("function panic")`. -/
  | functionPanic
  /-- The value of `fmt.Errorf("unknown group type for group %q", name)`. -/
  | unknownGroupType (name : String)
  /-- The value of `fmt.Errorf("Found multiple instance groups matching ASG %q", asgName)`. -/
  | multipleInstanceGroups (asgName : String)
  /-- The value of `fmt.Errorf("unknown instancegroup role %q", igRole)`. -/
  | unknownInstanceGroupRole (igRole : String)
  /-- The value of `fmt.Errorf("error getting ForwardingRule %q: %v", name, err)`. -/
  | gettingForwardingRule (name : String) (cause : Err)
  /-- The value of
  `fmt.Errorf("Found forward rule %q, but it did not have an IPAddress", name)`. -/
  | forwardRuleWithoutIPAddress (name : String)
  /-- The value of `fmt.Errorf("error listing instance templates: %v", err)`. -/
  | listingInstanceTemplates (cause : Err)
  /-- The value of `fmt.Errorf("Unable to validate after timeout: %v", stderr)`. -/
  | unableToValidate (cause : Err)
  /-- The value of `fmt.Errorf("cannot load kubecfg settings for %q: %v", contextName, err)`. -/
  | kubecfgSettings (contextName : String) (cause : Err)
  /-- The value of `fmt.Errorf("cannot build kube client for %q: %v", contextName, err)`. -/
  | kubeClient (contextName : String) (cause : Err)
  /-- The value of `fmt.Errorf("error listing nodes in cluster: %v", err)`. -/
  | listingNodes (cause : Err)
deriving DecidableEq, Repr

/-- A call to a collaborator, with its arguments and the error it returned. -/
inductive Event where
  /-- The call `kubeCtl.Cordon(nodeName)`. -/
  | cordon (nodeName : String) (err : Option Err)
  /-- The call `c.EC2().TerminateInstances` for the one instance id. -/
  | terminate (instanceId : Option String) (err : Option Err)
  /-- The call `time.Sleep(interval)`. -/
  | sleep (interval : Duration)
  /-- The call `validate.ValidateCluster(clusterName, instanceGroupList, k8sClient)`. -/
  | validate (clusterName : String) (err : Option Err)
deriving DecidableEq, Repr

/-- The collaborators, acting on a world state `σ`. The instance group list and
the Kubernetes client handed to the validator are fixed for a run and are part
of the validator. -/
structure Env (σ : Type) where
  cordon : String → σ → Option Err × σ
  terminate : Option String → σ → Option Err × σ
  sleep : Duration → σ → σ
  validate : String → σ → Option Err × σ

/-- How a Go function returning `error` ends: it returns, or it panics. -/
inductive Result where
  | returned (err : Option Err)
  | panicked
deriving DecidableEq, Repr

/-- A goroutine body: a tree of collaborator calls ending in a result. -/
inductive Prog where
  | done (r : Result)
  | cordon (nodeName : String) (k : Option Err → Prog)
  | terminate (instanceId : Option String) (k : Option Err → Prog)
  | sleep (interval : Duration) (k : Prog)
  | validate (clusterName : String) (k : Option Err → Prog)

/-- What a run produced: the result, the calls made in order, the world left. -/
structure Run (σ : Type) where
  result : Result
  trace : List Event
  world : σ

/-- Puts an event in front of the trace of a run. -/
def Run.cons {σ : Type} (e : Event) (r : Run σ) : Run σ :=
  { r with trace := e :: r.trace }

/-- Runs a goroutine body to its end. -/
def Prog.run {σ : Type} (env : Env σ) : Prog → σ → Run σ
  | .done r, s => { result := r, trace := [], world := s }
  | .cordon nodeName k, s =>
    Run.cons (Event.cordon nodeName (env.cordon nodeName s).1)
      (Prog.run env (k (env.cordon nodeName s).1) (env.cordon nodeName s).2)
  | .terminate instanceId k, s =>
    Run.cons (Event.terminate instanceId (env.terminate instanceId s).1)
      (Prog.run env (k (env.terminate instanceId s).1) (env.terminate instanceId s).2)
  | .sleep interval k, s =>
    Run.cons (Event.sleep interval) (Prog.run env k (env.sleep interval s))
  | .validate clusterName k, s =>
    Run.cons (Event.validate clusterName (env.validate clusterName s).1)
      (Prog.run env (k (env.validate clusterName s).1) (env.validate clusterName s).2)

/-- Performs the next collaborator call of a goroutine body, if it has one. -/
def Prog.step {σ : Type} (env : Env σ) : Prog → σ → Option (Event × Prog × σ)
  | .done _, _ => none
  | .cordon nodeName k, s =>
    some (Event.cordon nodeName (env.cordon nodeName s).1,
      k (env.cordon nodeName s).1, (env.cordon nodeName s).2)
  | .terminate instanceId k, s =>
    some (Event.terminate instanceId (env.terminate instanceId s).1,
      k (env.terminate instanceId s).1, (env.terminate instanceId s).2)
  | .sleep interval k, s => some (Event.sleep interval, k, env.sleep interval s)
  | .validate clusterName k, s =>
    some (Event.validate clusterName (env.validate clusterName s).1,
      k (env.validate clusterName s).1, (env.validate clusterName s).2)

/-! ## Discovery: `FindCloudInstanceGroups` -/

/-- A line written with `glog.Warningf` by `FindCloudInstanceGroups`. -/
inductive Warning where
  /-- The line `Ignoring InstanceGroup of unknown role %q`. -/
  | unknownRole (role : String)
  /-- The line `Found ASG with no corresponding instance group: %q`. -/
  | unmatchedASG (name : String)
deriving DecidableEq, Repr

/-- What `FindCloudInstanceGroups` returns: the map (`none` is the nil map) and
the error, together with the warnings it logged. -/
structure Discovery where
  groups : Option (GoMap CloudInstanceGroup)
  err : Option Err
  warnings : List Warning
deriving DecidableEq, Repr

/-- Puts warnings in front of those of a discovery. -/
def Discovery.warn (w : List Warning) (d : Discovery) : Discovery :=
  { d with warnings := w ++ d.warnings }

/-- The `switch g.Spec.Role` of `FindCloudInstanceGroups`: the name of the
autoscaling group of a declared group, `none` for a group of unknown role. -/
def asgNameOf (cluster : Cluster) (g : InstanceGroup) : Option String :=
  if g.Spec.Role = InstanceGroupRoleMaster then
    some (g.Name ++ ".masters." ++ cluster.Name)
  else if g.Spec.Role = InstanceGroupRoleNode then
    some (g.Name ++ "." ++ cluster.Name)
  else
    none

/-- The loop `for _, g := range instancegroups` of `FindCloudInstanceGroups` for
the autoscaling group `name`, with `instancegroup` the match found so far:
the declared group found (or the error), and the warnings logged. -/
def matchInstanceGroup (cluster : Cluster) (name : String) :
    List InstanceGroup → Option InstanceGroup → Except Err (Option InstanceGroup) × List Warning
  | [], instancegroup => (Except.ok instancegroup, [])
  | g :: rest, instancegroup =>
    match asgNameOf cluster g with
    | none =>
      ((matchInstanceGroup cluster name rest instancegroup).1,
        Warning.unknownRole g.Spec.Role ::
          (matchInstanceGroup cluster name rest instancegroup).2)
    | some asgName =>
      if name = asgName then
        match instancegroup with
        | some _ => (Except.error (Err.multipleInstanceGroups asgName), [])
        | none => matchInstanceGroup cluster name rest (some g)
      else
        matchInstanceGroup cluster name rest instancegroup

/-- The loop `for _, asg := range asgs` of `FindCloudInstanceGroups`, with
`groups` the map built so far. -/
def discoverLoop (cluster : Cluster) (instancegroups : List InstanceGroup)
    (warnUnmatched : Bool) (nodeMap : GoMap Node) :
    List AutoscalingGroup → GoMap CloudInstanceGroup → Discovery
  | [], groups => { groups := some groups, err := none, warnings := [] }
  | asg :: rest, groups =>
    match matchInstanceGroup cluster (StringValue asg.AutoScalingGroupName) instancegroups none with
    | (Except.error err, w) => { groups := none, err := some err, warnings := w }
    | (Except.ok none, w) =>
      Discovery.warn
        (w ++ if warnUnmatched = true then
          [Warning.unmatchedASG (StringValue asg.AutoScalingGroupName)] else [])
        (discoverLoop cluster instancegroups warnUnmatched nodeMap rest groups)
    | (Except.ok (some instancegroup), w) =>
      Discovery.warn w
        (discoverLoop cluster instancegroups warnUnmatched nodeMap rest
          (GoMap.set groups instancegroup.Name
            (buildCloudInstanceGroup instancegroup asg nodeMap)))

/-- The loop of `FindCloudInstanceGroups` that fills `nodeMap`: each node is
stored under its `Spec.ExternalID`, a later node replacing an earlier one. -/
def buildNodeMap (nodes : List Node) : GoMap Node :=
  nodes.foldl (fun nodeMap node => GoMap.set nodeMap node.Spec.ExternalID node) []

/-- The function `FindCloudInstanceGroups`. `found` is what
`findAutoscalingGroups(awsCloud, tags)` returned: the live autoscaling groups
carrying the tags of the cluster, or an error. -/
def FindCloudInstanceGroups (found : Except Err (List AutoscalingGroup)) (cluster : Cluster)
    (instancegroups : List InstanceGroup) (warnUnmatched : Bool) (nodes : List Node) :
    Discovery :=
  match found with
  | Except.error err => { groups := none, err := some err, warnings := [] }
  | Except.ok asgs =>
    discoverLoop cluster instancegroups warnUnmatched (buildNodeMap nodes) asgs []

/-! ## `CloudInstanceGroup.RollingUpdate` -/

/-- The constant `retries`. -/
def retries : Nat := 8

/-- The loop `for i := 0; i < retries; i++` of `RollingUpdate` with `remaining`
iterations left, followed by `next` (the rest of the function). -/
def validateLoop (clusterName : String) (interval : Duration) (next : Prog) : Nat → Prog
  | 0 => next
  | remaining + 1 =>
    Prog.validate clusterName fun validateDidNotPass =>
      match validateDidNotPass with
      | some _ => Prog.sleep interval (validateLoop clusterName interval next remaining)
      | none => next

/-- The loop `for _, u := range update` of `RollingUpdate`. Reading `u.Node.Name`
when `u.Node` is nil is a nil-pointer dereference: the goroutine panics. -/
def updateLoop (interval : Duration) : List CloudInstanceGroupInstance → Prog
  | [] => Prog.done (Result.returned none)
  | u :: rest =>
    match u.Node with
    | none => Prog.done Result.panicked
    | some node =>
      Prog.cordon node.Name fun _ =>
        Prog.terminate u.ASGInstance.InstanceId fun err =>
          match err with
          | some e =>
            Prog.done (Result.returned
              (some (Err.deletingInstance (StringValue u.ASGInstance.InstanceId) e)))
          | none =>
            Prog.sleep interval
              (validateLoop node.ClusterName interval (updateLoop interval rest) retries)

/-- The instances `RollingUpdate` works on: `n.NeedUpdate`, and with `force`
the instances of `n.Ready` appended. -/
def CloudInstanceGroup.update (n : CloudInstanceGroup) (force : Bool) :
    List CloudInstanceGroupInstance :=
  if force then n.NeedUpdate ++ n.Ready else n.NeedUpdate

/-- The method `CloudInstanceGroup.RollingUpdate`, as a goroutine body. The cloud
is an AWS cloud (the type assertion `cloud.(awsup.AWSCloud)` holds). -/
def CloudInstanceGroup.RollingUpdate (n : CloudInstanceGroup) (force : Bool)
    (interval : Duration) : Prog :=
  updateLoop interval (n.update force)

/-! ## `RollingUpdateCluster.RollingUpdate` -/

/-- The struct `RollingUpdateCluster` (its `Cloud` is the `Env` of a run). -/
structure RollingUpdateCluster where
  MasterInterval : Duration
  NodeInterval : Duration
  Force : Bool
deriving DecidableEq, Repr

/-- What the language leaves open in a run of `RollingUpdateCluster.RollingUpdate`:
the order in which each `range` visits a map, and the order in which the
scheduler lets the worker goroutines make their calls (`schedule` lists the
index of the goroutine that makes the next call; when it is used up the
goroutines still running finish one after another). -/
structure Runtime where
  rangeMasters : GoMap CloudInstanceGroup → GoMap CloudInstanceGroup
  rangeNodes : GoMap CloudInstanceGroup → GoMap CloudInstanceGroup
  schedule : List Nat
  rangeResults : GoMap (Option Err) → GoMap (Option Err)

/-- A `range` visits every entry of the map exactly once. -/
def Runtime.Valid (rt : Runtime) : Prop :=
  (∀ m, (rt.rangeMasters m).Perm m) ∧ (∀ m, (rt.rangeNodes m).Perm m) ∧
    (∀ m, (rt.rangeResults m).Perm m)

/-- The runtime that visits every map in the order of its entries and runs the
worker goroutines one after another. -/
def Runtime.inOrder : Runtime :=
  { rangeMasters := fun m => m, rangeNodes := fun m => m, schedule := [],
    rangeResults := fun m => m }

/-- The first loop of `RollingUpdate`: splits `groups` into `masterGroups` and
`nodeGroups`, and fails on a group of another role. -/
def partitionGroups : GoMap CloudInstanceGroup → GoMap CloudInstanceGroup →
    GoMap CloudInstanceGroup → Except Err (GoMap CloudInstanceGroup × GoMap CloudInstanceGroup)
  | [], masterGroups, nodeGroups => Except.ok (masterGroups, nodeGroups)
  | (k, group) :: rest, masterGroups, nodeGroups =>
    if group.InstanceGroup.Spec.Role = InstanceGroupRoleNode then
      partitionGroups rest masterGroups (GoMap.set nodeGroups k group)
    else if group.InstanceGroup.Spec.Role = InstanceGroupRoleMaster then
      partitionGroups rest (GoMap.set masterGroups k group) nodeGroups
    else
      Except.error (Err.unknownGroupType group.InstanceGroup.Name)

/-- The statement `results[k] = fmt.Errorf("function panic")` for each key of `keys`. -/
def seedResults (keys : List String) (results : GoMap (Option Err)) : GoMap (Option Err) :=
  keys.foldl (fun r k => GoMap.set r k (some Err.functionPanic)) results

/-- What a phase of the update produced. `crashed` says that a goroutine
panicked, which ends the process: nothing happens after it. Every call is
recorded with the key of the group whose goroutine made it. -/
structure PoolRun (σ : Type) where
  crashed : Bool
  results : GoMap (Option Err)
  trace : List (String × Event)
  world : σ

/-- Puts calls in front of the trace of a phase. -/
def PoolRun.prepend {σ : Type} (t : List (String × Event)) (r : PoolRun σ) : PoolRun σ :=
  { r with trace := t ++ r.trace }

/-- Runs the group updates one after another, storing each returned error in
`results` under the key of the group: the loop of the master goroutine. -/
def runSerial {σ : Type} (env : Env σ) :
    List (String × Prog) → GoMap (Option Err) → σ → PoolRun σ
  | [], results, s => { crashed := false, results := results, trace := [], world := s }
  | (k, p) :: rest, results, s =>
    match (p.run env s).result with
    | Result.panicked =>
      { crashed := true, results := results,
        trace := (p.run env s).trace.map (Prod.mk k), world := (p.run env s).world }
    | Result.returned err =>
      PoolRun.prepend ((p.run env s).trace.map (Prod.mk k))
        (runSerial env rest (GoMap.set results k err) (p.run env s).world)

/-- Whether the goroutine is at a panic. -/
def Prog.panics : Prog → Bool
  | .done Result.panicked => true
  | _ => false

/-- Runs the worker goroutines concurrently: the goroutine picked by the
schedule makes its next call. A goroutine that panics ends the process. -/
def runPool {σ : Type} (env : Env σ) :
    List Nat → List (String × Prog) → GoMap (Option Err) → σ → PoolRun σ
  | [], pool, results, s => runSerial env pool results s
  | i :: schedule, pool, results, s =>
    match pool.get? i with
    | none => runPool env schedule pool results s
    | some (k, p) =>
      if p.panics then
        { crashed := true, results := results, trace := [], world := s }
      else
        match p.step env s with
        | none => runPool env schedule pool results s
        | some (e, p', s') =>
          PoolRun.prepend [(k, e)] (runPool env schedule (pool.set i (k, p')) results s')

/-- The last loop of `RollingUpdate`: the first non-nil error met in `results`. -/
def firstError : GoMap (Option Err) → Option Err
  | [] => none
  | (_, some err) :: _ => some err
  | (_, none) :: rest => firstError rest

/-- What a run of `RollingUpdateCluster.RollingUpdate` produced: how it ended,
the `results` map at that point, the calls made (with the key of the group
they were made for), and the world left. -/
structure ClusterRun (σ : Type) where
  result : Result
  results : GoMap (Option Err)
  trace : List (String × Event)
  world : σ

/-- The goroutine bodies of the groups of a map, in the order of `groups`. -/
def groupProgs (force : Bool) (interval : Duration) (groups : GoMap CloudInstanceGroup) :
    List (String × Prog) :=
  groups.map fun kg => (kg.1, kg.2.RollingUpdate force interval)

/-- The method `RollingUpdateCluster.RollingUpdate`. `groups` lists the entries
of the map in the order the first loop visits them. -/
def RollingUpdateCluster.RollingUpdate {σ : Type} (c : RollingUpdateCluster) (env : Env σ)
    (rt : Runtime) (groups : GoMap CloudInstanceGroup) (s : σ) : ClusterRun σ :=
  if groups.length = 0 then
    { result := Result.returned none, results := [], trace := [], world := s }
  else
    match partitionGroups groups [] [] with
    | Except.error err =>
      { result := Result.returned (some err), results := [], trace := [], world := s }
    | Except.ok (masterGroups, nodeGroups) =>
      -- Upgrade master first
      let m := runSerial env (groupProgs c.Force c.MasterInterval (rt.rangeMasters masterGroups))
        (seedResults (GoMap.keys masterGroups) []) s
      if m.crashed then
        { result := Result.panicked, results := m.results, trace := m.trace, world := m.world }
      else
        -- Upgrade nodes, with greater parallelism
        let w := runPool env rt.schedule
          (groupProgs c.Force c.NodeInterval (rt.rangeNodes nodeGroups))
          (seedResults (GoMap.keys nodeGroups) m.results) m.world
        if w.crashed then
          { result := Result.panicked, results := w.results, trace := m.trace ++ w.trace,
            world := w.world }
        else
          { result := Result.returned (firstError (rt.rangeResults w.results)),
            results := w.results, trace := m.trace ++ w.trace, world := w.world }

/-! ## Paths of a goroutine body -/

/-- The goroutine body left after the calls `t` were made and answered as
recorded, when `t` are calls this body makes. -/
def Prog.after : Prog → List Event → Option Prog
  | p, [] => some p
  | .cordon nodeName k, Event.cordon nodeName' err :: t =>
    if nodeName = nodeName' then Prog.after (k err) t else none
  | .terminate instanceId k, Event.terminate instanceId' err :: t =>
    if instanceId = instanceId' then Prog.after (k err) t else none
  | .sleep interval k, Event.sleep interval' :: t =>
    if interval = interval' then Prog.after k t else none
  | .validate clusterName k, Event.validate clusterName' err :: t =>
    if clusterName = clusterName' then Prog.after (k err) t else none
  | _, _ :: _ => none

/-- The calls of a trace made for the group of key `k`. -/
def callsOf (k : String) (t : List (String × Event)) : List Event :=
  (t.filter fun x => x.1 = k).map Prod.snd

/-- The instance ids of the termination calls of a trace, in order. -/
def terminated : List Event → List (Option String)
  | [] => []
  | Event.terminate instanceId _ :: t => instanceId :: terminated t
  | _ :: t => terminated t

/-- The validation calls of a trace, in order. -/
def validations : List Event → List Event
  | [] => []
  | Event.validate clusterName err :: t => Event.validate clusterName err :: validations t
  | _ :: t => validations t

/-- Whether the event is a termination call that returned an error. -/
def Event.isTerminateError : Event → Bool
  | Event.terminate _ (some _) => true
  | _ => false

/-- Whether the event is a sleep or a validation call. -/
def Event.isWait : Event → Bool
  | Event.sleep _ => true
  | Event.validate _ _ => true
  | _ => false

/-- The event with the error returned by a cordon call forgotten. -/
def Event.forgetCordon : Event → Event
  | Event.cordon nodeName _ => Event.cordon nodeName none
  | e => e

/-- The environment `env` with the error returned by every cordon call
replaced by `f`, the effect of the call on the world unchanged. -/
def Env.withCordonErrors {σ : Type} (env : Env σ) (f : String → σ → Option Err) : Env σ :=
  { env with cordon := fun nodeName s => (f nodeName s, (env.cordon nodeName s).2) }

/-- Puts events in front of the trace of a run. -/
def Run.prepend {σ : Type} (t : List Event) (r : Run σ) : Run σ :=
  { r with trace := t ++ r.trace }

/-- The calls made by the validation loop of `RollingUpdate` with `remaining`
iterations left, started in world `s`, and the world it leaves. -/
def validateWait {σ : Type} (env : Env σ) (clusterName : String) (interval : Duration) :
    Nat → σ → List Event × σ
  | 0, s => ([], s)
  | remaining + 1, s =>
    match (env.validate clusterName s).1 with
    | some err =>
      (Event.validate clusterName (some err) :: Event.sleep interval ::
          (validateWait env clusterName interval remaining
            (env.sleep interval (env.validate clusterName s).2)).1,
        (validateWait env clusterName interval remaining
            (env.sleep interval (env.validate clusterName s).2)).2)
    | none => ([Event.validate clusterName none], (env.validate clusterName s).2)

/-- What a phase guarantees: its calls are made for groups of the pool, it writes
only the result slots of the pool, and unless a goroutine panicked every
goroutine ran to its end along its own calls and stored what it returned. -/
def PoolSpec {σ : Type} (pool : List (String × Prog)) (results : GoMap (Option Err))
    (r : PoolRun σ) : Prop :=
  (∀ x ∈ r.trace, x.1 ∈ pool.map Prod.fst) ∧
    (∀ k, k ∉ pool.map Prod.fst → GoMap.get r.results k = GoMap.get results k) ∧
    (r.crashed = false → ∀ kp ∈ pool, ∃ err,
      kp.2.after (callsOf kp.1 r.trace) = some (Prog.done (Result.returned err)) ∧
        GoMap.get r.results kp.1 = some err)

/-- The master-role entries of a map of groups. -/
def mastersOf (groups : GoMap CloudInstanceGroup) : GoMap CloudInstanceGroup :=
  groups.filter fun kg => decide (kg.2.InstanceGroup.Spec.Role = InstanceGroupRoleMaster)

/-- The node-role entries of a map of groups. -/
def nodesOf (groups : GoMap CloudInstanceGroup) : GoMap CloudInstanceGroup :=
  groups.filter fun kg => decide (kg.2.InstanceGroup.Spec.Role = InstanceGroupRoleNode)

/-- The master phase of `RollingUpdateCluster.RollingUpdate` on the master-role
entries of `groups`. -/
def masterPhase {σ : Type} (c : RollingUpdateCluster) (env : Env σ) (rt : Runtime)
    (groups : GoMap CloudInstanceGroup) (s : σ) : PoolRun σ :=
  runSerial env (groupProgs c.Force c.MasterInterval (rt.rangeMasters (mastersOf groups)))
    (seedResults (GoMap.keys (mastersOf groups)) []) s

/-- The worker phase of `RollingUpdateCluster.RollingUpdate` on the node-role
entries of `groups`, started where the master phase ended. -/
def workerPhase {σ : Type} (c : RollingUpdateCluster) (env : Env σ) (rt : Runtime)
    (groups : GoMap CloudInstanceGroup) (s : σ) : PoolRun σ :=
  runPool env rt.schedule (groupProgs c.Force c.NodeInterval (rt.rangeNodes (nodesOf groups)))
    (seedResults (GoMap.keys (nodesOf groups)) (masterPhase c env rt groups s).results)
    (masterPhase c env rt groups s).world

/-- The position of `x` in `ks`, or the length of `ks` when `x` is not in it. -/
def rank : List String → String → Nat
  | [], _ => 0
  | k :: ks, x => if x = k then 0 else rank ks x + 1

/-- The instance with its link to a cluster node forgotten. -/
def CloudInstanceGroupInstance.withoutNode (c : CloudInstanceGroupInstance) :
    CloudInstanceGroupInstance :=
  { c with Node := none }

/-- The group with the links of its instances to cluster nodes forgotten. -/
def CloudInstanceGroup.withoutNodes (n : CloudInstanceGroup) : CloudInstanceGroup :=
  { n with Ready := n.Ready.map CloudInstanceGroupInstance.withoutNode,
           NeedUpdate := n.NeedUpdate.map CloudInstanceGroupInstance.withoutNode }

/-- The map of groups with the links of all instances to cluster nodes forgotten. -/
def withoutNodes (groups : GoMap CloudInstanceGroup) : GoMap CloudInstanceGroup :=
  groups.map fun kg => (kg.1, kg.2.withoutNodes)

/-- The goroutine body `RollingUpdateCluster.RollingUpdate` runs for a group:
`group.RollingUpdate` with `c.MasterInterval` for a master-role group and with
`c.NodeInterval` for a node-role group. -/
def RollingUpdateCluster.groupProg (c : RollingUpdateCluster) (g : CloudInstanceGroup) : Prog :=
  if g.InstanceGroup.Spec.Role = InstanceGroupRoleMaster then
    g.RollingUpdate c.Force c.MasterInterval
  else
    g.RollingUpdate c.Force c.NodeInterval

/-- Every `time.Sleep` of the goroutine body is for `interval`. -/
inductive SleepsAre (interval : Duration) : Prog → Prop where
  | done (r : Result) : SleepsAre interval (Prog.done r)
  | cordon (nodeName : String) (k : Option Err → Prog) :
    (∀ err, SleepsAre interval (k err)) → SleepsAre interval (Prog.cordon nodeName k)
  | terminate (instanceId : Option String) (k : Option Err → Prog) :
    (∀ err, SleepsAre interval (k err)) → SleepsAre interval (Prog.terminate instanceId k)
  | sleep (k : Prog) : SleepsAre interval k → SleepsAre interval (Prog.sleep interval k)
  | validate (clusterName : String) (k : Option Err → Prog) :
    (∀ err, SleepsAre interval (k err)) → SleepsAre interval (Prog.validate clusterName k)

/-! ## The command `kops rolling-update cluster` -/

/-- Go `time.Minute`, in nanoseconds. -/
def Minute : Duration := 60000000000

/-- The struct `RollingUpdateOptions` of `cmd/kops/rollingupdate_cluster.go`. -/
structure RollingUpdateOptions where
  Yes : Bool
  Force : Bool
  CloudOnly : Bool
  MasterInterval : Duration
  NodeInterval : Duration
  BastionInterval : Duration
  ClusterName : String
deriving DecidableEq, Repr

/-- The method `RollingUpdateOptions.InitDefaults`. -/
def RollingUpdateOptions.InitDefaults (o : RollingUpdateOptions) : RollingUpdateOptions :=
  { o with
    Yes := false
    Force := false
    CloudOnly := false
    MasterInterval := 5 * Minute
    NodeInterval := 2 * Minute
    BastionInterval := 5 * Minute }

/-- The `kutil.RollingUpdateCluster` that `RunRollingUpdateCluster` builds from
the options (`d := &kutil.RollingUpdateCluster{...}`). -/
def RollingUpdateOptions.toRollingUpdateCluster (o : RollingUpdateOptions) :
    RollingUpdateCluster :=
  { MasterInterval := o.MasterInterval, NodeInterval := o.NodeInterval, Force := o.Force }

/-! ## Package `fi`: the pointer helpers of `upup/pkg/fi/values.go`

A Go pointer is an `Option`: `none` is nil, `some v` points to a copy of `v`.
Go `int` and `int64` values are integers, `uint64` values are naturals; the
helpers do no arithmetic on them. The readers come first, the makers (whose
names are those of the types) last. -/

/-- The function `fi.StringValue`. -/
def fi.StringValue (s : Option String) : String :=
  match s with
  | none => ""
  | some v => v

/-- The function `fi.BoolValue`. -/
def fi.BoolValue (v : Option Bool) : Bool :=
  match v with
  | none => false
  | some b => b

/-- The function `fi.IntValue`. -/
def fi.IntValue (v : Option Int) : Int :=
  match v with
  | none => 0
  | some i => i

/-- The function `fi.Int64Value`. -/
def fi.Int64Value (v : Option Int) : Int :=
  match v with
  | none => 0
  | some i => i

/-- The function `fi.Uint64Value`. -/
def fi.Uint64Value (v : Option Nat) : Nat :=
  match v with
  | none => 0
  | some i => i

/-- The function `fi.Int64`. -/
def fi.Int64 (v : Int) : Option Int := some v

/-- The function `fi.Int`. -/
def fi.Int (v : Int) : Option Int := some v

/-- The function `fi.Bool`. -/
def fi.Bool (v : Bool) : Option Bool := some v

/-- The function `fi.String`. -/
def fi.String (s : String) : Option String := some s

/-! ## Block device mappings (`upup/pkg/fi/cloudup/awstasks/block_device_mappings.go`) -/

/-- The helper `aws.String`: a pointer to the string. -/
def aws.String (v : String) : Option String := some v

/-- The struct `awstasks.BlockDeviceMapping`. -/
structure BlockDeviceMapping where
  VirtualName : Option String
  EbsDeleteOnTermination : Option Bool
  EbsVolumeSize : Option Int
  EbsVolumeType : Option String
deriving DecidableEq, Repr

/-- The fields of `ec2.EbsBlockDevice` the block device mappings read and write. -/
structure ec2.EbsBlockDevice where
  DeleteOnTermination : Option Bool
  VolumeSize : Option Int
  VolumeType : Option String
deriving DecidableEq, Repr

/-- The fields of `ec2.BlockDeviceMapping` the block device mappings read and
write; `Ebs` is a nil-able pointer. -/
structure ec2.BlockDeviceMapping where
  DeviceName : Option String
  VirtualName : Option String
  Ebs : Option ec2.EbsBlockDevice
deriving DecidableEq, Repr

/-- The fields of `autoscaling.Ebs` the block device mappings read and write. -/
structure autoscaling.Ebs where
  DeleteOnTermination : Option Bool
  VolumeSize : Option Int
  VolumeType : Option String
deriving DecidableEq, Repr

/-- The fields of `autoscaling.BlockDeviceMapping` the block device mappings read
and write; `Ebs` is a nil-able pointer. -/
structure autoscaling.BlockDeviceMapping where
  DeviceName : Option String
  VirtualName : Option String
  Ebs : Option autoscaling.Ebs
deriving DecidableEq, Repr

/-- The function `BlockDeviceMappingFromEC2`, on the mapping `i` points to. -/
def BlockDeviceMappingFromEC2 (i : ec2.BlockDeviceMapping) : String × BlockDeviceMapping :=
  let o : BlockDeviceMapping :=
    { VirtualName := none, EbsDeleteOnTermination := none, EbsVolumeSize := none,
      EbsVolumeType := none }
  let o := { o with VirtualName := i.VirtualName }
  let o :=
    match i.Ebs with
    | some ebs =>
      { o with
        EbsDeleteOnTermination := ebs.DeleteOnTermination
        EbsVolumeSize := ebs.VolumeSize
        EbsVolumeType := ebs.VolumeType }
    | none => o
  (StringValue i.DeviceName, o)

/-- The method `BlockDeviceMapping.ToEC2`. -/
def BlockDeviceMapping.ToEC2 (i : BlockDeviceMapping) (deviceName : String) :
    ec2.BlockDeviceMapping :=
  let o : ec2.BlockDeviceMapping := { DeviceName := none, VirtualName := none, Ebs := none }
  let o := { o with DeviceName := aws.String deviceName }
  let o := { o with VirtualName := i.VirtualName }
  if i.EbsDeleteOnTermination ≠ none ∨ i.EbsVolumeSize ≠ none ∨ i.EbsVolumeType ≠ none then
    { o with
      Ebs := some
        { DeleteOnTermination := i.EbsDeleteOnTermination
          VolumeSize := i.EbsVolumeSize
          VolumeType := i.EbsVolumeType } }
  else
    o

/-- The function `BlockDeviceMappingFromAutoscaling`, on the mapping `i` points to. -/
def BlockDeviceMappingFromAutoscaling (i : autoscaling.BlockDeviceMapping) :
    String × BlockDeviceMapping :=
  let o : BlockDeviceMapping :=
    { VirtualName := none, EbsDeleteOnTermination := none, EbsVolumeSize := none,
      EbsVolumeType := none }
  let o := { o with VirtualName := i.VirtualName }
  let o :=
    match i.Ebs with
    | some ebs =>
      { o with
        EbsDeleteOnTermination := ebs.DeleteOnTermination
        EbsVolumeSize := ebs.VolumeSize
        EbsVolumeType := ebs.VolumeType }
    | none => o
  (StringValue i.DeviceName, o)

/-- The method `BlockDeviceMapping.ToAutoscaling`. -/
def BlockDeviceMapping.ToAutoscaling (i : BlockDeviceMapping) (deviceName : String) :
    autoscaling.BlockDeviceMapping :=
  let o : autoscaling.BlockDeviceMapping :=
    { DeviceName := none, VirtualName := none, Ebs := none }
  let o := { o with DeviceName := aws.String deviceName }
  let o := { o with VirtualName := i.VirtualName }
  if i.EbsDeleteOnTermination ≠ none ∨ i.EbsVolumeSize ≠ none ∨ i.EbsVolumeType ≠ none then
    { o with
      Ebs := some
        { DeleteOnTermination := i.EbsDeleteOnTermination
          VolumeSize := i.EbsVolumeSize
          VolumeType := i.EbsVolumeType } }
  else
    o

/-- The method `BlockDeviceMapping.GetDependencies`: `return nil`, whatever the
map of tasks is (`τ` is the interface type `fi.Task`; the nil slice is the empty
list). -/
def BlockDeviceMapping.GetDependencies {τ : Type} (_f : BlockDeviceMapping)
    (_tasks : GoMap τ) : List τ :=
  []

/-! ## IAM subjects (`pkg/model/iam/subject.go`) -/

/-- The role constant `kops.InstanceGroupRoleAPIServer`. -/
def InstanceGroupRoleAPIServer : String := "APIServer"

/-- The role constant `kops.InstanceGroupRoleBastion`. -/
def InstanceGroupRoleBastion : String := "Bastion"

/-- The struct `types.NamespacedName`; `NamespacedName{}` has two empty strings. -/
structure NamespacedName where
  Namespace : String
  Name : String
deriving DecidableEq, Repr

/-- The implementations of the interface `Subject` in `subject.go`: the four node
roles and `GenericServiceAccount` (of which only the field `NamespacedName` is
read by `ServiceAccount`). -/
inductive Subject where
  /-- The value `&NodeRoleMaster{}`. -/
  | NodeRoleMaster
  /-- The value `&NodeRoleAPIServer{warmPool: ...}`. -/
  | NodeRoleAPIServer (warmPool : Bool)
  /-- The value `&NodeRoleNode{enableLifecycleHookPermissions: ...}`. -/
  | NodeRoleNode (enableLifecycleHookPermissions : Bool)
  /-- The value `&NodeRoleBastion{}`. -/
  | NodeRoleBastion
  /-- The value `&GenericServiceAccount{NamespacedName: ...}`. -/
  | GenericServiceAccount (NamespacedName : NamespacedName)
deriving DecidableEq, Repr

/-- The method `ServiceAccount` of each implementation of `Subject`. -/
def Subject.ServiceAccount : Subject → NamespacedName × Bool
  | Subject.NodeRoleMaster => ({ Namespace := "", Name := "" }, false)
  | Subject.NodeRoleAPIServer _ => ({ Namespace := "", Name := "" }, false)
  | Subject.NodeRoleNode _ => ({ Namespace := "", Name := "" }, false)
  | Subject.NodeRoleBastion => ({ Namespace := "", Name := "" }, false)
  | Subject.GenericServiceAccount g => (g, true)

/-- The function `BuildNodeRoleSubject`: the subject (`none` is the nil
interface) and the error. -/
def BuildNodeRoleSubject (igRole : String) (enableLifecycleHookPermissions : Bool) :
    Option Subject × Option Err :=
  if igRole = InstanceGroupRoleMaster then
    (some Subject.NodeRoleMaster, none)
  else if igRole = InstanceGroupRoleAPIServer then
    (some (Subject.NodeRoleAPIServer enableLifecycleHookPermissions), none)
  else if igRole = InstanceGroupRoleNode then
    (some (Subject.NodeRoleNode enableLifecycleHookPermissions), none)
  else if igRole = InstanceGroupRoleBastion then
    (some Subject.NodeRoleBastion, none)
  else
    (none, some (Err.unknownInstanceGroupRole igRole))

/-! ## The GCE cloud (`upup/pkg/fi/cloudup/gce/gce_cloud.go`) -/

/-- Go `unicode.IsSpace`: the characters with the Unicode property White Space. -/
def unicode.IsSpace (r : Char) : Bool :=
  (9 ≤ r.toNat && r.toNat ≤ 13) || r.toNat = 32 || r.toNat = 0x85 || r.toNat = 0xA0 ||
    r.toNat = 0x1680 || (0x2000 ≤ r.toNat && r.toNat ≤ 0x200A) || r.toNat = 0x2028 ||
    r.toNat = 0x2029 || r.toNat = 0x202F || r.toNat = 0x205F || r.toNat = 0x3000

/-- Go `strings.TrimSpace`: the string with all leading and trailing white space
removed. -/
def strings.TrimSpace (s : String) : String :=
  String.mk ((s.toList.dropWhile unicode.IsSpace).reverse.dropWhile unicode.IsSpace).reverse

/-- The struct `compute.MetadataItems`: a key and a nil-able value. -/
structure compute.MetadataItems where
  Key : String
  Value : Option String
deriving DecidableEq, Repr

/-- The part of `compute.Metadata` that `FindInstanceTemplates` reads. -/
structure compute.Metadata where
  Items : List compute.MetadataItems
deriving DecidableEq, Repr

/-- The part of `compute.InstanceProperties` that `FindInstanceTemplates` reads;
`Metadata` is a nil-able pointer. -/
structure compute.InstanceProperties where
  Metadata : Option compute.Metadata
deriving DecidableEq, Repr

/-- The part of `compute.InstanceTemplate` that `FindInstanceTemplates` reads;
`Properties` is a nil-able pointer. -/
structure compute.InstanceTemplate where
  Name : String
  Properties : Option compute.InstanceProperties
deriving DecidableEq, Repr

/-- The struct `compute.InstanceTemplateList`: a page of the listing. -/
structure compute.InstanceTemplateList where
  Items : List compute.InstanceTemplate
deriving DecidableEq, Repr

/-- How a Go function that returns a value and an error ends: it returns, or it
panics. -/
inductive Returns (α : Type) where
  | returned (value : α) (err : Option Err)
  | panicked
deriving DecidableEq, Repr

/-- The loop `for _, item := range t.Properties.Metadata.Items` of
`FindInstanceTemplates`, with `matched` the value of the variable `match`. -/
def matchItems (findClusterName : String) : List compute.MetadataItems → Bool → Bool
  | [], matched => matched
  | item :: rest, matched =>
    if item.Key = "cluster-name" then
      if strings.TrimSpace (fi.StringValue item.Value) = findClusterName then
        matchItems findClusterName rest true
      else
        false
    else
      matchItems findClusterName rest matched

/-- The value of `match` after the inner loop of `FindInstanceTemplates` for the
template `t`; `none` when `t.Properties` or `t.Properties.Metadata` is nil, whose
dereference panics. -/
def matchTemplate (findClusterName : String) (t : compute.InstanceTemplate) : Option Bool :=
  match t.Properties with
  | none => none
  | some properties =>
    match properties.Metadata with
    | none => none
    | some metadata => some (matchItems findClusterName metadata.Items false)

/-- The loop `for _, t := range page.Items` of `FindInstanceTemplates`, with
`found` the slice `matches` so far; `none` when it panics. -/
def scanItems (findClusterName : String) :
    List compute.InstanceTemplate → List compute.InstanceTemplate →
      Option (List compute.InstanceTemplate)
  | [], found => some found
  | t :: rest, found =>
    match matchTemplate findClusterName t with
    | none => none
    | some true => scanItems findClusterName rest (found ++ [t])
    | some false => scanItems findClusterName rest found

/-- The calls of the page function of `FindInstanceTemplates`, one per page of
the listing, in order. -/
def scanPages (findClusterName : String) :
    List compute.InstanceTemplateList → List compute.InstanceTemplate →
      Option (List compute.InstanceTemplate)
  | [], found => some found
  | page :: rest, found =>
    match scanItems findClusterName page.Items found with
    | none => none
    | some found' => scanPages findClusterName rest found'

/-- The function `FindInstanceTemplates`. The listing
`c.Compute().InstanceTemplates.List(c.Project()).Pages(ctx, f)` hands the pages
`pages` to `f`, in order, and then returns `listErr`. The nil slice is the empty
list. -/
def FindInstanceTemplates (pages : List compute.InstanceTemplateList) (listErr : Option Err)
    (clusterName : String) : Returns (List compute.InstanceTemplate) :=
  let findClusterName := strings.TrimSpace clusterName
  match scanPages findClusterName pages [] with
  | none => Returns.panicked
  | some found =>
    match listErr with
    | some err => Returns.returned [] (some (Err.listingInstanceTemplates err))
    | none => Returns.returned found none

/-- The metadata items of an instance template (none when it has no properties
or no metadata). -/
def compute.InstanceTemplate.metadataItems (t : compute.InstanceTemplate) :
    List compute.MetadataItems :=
  match t.Properties with
  | none => []
  | some properties =>
    match properties.Metadata with
    | none => []
    | some metadata => metadata.Items

/-- The part of `compute.ForwardingRule` that `GetApiIngressStatus` reads. -/
structure compute.ForwardingRule where
  IPAddress : String
deriving DecidableEq, Repr

/-- The field of `kops.ApiIngressStatus` that `GetApiIngressStatus` sets. -/
structure ApiIngressStatus where
  IP : String
deriving DecidableEq, Repr

/-- The method `gceCloudImplementation.GetApiIngressStatus`. `name` is the value
of `SafeObjectName("api", cluster.ObjectMeta.Name)`, `lookup` is what
`c.compute.ForwardingRules.Get(c.project, c.region, name).Do()` returned (the
rule, nil-able, and the error), and `IsNotFound` is the predicate of that name
of package `gce`. The nil slice is the empty list. -/
def GetApiIngressStatus (IsNotFound : Err → Bool) (name : String)
    (lookup : Option compute.ForwardingRule × Option Err) :
    List ApiIngressStatus × Option Err :=
  let ingresses : List ApiIngressStatus := []
  let checked : Except Err (Option compute.ForwardingRule) :=
    match lookup.2 with
    | some err =>
      if !IsNotFound err then
        Except.ok none
      else
        Except.error (Err.gettingForwardingRule name err)
    | none => Except.ok lookup.1
  match checked with
  | Except.error e => ([], some e)
  | Except.ok none => (ingresses, none)
  | Except.ok (some forwardingRule) =>
    if forwardingRule.IPAddress = "" then
      ([], some (Err.forwardRuleWithoutIPAddress name))
    else
      (ingresses ++ [{ IP := forwardingRule.IPAddress }], none)

/-! ## The test helper `Validate` (`test/validation_test.go`) -/

/-- The constant `ApiTimeoutIterations`. -/
def ApiTimeoutIterations : Nat := 300

/-- Go `time.Second`, in nanoseconds. -/
def Second : Duration := 1000000000

/-- The constant `ApiTimeoutDuration`. -/
def ApiTimeoutDuration : Duration := Second * 1

/-- A call made by the test helper `Validate`. -/
inductive TestEvent where
  /-- The call `ExecOuput(KopsPath, kopsValidationCommand, []string{})`, with the
  error it returned. -/
  | ExecOuput (stderr : Option Err)
  /-- The call `time.Sleep(d)`. -/
  | Sleep (d : Duration)
deriving DecidableEq, Repr

/-- What a run of `Validate` produced: the error returned and the calls made. -/
structure TestRun where
  err : Option Err
  trace : List TestEvent
deriving DecidableEq, Repr

/-- The loop `for i := 0; i <= ApiTimeoutIterations; i++` of `Validate` from the
iteration `i` on, with `remaining` iterations left, and the `return nil` that
follows it; `stderr k` is the error returned by the call of iteration `k` (the
call number `k`, counted from 0). -/
def validateIterations (stderr : Nat → Option Err) : Nat → Nat → TestRun
  | 0, _ => { err := none, trace := [] }
  | remaining + 1, i =>
    match stderr i with
    | some e =>
      if i = ApiTimeoutIterations then
        { err := some (Err.unableToValidate e), trace := [TestEvent.ExecOuput (some e)] }
      else
        -- time.Sleep(ApiTimeoutDuration); break
        { err := none,
          trace := [TestEvent.ExecOuput (some e), TestEvent.Sleep ApiTimeoutDuration] }
    | none =>
      { err := (validateIterations stderr remaining (i + 1)).err,
        trace := TestEvent.ExecOuput none :: (validateIterations stderr remaining (i + 1)).trace }

/-- The test helper `Validate`. -/
def Validate (stderr : Nat → Option Err) : TestRun :=
  validateIterations stderr (ApiTimeoutIterations + 1) 0

/-! ## `RunRollingUpdateCluster` (`cmd/kops/rollingupdate_cluster.go`) -/

/-- What the collaborators of `RunRollingUpdateCluster` answer: the factory, the
kube client, the cloud and the table renderer. -/
structure Factory where
  /-- The error of `f.Clientset()`. -/
  Clientset : Option Err
  /-- What `GetCluster(f, options.ClusterName)` returns. -/
  GetCluster : Except Err Cluster
  /-- The error of `clientcmd.NewNonInteractiveDeferredLoadingClientConfig(...).ClientConfig()`. -/
  ClientConfig : Option Err
  /-- The error of `k8s_clientset.NewForConfig(config)`. -/
  NewForConfig : Option Err
  /-- What `k8sClient.Core().Nodes().List(...)` returns: the node list (nil-able)
  or an error. -/
  ListNodes : Except Err (Option (List Node))
  /-- What `clientset.InstanceGroups(...).List(...)` returns. -/
  ListInstanceGroups : Except Err (List InstanceGroup)
  /-- The error of `cloudup.BuildCloud(cluster)`. -/
  BuildCloud : Option Err
  /-- What the cloud answers to `findAutoscalingGroups`. -/
  findAutoscalingGroups : Except Err (List AutoscalingGroup)
  /-- The error of `t.Render(l, out, columns...)`. -/
  Render : Option Err

/-- A line `RunRollingUpdateCluster` prints before it returns nil. -/
inductive Notice where
  /-- The line `No rolling-update required`. -/
  | noRollingUpdateRequired
  /-- The line `Must specify --yes to rolling-update`. -/
  | mustSpecifyYes
deriving DecidableEq, Repr

/-- What a run of `RunRollingUpdateCluster` produced: how it ended, the line it
printed, and what the call `d.RollingUpdate(groups, k8sClient)` produced when it
was made (`none` when it was not made). -/
structure CommandRun (σ : Type) where
  result : Result
  notice : Option Notice
  update : Option (ClusterRun σ)

/-- The calls to kubectl, EC2, sleep and the validator of a run of the command:
those of the rolling update, when it was called. -/
def CommandRun.trace {σ : Type} (r : CommandRun σ) : List (String × Event) :=
  match r.update with
  | some u => u.trace
  | none => []

/-- The world a run of the command started in `s` leaves. -/
def CommandRun.world {σ : Type} (r : CommandRun σ) (s : σ) : σ :=
  match r.update with
  | some u => u.world
  | none => s

/-- The nodes `RunRollingUpdateCluster` hands to discovery: none with
`--cloudonly`, else the items of the node list of the cluster. -/
def listNodes (f : Factory) (options : RollingUpdateOptions) (contextName : String) :
    Except Err (List Node) :=
  if !options.CloudOnly then
    match f.NewForConfig with
    | some err => Except.error (Err.kubeClient contextName err)
    | none =>
      match f.ListNodes with
      | Except.error err => Except.error (Err.listingNodes err)
      | Except.ok (some nodeList) => Except.ok nodeList
      | Except.ok none => Except.ok []
  else
    Except.ok []

/-- The statements of `RunRollingUpdateCluster` up to the rendering of the table
of groups: the map of groups discovered, or the error the function returns. -/
def discoverGroups (f : Factory) (options : RollingUpdateOptions) :
    Except Err (GoMap CloudInstanceGroup) :=
  match f.Clientset with
  | some err => Except.error err
  | none =>
    match f.GetCluster with
    | Except.error err => Except.error err
    | Except.ok cluster =>
      match f.ClientConfig with
      | some err => Except.error (Err.kubecfgSettings cluster.Name err)
      | none =>
        match listNodes f options cluster.Name with
        | Except.error err => Except.error err
        | Except.ok nodes =>
          match f.ListInstanceGroups with
          | Except.error err => Except.error err
          | Except.ok instancegroups =>
            match f.BuildCloud with
            | some err => Except.error err
            | none =>
              match (FindCloudInstanceGroups f.findAutoscalingGroups cluster instancegroups
                  true nodes).err with
              | some err => Except.error err
              | none =>
                match f.Render with
                | some err => Except.error err
                | none =>
                  Except.ok ((FindCloudInstanceGroups f.findAutoscalingGroups cluster
                    instancegroups true nodes).groups.getD [])

/-- The loop `for _, group := range groups` of `RunRollingUpdateCluster` that
computes `needUpdate`. -/
def needUpdate (groups : GoMap CloudInstanceGroup) : Bool :=
  groups.any fun kg => kg.2.NeedUpdate.length != 0

/-- The function `RunRollingUpdateCluster`. `rangeGroups` is the order in which
the rolling update visits the map of groups. -/
def RunRollingUpdateCluster {σ : Type} (f : Factory) (options : RollingUpdateOptions)
    (env : Env σ) (rt : Runtime)
    (rangeGroups : GoMap CloudInstanceGroup → GoMap CloudInstanceGroup) (s : σ) :
    CommandRun σ :=
  match discoverGroups f options with
  | Except.error err =>
    { result := Result.returned (some err), notice := none, update := none }
  | Except.ok groups =>
    if !needUpdate groups && !options.Force then
      { result := Result.returned none, notice := some Notice.noRollingUpdateRequired,
        update := none }
    else if !options.Yes then
      { result := Result.returned none, notice := some Notice.mustSpecifyYes, update := none }
    else
      { result :=
          (options.toRollingUpdateCluster.RollingUpdate env rt (rangeGroups groups) s).result
        notice := none
        update :=
          some (options.toRollingUpdateCluster.RollingUpdate env rt (rangeGroups groups) s) }

/-! ## The Convergence Executor

The executor (`Apply`, package `upup/pkg/fi`) is not among the source files of
this development; it is modelled from sections 3, 4.2, 6 and 7 of the
specification. -/

/-- Modelled from the spec: the lifecycle mode of a task (section 3); the type
of the executor, which is not among the source files. -/
inductive LifecycleMode where
  /-- Fail if absent. -/
  | MustExist
  /-- Read-only check. -/
  | ExistsAndValidates
  /-- Create-or-update to match the declaration. -/
  | Sync
  /-- Detect drift, log, do not mutate. -/
  | WarnIfChanges
deriving DecidableEq, Repr

/-- Modelled from the spec: a task (section 3), the unit the missing resolver
and executor work on: a stable name, a declared property set that is opaque to
the engine, a lifecycle mode, and the names of the tasks it holds a reference
to (none unless given). -/
structure Task where
  name : String
  declared : List (String × String)
  mode : LifecycleMode
  references : List String := []
deriving DecidableEq, Repr

/-- Modelled from the spec: how the cloud collaborator classifies a
create/update call of the missing executor (sections 4.2 and 6): success, a
retryable failure or a fatal failure. -/
inductive Outcome where
  | success
  | retryable
  | fatal (msg : String)
deriving DecidableEq, Repr

/-- Modelled from the spec: the cloud handle the missing executor calls
(section 6), on a cloud state `σ`: `Find` by identity, `Create` and `Update`. -/
structure CloudHandle (σ : Type) where
  find : String → σ → Option (List (String × String))
  create : Task → σ → Outcome × σ
  update : Task → σ → Outcome × σ

/-- Modelled from the spec: what the missing executor may assume of the cloud
handle: a call that reports success leaves the object matching the declaration
(section 4.2, "success (state now matches declaration)"), and a call made for a
task leaves the objects of the other identities as they were. -/
structure CloudHandle.Lawful {σ : Type} (cloud : CloudHandle σ) : Prop where
  create_success : ∀ t s, (cloud.create t s).1 = Outcome.success →
    cloud.find t.name (cloud.create t s).2 = some t.declared
  update_success : ∀ t s, (cloud.update t s).1 = Outcome.success →
    cloud.find t.name (cloud.update t s).2 = some t.declared
  create_frame : ∀ t s n, n ≠ t.name → cloud.find n (cloud.create t s).2 = cloud.find n s
  update_frame : ∀ t s n, n ≠ t.name → cloud.find n (cloud.update t s).2 = cloud.find n s

/-- Modelled from the spec: the kind of a change of the missing executor. -/
inductive ChangeKind where
  | create
  | update
deriving DecidableEq, Repr

/-- Modelled from the spec: an entry of the change summary of the missing
executor, or a call it made to the provider: the task and the kind of change. -/
structure Change where
  task : String
  kind : ChangeKind
deriving DecidableEq, Repr

/-- Modelled from the spec: what `Apply` of the missing executor yields: the
change summary, the first fatal error with the identity of the responsible
task, the create/update calls made to the provider, the drift warnings logged,
and the cloud state left. -/
structure ApplyResult (σ : Type) where
  changeSummary : List Change
  error : Option (String × String)
  calls : List Change
  warnings : List String
  state : σ

/-- Modelled from the spec: a create/update call of the missing executor with
its retries (section 4.2, step 4): a retryable failure is retried up to the
attempt ceiling and is fatal once the ceiling is reached (section 7); with the
outcome and the state, the number of calls made. -/
def retryCall {σ : Type} (call : σ → Outcome × σ) : Nat → σ → Outcome × σ × Nat
  | 0, s => (Outcome.fatal "retry ceiling reached", s, 0)
  | attempts + 1, s =>
    match (call s).1 with
    | Outcome.success => (Outcome.success, (call s).2, 1)
    | Outcome.fatal msg => (Outcome.fatal msg, (call s).2, 1)
    | Outcome.retryable =>
      ((retryCall call attempts (call s).2).1, (retryCall call attempts (call s).2).2.1,
        (retryCall call attempts (call s).2).2.2 + 1)

/-- Modelled from the spec: the steps of the missing executor for one task
(section 4.2): Find, Diff (identical found and declared state is a no-op),
Render (only a `Sync` task mutates; in dry-run the intended change is recorded
without calling the provider), Classify. `MustExist` fails if the object is
absent, `ExistsAndValidates` is a read-only check that fails on a difference,
`WarnIfChanges` logs the drift. -/
def applyTask {σ : Type} (cloud : CloudHandle σ) (attempts : Nat) (dryRun : Bool) (t : Task)
    (s : σ) : ApplyResult σ :=
  if cloud.find t.name s = some t.declared then
    { changeSummary := [], error := none, calls := [], warnings := [], state := s }
  else
    match t.mode with
    | LifecycleMode.Sync =>
      let kind := if cloud.find t.name s = none then ChangeKind.create else ChangeKind.update
      if dryRun = true then
        { changeSummary := [{ task := t.name, kind := kind }], error := none, calls := [],
          warnings := [], state := s }
      else
        let r := retryCall
          (if cloud.find t.name s = none then cloud.create t else cloud.update t) attempts s
        match r.1 with
        | Outcome.success =>
          { changeSummary := [{ task := t.name, kind := kind }], error := none,
            calls := List.replicate r.2.2 { task := t.name, kind := kind }, warnings := [],
            state := r.2.1 }
        | Outcome.fatal msg =>
          { changeSummary := [], error := some (t.name, msg),
            calls := List.replicate r.2.2 { task := t.name, kind := kind }, warnings := [],
            state := r.2.1 }
        | Outcome.retryable =>
          { changeSummary := [], error := some (t.name, "retry ceiling reached"),
            calls := List.replicate r.2.2 { task := t.name, kind := kind }, warnings := [],
            state := r.2.1 }
    | LifecycleMode.MustExist =>
      if cloud.find t.name s = none then
        { changeSummary := [], error := some (t.name, "must exist"), calls := [],
          warnings := [], state := s }
      else
        { changeSummary := [], error := none, calls := [], warnings := [], state := s }
    | LifecycleMode.ExistsAndValidates =>
      { changeSummary := [], error := some (t.name, "does not validate"), calls := [],
        warnings := [], state := s }
    | LifecycleMode.WarnIfChanges =>
      { changeSummary := [], error := none, calls := [], warnings := [t.name], state := s }

/-- Modelled from the spec: `Apply(tasks, cloudHandle, dryRun)` of the missing
executor (section 4.2): the tasks are applied in the given (dependency) order; a
fatal failure aborts the remaining run and is surfaced with the identity of the
responsible task. -/
def Apply {σ : Type} (cloud : CloudHandle σ) (attempts : Nat) (dryRun : Bool) :
    List Task → σ → ApplyResult σ
  | [], s => { changeSummary := [], error := none, calls := [], warnings := [], state := s }
  | t :: rest, s =>
    match (applyTask cloud attempts dryRun t s).error with
    | some err =>
      { changeSummary := (applyTask cloud attempts dryRun t s).changeSummary,
        error := some err,
        calls := (applyTask cloud attempts dryRun t s).calls,
        warnings := (applyTask cloud attempts dryRun t s).warnings,
        state := (applyTask cloud attempts dryRun t s).state }
    | none =>
      { changeSummary := (applyTask cloud attempts dryRun t s).changeSummary ++
          (Apply cloud attempts dryRun rest (applyTask cloud attempts dryRun t s).state).changeSummary,
        error :=
          (Apply cloud attempts dryRun rest (applyTask cloud attempts dryRun t s).state).error,
        calls := (applyTask cloud attempts dryRun t s).calls ++
          (Apply cloud attempts dryRun rest (applyTask cloud attempts dryRun t s).state).calls,
        warnings := (applyTask cloud attempts dryRun t s).warnings ++
          (Apply cloud attempts dryRun rest (applyTask cloud attempts dryRun t s).state).warnings,
        state :=
          (Apply cloud attempts dryRun rest (applyTask cloud attempts dryRun t s).state).state }

/-! ## The Dependency Resolver

The resolver is not among the source files of this development either; it is
modelled from sections 2, 3, 4.1 and 7 of the specification. -/

/-- Modelled from the spec: whether the missing resolver may place the task now:
every task of the collection it holds a reference to has been placed (a
reference to a name outside the collection constrains nothing). -/
def Task.ready (names placed : List String) (t : Task) : Bool :=
  t.references.all fun r => decide (r ∈ placed) || !decide (r ∈ names)

/-- Modelled from the spec: the loop of the missing resolver (section 4.1).
While tasks remain, the first task in name order whose references are all
placed is placed next; when tasks remain and none can be placed, resolution
fails with the cycle-detection error naming the tasks left. `fuel` bounds the
rounds; the number of remaining tasks is enough. -/
def resolveLoop (names : List String) :
    Nat → List Task → List Task → Except (List String) (List Task)
  | 0, remaining, placed =>
    if remaining = [] then Except.ok placed else Except.error (remaining.map Task.name)
  | fuel + 1, remaining, placed =>
    match remaining.find? (Task.ready names (placed.map Task.name)) with
    | none =>
      if remaining = [] then Except.ok placed else Except.error (remaining.map Task.name)
    | some t => resolveLoop names fuel (remaining.erase t) (placed ++ [t])

/-- Modelled from the spec: the missing Dependency Resolver (section 4.1): from
an unordered collection of tasks, a topological ordering, or the
cycle-detection error naming the offending tasks; ties are broken by task
name (the names compared character by character). -/
def Resolve (tasks : List Task) : Except (List String) (List Task) :=
  resolveLoop (tasks.map Task.name) tasks.length
    (tasks.insertionSort fun a b => a.name.toList ≤ b.name.toList) []

/-- Modelled from the spec: a convergence run of the missing engine (section 2):
the resolver orders the tasks and the executor applies them in that order; a
cycle is a declaration error, fatal and reported before any mutation is
attempted (section 7), with the offending tasks named. -/
def Converge {σ : Type} (cloud : CloudHandle σ) (attempts : Nat) (dryRun : Bool)
    (tasks : List Task) (s : σ) : ApplyResult σ :=
  match Resolve tasks with
  | Except.error offending =>
    { changeSummary := [], error := some (String.intercalate ", " offending, "dependency cycle"),
      calls := [], warnings := [], state := s }
  | Except.ok order => Apply cloud attempts dryRun order s

/-- The task `a` of the collection holds a reference to the task `b` of the
collection. -/
def References (tasks : List Task) (a b : Task) : Prop :=
  a ∈ tasks ∧ b ∈ tasks ∧ b.name ∈ a.references

/-- The reference graph of the collection has a cycle: a task reaches itself
along one or more references (such as A → B → A). -/
def HasCycle (tasks : List Task) : Prop :=
  ∃ t, Relation.TransGen (References tasks) t t

/-- Every task of the list comes after the tasks of the collection (`names`) it
holds a reference to. -/
def Ordered (names : List String) (order : List Task) : Prop :=
  ∀ l1 t l2, order = l1 ++ t :: l2 →
    ∀ r ∈ t.references, r ∈ names → r ∈ l1.map Task.name

/-! ## Concrete inputs -/

/-- An environment whose world counts the validation calls made so far: every
cordon returns `cordonErr`, terminating an instance whose id is in `failing`
fails, and the validation call number `i` (from 0) fails when `validateFails i`. -/
def scriptedEnv (cordonErr : Option Err) (failing : List (Option String))
    (validateFails : Nat → Bool) : Env Nat :=
  { cordon := fun _ s => (cordonErr, s)
    terminate := fun instanceId s =>
      (if instanceId ∈ failing then some (Err.collaborator "terminate failed") else none, s)
    sleep := fun _ s => s
    validate := fun _ s =>
      (if validateFails s = true then some (Err.collaborator "not ready") else none, s + 1) }

/-- An instance `instanceId` launched from `launchConfiguration`, linked to the
node of the same name in the cluster `c.example.com`. -/
def linkedInstance (instanceId launchConfiguration : String) : CloudInstanceGroupInstance :=
  { ASGInstance := { InstanceId := some instanceId,
                     LaunchConfigurationName := some launchConfiguration }
    Node := some { Name := instanceId, ClusterName := "c.example.com",
                   Spec := { ExternalID := instanceId } } }

/-- A group of the given name and role with the given instance lists. -/
def exampleGroup (name role : String) (ready needUpdate : List CloudInstanceGroupInstance) :
    CloudInstanceGroup :=
  { InstanceGroup := { Name := name, Spec := { Role := role } }
    ASGName := name ++ ".c.example.com"
    Status := if needUpdate.length = 0 then "Ready" else "NeedsUpdate"
    Ready := ready
    NeedUpdate := needUpdate
    asg := { AutoScalingGroupName := some (name ++ ".c.example.com")
             LaunchConfigurationName := some "lc-2"
             Instances := (ready ++ needUpdate).map fun c => c.ASGInstance
             MinSize := some 1
             MaxSize := some 3 } }

/-- A cluster with two master groups and one node group, each with one stale
instance linked to a node. -/
def exampleCluster : GoMap CloudInstanceGroup :=
  [("master-a", exampleGroup "master-a" InstanceGroupRoleMaster [] [linkedInstance "i-m1" "lc-1"]),
   ("master-b", exampleGroup "master-b" InstanceGroupRoleMaster [] [linkedInstance "i-m2" "lc-1"]),
   ("nodes", exampleGroup "nodes" InstanceGroupRoleNode [] [linkedInstance "i-n1" "lc-1"])]

/-- The rolling update with the default intervals in nanoseconds (masters 5
minutes, nodes 2 minutes), not forced. -/
def exampleUpdate : RollingUpdateCluster :=
  { MasterInterval := 300000000000, NodeInterval := 120000000000, Force := false }

/-- The cluster `c.example.com`. -/
def exampleClusterSpec : Cluster := { Name := "c.example.com" }

/-- Three declared groups: a master group, a node group, and a group of another
role. -/
def exampleInstanceGroups : List InstanceGroup :=
  [{ Name := "master-a", Spec := { Role := InstanceGroupRoleMaster } },
   { Name := "nodes", Spec := { Role := InstanceGroupRoleNode } },
   { Name := "bastions", Spec := { Role := "Bastion" } }]

/-- A live autoscaling group of the given name, on launch configuration `lc-2`. -/
def exampleAsg (name : String) (instances : List AutoscalingInstance) : AutoscalingGroup :=
  { AutoScalingGroupName := some name, LaunchConfigurationName := some "lc-2",
    Instances := instances, MinSize := some 1, MaxSize := some 3 }

/-- Three live autoscaling groups: that of the masters, that of the nodes, and
one that no declared group names. -/
def exampleAsgs : List AutoscalingGroup :=
  [exampleAsg "master-a.masters.c.example.com"
     [{ InstanceId := some "i-m1", LaunchConfigurationName := some "lc-1" }],
   exampleAsg "other.c.example.com"
     [{ InstanceId := some "i-o1", LaunchConfigurationName := some "lc-2" }],
   exampleAsg "nodes.c.example.com"
     [{ InstanceId := some "i-n1", LaunchConfigurationName := some "lc-2" },
      { InstanceId := some "i-n2", LaunchConfigurationName := some "lc-1" }]]

/-- The observed nodes of two of the instances. -/
def exampleNodes : List Node :=
  [{ Name := "node-m1", ClusterName := "c.example.com", Spec := { ExternalID := "i-m1" } },
   { Name := "node-n1", ClusterName := "c.example.com", Spec := { ExternalID := "i-n1" } }]

/-- A cloud whose state is the map of the objects by identity and whose calls
always succeed. -/
def mapCloud : CloudHandle (GoMap (List (String × String))) :=
  { find := fun n s => GoMap.get s n
    create := fun t s => (Outcome.success, GoMap.set s t.name t.declared)
    update := fun t s => (Outcome.success, GoMap.set s t.name t.declared) }

/-- Three declared tasks: a network to create, a load balancer to update, a
zone that must exist. -/
def exampleTasks : List Task :=
  [{ name := "network", declared := [("cidr", "10.0.0.0/16")], mode := LifecycleMode.Sync },
   { name := "zone", declared := [("dns", "example.com")], mode := LifecycleMode.MustExist },
   { name := "api-lb", declared := [("port", "443")], mode := LifecycleMode.Sync }]

/-- A cloud state with a zone and a load balancer on another port. -/
def exampleCloudState : GoMap (List (String × String)) :=
  [("zone", [("dns", "example.org")]), ("api-lb", [("port", "80")])]

/-- An instance template of the given name with the given metadata items. -/
def exampleTemplate (name : String) (items : List compute.MetadataItems) :
    compute.InstanceTemplate :=
  { Name := name, Properties := some { Metadata := some { Items := items } } }

/-- A listing of two pages: a template of the cluster (its value padded with
blanks), one of another cluster, one without a "cluster-name" item, one with two
"cluster-name" items of which the second names another cluster, and a second
template of the cluster. -/
def examplePages : List compute.InstanceTemplateList :=
  [{ Items :=
      [exampleTemplate "nodes-1" [{ Key := "cluster-name", Value := some " c.example.com " },
                                  { Key := "startup-script", Value := some "#!/bin/bash" }],
       exampleTemplate "other-1" [{ Key := "cluster-name", Value := some "d.example.com" }],
       exampleTemplate "plain" [{ Key := "startup-script", Value := none }]] },
   { Items :=
      [exampleTemplate "mixed" [{ Key := "cluster-name", Value := some "c.example.com" },
                                { Key := "cluster-name", Value := some "d.example.com" }],
       exampleTemplate "masters-1" [{ Key := "cluster-name", Value := some "c.example.com" }]] }]

/-- Collaborators that all succeed: the cluster `c.example.com` with its three
declared groups, its three live autoscaling groups and its two observed nodes. -/
def exampleFactory : Factory :=
  { Clientset := none
    GetCluster := Except.ok exampleClusterSpec
    ClientConfig := none
    NewForConfig := none
    ListNodes := Except.ok (some exampleNodes)
    ListInstanceGroups := Except.ok exampleInstanceGroups
    BuildCloud := none
    findAutoscalingGroups := Except.ok exampleAsgs
    Render := none }

/-- The options of the command with the default intervals and the given flags. -/
def exampleOptions (yes force cloudOnly : Bool) : RollingUpdateOptions :=
  { Yes := yes, Force := force, CloudOnly := cloudOnly, MasterInterval := 5 * Minute,
    NodeInterval := 2 * Minute, BastionInterval := 5 * Minute, ClusterName := "c.example.com" }

/-- Four tasks given out of order: the load balancer refers to the subnet and
the firewall, both of which refer to the network. -/
def exampleGraph : List Task :=
  [{ name := "lb", declared := [], mode := LifecycleMode.Sync,
     references := ["subnet", "firewall"] },
   { name := "subnet", declared := [], mode := LifecycleMode.Sync, references := ["network"] },
   { name := "network", declared := [], mode := LifecycleMode.Sync },
   { name := "firewall", declared := [], mode := LifecycleMode.Sync, references := ["network"] }]

/-- Two tasks that refer to each other (A → B → A), and a third that refers to
the first. -/
def exampleCycle : List Task :=
  [{ name := "A", declared := [], mode := LifecycleMode.Sync, references := ["B"] },
   { name := "B", declared := [], mode := LifecycleMode.Sync, references := ["A"] },
   { name := "C", declared := [], mode := LifecycleMode.Sync, references := ["A"] }]

/-- An instance `instanceId` launched from `launchConfiguration` that no node of
the cluster is linked to. -/
def unlinkedInstance (instanceId launchConfiguration : String) : CloudInstanceGroupInstance :=
  { ASGInstance := { InstanceId := some instanceId,
                     LaunchConfigurationName := some launchConfiguration }
    Node := none }

/-! ## Theorems -/

theorem run_validateLoop {σ : Type} (env : Env σ) (clusterName : String) (interval : Duration)
    (next : Prog) (remaining : Nat) (s : σ) :
    (validateLoop clusterName interval next remaining).run env s =
      Run.prepend (validateWait env clusterName interval remaining s).1
        (next.run env (validateWait env clusterName interval remaining s).2) := by
  induction remaining generalizing s with
  | zero => simp [validateLoop, validateWait, Run.prepend]
  | succ n ih =>
    rw [validateLoop, Prog.run, validateWait]
    cases h : (env.validate clusterName s).1 with
    | none => simp [Run.cons, Run.prepend]
    | some e => simp [Prog.run, ih, Run.cons, Run.prepend]

theorem validateWait_isWait {σ : Type} (env : Env σ) (clusterName : String) (interval : Duration)
    (remaining : Nat) (s : σ) :
    ∀ e ∈ (validateWait env clusterName interval remaining s).1, e.isWait = true := by
  induction remaining generalizing s with
  | zero => simp [validateWait]
  | succ n ih =>
    rw [validateWait]
    cases h : (env.validate clusterName s).1 with
    | none => simp [Event.isWait]
    | some e =>
      simp only [List.mem_cons]
      rintro x (rfl | rfl | hx)
      · rfl
      · rfl
      · exact ih _ x hx

theorem terminated_append (t1 t2 : List Event) :
    terminated (t1 ++ t2) = terminated t1 ++ terminated t2 := by
  induction t1 with
  | nil => rfl
  | cons e t ih => cases e <;> simp [terminated, ih]

theorem terminated_of_isWait (t : List Event) (h : ∀ e ∈ t, e.isWait = true) :
    terminated t = [] := by
  induction t with
  | nil => rfl
  | cons e t ih =>
    have he := h e (List.mem_cons_self _ _)
    have ht := ih fun x hx => h x (List.mem_cons_of_mem _ hx)
    cases e <;> simp_all [terminated, Event.isWait]

theorem run_updateLoop_nil {σ : Type} (env : Env σ) (interval : Duration) (s : σ) :
    (updateLoop interval []).run env s =
      { result := Result.returned none, trace := [], world := s } := by
  simp [updateLoop, Prog.run]

theorem run_updateLoop_cons_none {σ : Type} (env : Env σ) (interval : Duration) (s : σ)
    (u : CloudInstanceGroupInstance) (rest : List CloudInstanceGroupInstance)
    (h : u.Node = none) :
    (updateLoop interval (u :: rest)).run env s =
      { result := Result.panicked, trace := [], world := s } := by
  simp [updateLoop, Prog.run, h]

theorem run_updateLoop_cons_fail {σ : Type} (env : Env σ) (interval : Duration) (s : σ)
    (u : CloudInstanceGroupInstance) (rest : List CloudInstanceGroupInstance) (node : Node)
    (e : Err) (h : u.Node = some node)
    (ht : (env.terminate u.ASGInstance.InstanceId (env.cordon node.Name s).2).1 = some e) :
    (updateLoop interval (u :: rest)).run env s =
      { result := Result.returned
          (some (Err.deletingInstance (StringValue u.ASGInstance.InstanceId) e)),
        trace := [Event.cordon node.Name (env.cordon node.Name s).1,
          Event.terminate u.ASGInstance.InstanceId (some e)],
        world := (env.terminate u.ASGInstance.InstanceId (env.cordon node.Name s).2).2 } := by
  simp [updateLoop, Prog.run, h, ht, Run.cons]

theorem run_updateLoop_cons_ok {σ : Type} (env : Env σ) (interval : Duration) (s : σ)
    (u : CloudInstanceGroupInstance) (rest : List CloudInstanceGroupInstance) (node : Node)
    (h : u.Node = some node)
    (ht : (env.terminate u.ASGInstance.InstanceId (env.cordon node.Name s).2).1 = none) :
    (updateLoop interval (u :: rest)).run env s =
      Run.prepend
        (Event.cordon node.Name (env.cordon node.Name s).1 ::
          Event.terminate u.ASGInstance.InstanceId none ::
          Event.sleep interval ::
          (validateWait env node.ClusterName interval retries
            (env.sleep interval
              (env.terminate u.ASGInstance.InstanceId (env.cordon node.Name s).2).2)).1)
        ((updateLoop interval rest).run env
          (validateWait env node.ClusterName interval retries
            (env.sleep interval
              (env.terminate u.ASGInstance.InstanceId (env.cordon node.Name s).2).2)).2) := by
  rw [updateLoop]
  simp only [h]
  rw [Prog.run, Prog.run]
  simp only [ht]
  rw [Prog.run, run_validateLoop]
  simp [Run.cons, Run.prepend]

theorem foldl_buildStep_Ready (L : String) (nodeMap : GoMap Node)
    (I : List AutoscalingInstance) (n : CloudInstanceGroup) :
    (I.foldl (buildStep L nodeMap) n).Ready =
      n.Ready ++ (I.filter fun i => decide (L = StringValue i.LaunchConfigurationName)).map
        fun i => { ASGInstance := i, Node := GoMap.get nodeMap (StringValue i.InstanceId) } := by
  induction I generalizing n with
  | nil => simp
  | cons i I ih =>
    rw [List.foldl_cons, ih]
    by_cases h : L = StringValue i.LaunchConfigurationName
    · simp [buildStep, h, List.filter_cons]
    · simp [buildStep, h, List.filter_cons]

theorem foldl_buildStep_NeedUpdate (L : String) (nodeMap : GoMap Node)
    (I : List AutoscalingInstance) (n : CloudInstanceGroup) :
    (I.foldl (buildStep L nodeMap) n).NeedUpdate =
      n.NeedUpdate ++ (I.filter fun i => !decide (L = StringValue i.LaunchConfigurationName)).map
        fun i => { ASGInstance := i, Node := GoMap.get nodeMap (StringValue i.InstanceId) } := by
  induction I generalizing n with
  | nil => simp
  | cons i I ih =>
    rw [List.foldl_cons, ih]
    by_cases h : L = StringValue i.LaunchConfigurationName
    · simp [buildStep, h, List.filter_cons]
    · simp [buildStep, h, List.filter_cons]

theorem buildCloudInstanceGroup_Ready (ig : InstanceGroup) (g : AutoscalingGroup)
    (nodeMap : GoMap Node) :
    (buildCloudInstanceGroup ig g nodeMap).Ready =
      (g.Instances.filter fun i =>
        decide (StringValue g.LaunchConfigurationName = StringValue i.LaunchConfigurationName)).map
        fun i => { ASGInstance := i, Node := GoMap.get nodeMap (StringValue i.InstanceId) } := by
  unfold buildCloudInstanceGroup
  simp only []
  split <;> simp [foldl_buildStep_Ready]

theorem buildCloudInstanceGroup_NeedUpdate (ig : InstanceGroup) (g : AutoscalingGroup)
    (nodeMap : GoMap Node) :
    (buildCloudInstanceGroup ig g nodeMap).NeedUpdate =
      (g.Instances.filter fun i =>
        !decide (StringValue g.LaunchConfigurationName = StringValue i.LaunchConfigurationName)).map
        fun i => { ASGInstance := i, Node := GoMap.get nodeMap (StringValue i.InstanceId) } := by
  unfold buildCloudInstanceGroup
  simp only []
  split <;> simp [foldl_buildStep_NeedUpdate]

/-- C1: `buildCloudInstanceGroup` puts in `Ready` exactly the instances of the
group whose launch-configuration name equals the group's (read with
`aws.StringValue`), and in `NeedUpdate` exactly the others, both in the order of
the group's instance list; so `Ready` has as many entries as instances are bound
to the group's launch configuration, `NeedUpdate` has the remaining ones, and
every instance is in exactly one of the two lists. -/
theorem buildCloudInstanceGroup_partition (ig : InstanceGroup) (g : AutoscalingGroup)
    (nodeMap : GoMap Node) :
    (buildCloudInstanceGroup ig g nodeMap).Ready =
        (g.Instances.filter fun i => decide
          (StringValue g.LaunchConfigurationName = StringValue i.LaunchConfigurationName)).map
          (fun i => { ASGInstance := i, Node := GoMap.get nodeMap (StringValue i.InstanceId) }) ∧
      (buildCloudInstanceGroup ig g nodeMap).NeedUpdate =
        (g.Instances.filter fun i => !decide
          (StringValue g.LaunchConfigurationName = StringValue i.LaunchConfigurationName)).map
          (fun i => { ASGInstance := i, Node := GoMap.get nodeMap (StringValue i.InstanceId) }) ∧
      (buildCloudInstanceGroup ig g nodeMap).Ready.length =
        g.Instances.countP (fun i => decide
          (StringValue g.LaunchConfigurationName = StringValue i.LaunchConfigurationName)) ∧
      (buildCloudInstanceGroup ig g nodeMap).NeedUpdate.length =
        g.Instances.length - g.Instances.countP (fun i => decide
          (StringValue g.LaunchConfigurationName = StringValue i.LaunchConfigurationName)) ∧
      ∀ i ∈ g.Instances,
        (i ∈ (buildCloudInstanceGroup ig g nodeMap).Ready.map (fun c => c.ASGInstance) ∧
          i ∉ (buildCloudInstanceGroup ig g nodeMap).NeedUpdate.map (fun c => c.ASGInstance)) ∨
        (i ∉ (buildCloudInstanceGroup ig g nodeMap).Ready.map (fun c => c.ASGInstance) ∧
          i ∈ (buildCloudInstanceGroup ig g nodeMap).NeedUpdate.map (fun c => c.ASGInstance)) := by
  have hR := buildCloudInstanceGroup_Ready ig g nodeMap
  have hN := buildCloudInstanceGroup_NeedUpdate ig g nodeMap
  refine ⟨hR, hN, ?_, ?_, ?_⟩
  · rw [hR, List.length_map, List.countP_eq_length_filter]
  · rw [hN, List.length_map]
    have h1 := List.length_eq_countP_add_countP (fun i : AutoscalingInstance => decide
      (StringValue g.LaunchConfigurationName = StringValue i.LaunchConfigurationName)) g.Instances
    rw [List.countP_eq_length_filter (l := g.Instances)
      (p := fun i => decide (StringValue g.LaunchConfigurationName = StringValue i.LaunchConfigurationName))] at *
    have h2 : (List.filter (fun i : AutoscalingInstance => !decide
        (StringValue g.LaunchConfigurationName = StringValue i.LaunchConfigurationName)) g.Instances).length
        = List.countP (fun a => decide ¬(decide
          (StringValue g.LaunchConfigurationName = StringValue a.LaunchConfigurationName)) = true) g.Instances := by
      rw [List.countP_eq_length_filter]
      congr 1
      apply List.filter_congr
      intro x _
      by_cases hx : StringValue g.LaunchConfigurationName = StringValue x.LaunchConfigurationName <;> simp [hx]
    omega
  · intro i hi
    rw [hR, hN]
    by_cases hx : StringValue g.LaunchConfigurationName = StringValue i.LaunchConfigurationName
    · left
      simp [List.mem_filter, hi, hx]
    · right
      simp [List.mem_filter, hi, hx]

theorem RollingUpdate_terminates_all {σ : Type} (env : Env σ) (n : CloudInstanceGroup)
    (force : Bool) (interval : Duration) (s : σ)
    (hnode : ∀ u ∈ (if force = true then n.NeedUpdate ++ n.Ready else n.NeedUpdate),
      u.Node.isSome = true)
    (hterm : ∀ e ∈ ((n.RollingUpdate force interval).run env s).trace,
      e.isTerminateError = false) :
    terminated ((n.RollingUpdate force interval).run env s).trace =
        (if force = true then n.NeedUpdate ++ n.Ready else n.NeedUpdate).map
          (fun u => u.ASGInstance.InstanceId) ∧
      ((n.RollingUpdate force interval).run env s).result = Result.returned none := by
  unfold CloudInstanceGroup.RollingUpdate CloudInstanceGroup.update at *
  generalize (if force = true then n.NeedUpdate ++ n.Ready else n.NeedUpdate) = l at *
  clear n force
  induction l generalizing s with
  | nil => simp [run_updateLoop_nil, terminated]
  | cons u rest ih =>
    have hu := hnode u (List.mem_cons_self _ _)
    obtain ⟨node, hn⟩ := Option.isSome_iff_exists.mp hu
    cases ht : (env.terminate u.ASGInstance.InstanceId (env.cordon node.Name s).2).1 with
    | some e =>
      rw [run_updateLoop_cons_fail env interval s u rest node e hn ht] at hterm
      have := hterm (Event.terminate u.ASGInstance.InstanceId (some e)) (by simp)
      simp [Event.isTerminateError] at this
    | none =>
      rw [run_updateLoop_cons_ok env interval s u rest node hn ht] at hterm ⊢
      have hrest := ih _ (fun x hx => hnode x (List.mem_cons_of_mem _ hx))
        (fun e he => hterm e (by simp [Run.prepend]; right; right; right; right; exact he))
      have hw := terminated_of_isWait _ (validateWait_isWait env node.ClusterName interval retries
        (env.sleep interval (env.terminate u.ASGInstance.InstanceId (env.cordon node.Name s).2).2))
      simp only [Run.prepend, List.cons_append, terminated, List.append_eq, terminated_append, hw, hrest.1,
        hrest.2, List.nil_append, List.map_cons, and_self]

theorem run_updateLoop_terminated_initial {σ : Type} (env : Env σ) (interval : Duration)
    (l : List CloudInstanceGroupInstance) (s : σ) :
    terminated ((updateLoop interval l).run env s).trace <+:
      l.map fun u => u.ASGInstance.InstanceId := by
  induction l generalizing s with
  | nil => simp [run_updateLoop_nil, terminated]
  | cons u rest ih =>
    cases hn : u.Node with
    | none => simp [run_updateLoop_cons_none env interval s u rest hn, terminated]
    | some node =>
      cases ht : (env.terminate u.ASGInstance.InstanceId (env.cordon node.Name s).2).1 with
      | some e =>
        rw [run_updateLoop_cons_fail env interval s u rest node e hn ht]
        simp [terminated, List.cons_prefix_cons]
      | none =>
        rw [run_updateLoop_cons_ok env interval s u rest node hn ht]
        have hw := terminated_of_isWait _ (validateWait_isWait env node.ClusterName interval
          retries (env.sleep interval
            (env.terminate u.ASGInstance.InstanceId (env.cordon node.Name s).2).2))
        simp only [Run.prepend, List.cons_append, terminated, List.append_eq, terminated_append,
          hw, List.nil_append, List.map_cons, List.cons_prefix_cons, true_and]
        exact ih _

/-- Selection with linked nodes: the termination calls of
`CloudInstanceGroup.RollingUpdate` are always
made for the instances it selected at the start (those of `n.NeedUpdate` when
`force` is false, those of `n.NeedUpdate` followed by those of `n.Ready` when
`force` is true), in that order and at most once each; and when every selected
instance has a linked node and no termination call fails, every selected
instance is terminated, exactly once and in that order, and nil is returned. -/
theorem RollingUpdate_terminates_selected {σ : Type} (env : Env σ) (n : CloudInstanceGroup)
    (force : Bool) (interval : Duration) (s : σ) :
    terminated ((n.RollingUpdate force interval).run env s).trace <+:
        (if force = true then n.NeedUpdate ++ n.Ready else n.NeedUpdate).map
          (fun u => u.ASGInstance.InstanceId) ∧
      ((∀ u ∈ (if force = true then n.NeedUpdate ++ n.Ready else n.NeedUpdate),
          u.Node.isSome = true) →
        (∀ e ∈ ((n.RollingUpdate force interval).run env s).trace,
          e.isTerminateError = false) →
        terminated ((n.RollingUpdate force interval).run env s).trace =
            (if force = true then n.NeedUpdate ++ n.Ready else n.NeedUpdate).map
              (fun u => u.ASGInstance.InstanceId) ∧
          ((n.RollingUpdate force interval).run env s).result = Result.returned none) :=
  ⟨run_updateLoop_terminated_initial env interval _ s,
    fun hnode hterm => RollingUpdate_terminates_all env n force interval s hnode hterm⟩

theorem RollingUpdate_terminates_selected_witness :
    (∀ u ∈ (if true = true then
        (exampleGroup "nodes" InstanceGroupRoleNode [linkedInstance "i-1" "lc-2"]
          [linkedInstance "i-2" "lc-1"]).NeedUpdate ++
        (exampleGroup "nodes" InstanceGroupRoleNode [linkedInstance "i-1" "lc-2"]
          [linkedInstance "i-2" "lc-1"]).Ready
        else (exampleGroup "nodes" InstanceGroupRoleNode [linkedInstance "i-1" "lc-2"]
          [linkedInstance "i-2" "lc-1"]).NeedUpdate), u.Node.isSome = true) ∧
    terminated (((exampleGroup "nodes" InstanceGroupRoleNode [linkedInstance "i-1" "lc-2"]
        [linkedInstance "i-2" "lc-1"]).RollingUpdate true 5).run
        (scriptedEnv none [] fun _ => false) 0).trace = [some "i-2", some "i-1"] :=
  ⟨by decide,
   ((RollingUpdate_terminates_selected (scriptedEnv none [] fun _ => false)
      (exampleGroup "nodes" InstanceGroupRoleNode [linkedInstance "i-1" "lc-2"]
        [linkedInstance "i-2" "lc-1"]) true 5 0).2 (by decide) (by decide)).1⟩

theorem validations_validateWait_le {σ : Type} (env : Env σ) (clusterName : String)
    (interval : Duration) (remaining : Nat) (s : σ) :
    (validations (validateWait env clusterName interval remaining s).1).length ≤ remaining := by
  induction remaining generalizing s with
  | zero => simp [validateWait, validations]
  | succ n ih =>
    rw [validateWait]
    cases h : (env.validate clusterName s).1 with
    | none => simp [validations]
    | some e =>
      have := ih (env.sleep interval (env.validate clusterName s).2)
      simp only [validations, List.length_cons]
      omega

theorem validations_validateWait_stuck {σ : Type} (env : Env σ) (clusterName : String)
    (interval : Duration) (hv : ∀ w, (env.validate clusterName w).1 ≠ none)
    (remaining : Nat) (s : σ) :
    (validations (validateWait env clusterName interval remaining s).1).length = remaining ∧
      ∀ e ∈ validations (validateWait env clusterName interval remaining s).1,
        ∃ err, e = Event.validate clusterName (some err) := by
  induction remaining generalizing s with
  | zero => simp [validateWait, validations]
  | succ n ih =>
    rw [validateWait]
    cases h : (env.validate clusterName s).1 with
    | none => exact absurd h (hv s)
    | some e =>
      have := ih (env.sleep interval (env.validate clusterName s).2)
      simp only [validations, List.length_cons, List.mem_cons]
      refine ⟨by omega, ?_⟩
      rintro x (rfl | hx)
      · exact ⟨e, rfl⟩
      · exact this.2 x hx

theorem run_updateLoop_head {σ : Type} (env : Env σ) (interval : Duration)
    (l : List CloudInstanceGroupInstance) (s : σ) :
    ((updateLoop interval l).run env s).trace = [] ∨
      ∃ nodeName err tail,
        ((updateLoop interval l).run env s).trace = Event.cordon nodeName err :: tail := by
  cases l with
  | nil => left; simp [run_updateLoop_nil]
  | cons u rest =>
    cases hn : u.Node with
    | none => left; simp [run_updateLoop_cons_none env interval s u rest hn]
    | some node =>
      right
      cases ht : (env.terminate u.ASGInstance.InstanceId (env.cordon node.Name s).2).1 with
      | some e =>
        rw [run_updateLoop_cons_fail env interval s u rest node e hn ht]
        exact ⟨_, _, _, rfl⟩
      | none =>
        rw [run_updateLoop_cons_ok env interval s u rest node hn ht]
        exact ⟨_, _, _, rfl⟩

/-- C7: with an empty `NeedUpdate` list and `force` false, whatever the `Ready`
list, `CloudInstanceGroup.RollingUpdate` makes no cordon, terminate, sleep or
validate call, leaves the world as it was and returns nil. -/
theorem RollingUpdate_nothing_to_do {σ : Type} (env : Env σ) (n : CloudInstanceGroup)
    (interval : Duration) (s : σ) (h : n.NeedUpdate = []) :
    (n.RollingUpdate false interval).run env s =
      { result := Result.returned none, trace := [], world := s } := by
  simp [CloudInstanceGroup.RollingUpdate, CloudInstanceGroup.update, h, run_updateLoop_nil]

theorem RollingUpdate_nothing_to_do_witness :
    (exampleGroup "nodes" InstanceGroupRoleNode [linkedInstance "i-1" "lc-2"] []).NeedUpdate = [] ∧
      (((exampleGroup "nodes" InstanceGroupRoleNode [linkedInstance "i-1" "lc-2"]
        []).RollingUpdate false 5).run (scriptedEnv none [] fun _ => false) 0).trace = [] :=
  ⟨rfl, congrArg Run.trace (RollingUpdate_nothing_to_do (scriptedEnv none [] fun _ => false)
      (exampleGroup "nodes" InstanceGroupRoleNode [linkedInstance "i-1" "lc-2"] []) 5 0 rfl)⟩

/-- Forced replacement with a linked node, in any environment: for a group with
an empty `NeedUpdate` list and one `Ready` instance that has a linked node, `force` true, a termination that succeeds and a validator that
fails on its first two calls and succeeds on the third,
`CloudInstanceGroup.RollingUpdate` makes exactly the calls cordon, terminate,
sleep, validate (fails), sleep, validate (fails), sleep, validate (succeeds), and
returns nil: `force` does not suppress validation. -/
theorem RollingUpdate_forced_flaky {σ : Type} (env : Env σ) (n : CloudInstanceGroup)
    (inst : CloudInstanceGroupInstance) (node : Node) (interval : Duration)
    (cerr : Option Err) (e1 e2 : Err) (s s1 s2 s3 s4 s5 : σ)
    (hNeedUpdate : n.NeedUpdate = []) (hReady : n.Ready = [inst])
    (hnode : inst.Node = some node)
    (hcordon : env.cordon node.Name s = (cerr, s1))
    (hterminate : env.terminate inst.ASGInstance.InstanceId s1 = (none, s2))
    (hfirst : env.validate node.ClusterName (env.sleep interval s2) = (some e1, s3))
    (hsecond : env.validate node.ClusterName (env.sleep interval s3) = (some e2, s4))
    (hthird : env.validate node.ClusterName (env.sleep interval s4) = (none, s5)) :
    (n.RollingUpdate true interval).run env s =
      { result := Result.returned none,
        trace := [Event.cordon node.Name cerr,
          Event.terminate inst.ASGInstance.InstanceId none,
          Event.sleep interval,
          Event.validate node.ClusterName (some e1),
          Event.sleep interval,
          Event.validate node.ClusterName (some e2),
          Event.sleep interval,
          Event.validate node.ClusterName none],
        world := s5 } := by
  have ht : (env.terminate inst.ASGInstance.InstanceId (env.cordon node.Name s).2).1 = none := by
    rw [hcordon, hterminate]
  simp only [CloudInstanceGroup.RollingUpdate, CloudInstanceGroup.update, hNeedUpdate, hReady,
    if_true, List.nil_append]
  rw [run_updateLoop_cons_ok env interval s inst [] node hnode ht, run_updateLoop_nil]
  simp [hcordon, hterminate, retries, validateWait, hfirst, hsecond, hthird, Run.prepend]

theorem RollingUpdate_forced_flaky_witness :
    ((exampleGroup "nodes" InstanceGroupRoleNode [linkedInstance "i-1" "lc-2"] []).RollingUpdate
        true 5).run (scriptedEnv none [] fun i => decide (i < 2)) 0 =
      { result := Result.returned none,
        trace := [Event.cordon "i-1" none,
          Event.terminate (some "i-1") none,
          Event.sleep 5,
          Event.validate "c.example.com" (some (Err.collaborator "not ready")),
          Event.sleep 5,
          Event.validate "c.example.com" (some (Err.collaborator "not ready")),
          Event.sleep 5,
          Event.validate "c.example.com" none],
        world := 3 } :=
  RollingUpdate_forced_flaky (scriptedEnv none [] fun i => decide (i < 2))
    (exampleGroup "nodes" InstanceGroupRoleNode [linkedInstance "i-1" "lc-2"] [])
    (linkedInstance "i-1" "lc-2")
    { Name := "i-1", ClusterName := "c.example.com", Spec := { ExternalID := "i-1" } }
    5 none (Err.collaborator "not ready") (Err.collaborator "not ready") 0 0 0 1 2 3
    rfl rfl rfl rfl rfl rfl rfl rfl

/-- C4 (the code at the failing input): a node group with one stale instance, a
termination that succeeds and a validator that fails on every call. The
validator is called `retries` times, every call fails, and
`CloudInstanceGroup.RollingUpdate` returns nil all the same; so does
`RollingUpdateCluster.RollingUpdate`, with nil in the result slot of the group. -/
theorem RollingUpdate_validation_exhausted_returns_nil :
    (((exampleGroup "nodes" InstanceGroupRoleNode [] [linkedInstance "i-2" "lc-1"]).RollingUpdate
        false 5).run (scriptedEnv none [] fun _ => true) 0).result = Result.returned none ∧
      validations (((exampleGroup "nodes" InstanceGroupRoleNode []
        [linkedInstance "i-2" "lc-1"]).RollingUpdate false 5).run
          (scriptedEnv none [] fun _ => true) 0).trace =
        List.replicate 8 (Event.validate "c.example.com" (some (Err.collaborator "not ready"))) ∧
      (RollingUpdateCluster.RollingUpdate
        { MasterInterval := 7, NodeInterval := 5, Force := false } (scriptedEnv none [] fun _ => true)
        Runtime.inOrder
        [("nodes", exampleGroup "nodes" InstanceGroupRoleNode [] [linkedInstance "i-2" "lc-1"])]
        0).result = Result.returned none ∧
      (RollingUpdateCluster.RollingUpdate
        { MasterInterval := 7, NodeInterval := 5, Force := false } (scriptedEnv none [] fun _ => true)
        Runtime.inOrder
        [("nodes", exampleGroup "nodes" InstanceGroupRoleNode [] [linkedInstance "i-2" "lc-1"])]
        0).results = [("nodes", none)] := by
  decide

/-- C5 (counterexample): with a validator that never succeeds, the validator is
called 8 times for the terminated instance, not `retries + 1 = 9` times. -/
theorem validator_called_eight_times :
    (validations (((exampleGroup "nodes" InstanceGroupRoleNode []
        [linkedInstance "i-2" "lc-1"]).RollingUpdate false 5).run
          (scriptedEnv none [] fun _ => true) 0).trace).length = 8 ∧
      (validations (((exampleGroup "nodes" InstanceGroupRoleNode []
        [linkedInstance "i-2" "lc-1"]).RollingUpdate false 5).run
          (scriptedEnv none [] fun _ => true) 0).trace).length ≠ retries + 1 := by
  decide

theorem cons_eq_split {α : Type} {x y : α} {t pre post : List α}
    (h : x :: t = pre ++ y :: post) :
    (pre = [] ∧ x = y ∧ t = post) ∨ ∃ pre', pre = x :: pre' ∧ t = pre' ++ y :: post := by
  cases pre with
  | nil =>
    left
    simp only [List.nil_append, List.cons.injEq] at h
    exact ⟨rfl, h.1, h.2⟩
  | cons a pre' =>
    right
    simp only [List.cons_append, List.cons.injEq] at h
    exact ⟨pre', by rw [h.1], h.2⟩

theorem append_eq_split {α : Type} {y : α} {w t pre post : List α}
    (h : w ++ t = pre ++ y :: post) (hy : y ∉ w) :
    ∃ pre', pre = w ++ pre' ∧ t = pre' ++ y :: post := by
  induction w generalizing pre with
  | nil => exact ⟨pre, rfl, h⟩
  | cons a w ih =>
    rw [List.cons_append] at h
    rcases cons_eq_split h with ⟨_, hay, _⟩ | ⟨pre', hpre, ht⟩
    · exact absurd (hay ▸ List.mem_cons_self a w) hy
    · obtain ⟨p, hp, hp'⟩ := ih ht (fun hm => hy (List.mem_cons_of_mem _ hm))
      exact ⟨p, by rw [hpre, hp, List.cons_append], hp'⟩

theorem validateWait_withCordonErrors {σ : Type} (env : Env σ) (f : String → σ → Option Err)
    (clusterName : String) (interval : Duration) (remaining : Nat) (s : σ) :
    validateWait (env.withCordonErrors f) clusterName interval remaining s =
      validateWait env clusterName interval remaining s := by
  induction remaining generalizing s with
  | zero => rfl
  | succ n ih =>
    rw [validateWait, validateWait]
    have h1 : (env.withCordonErrors f).validate = env.validate := rfl
    have h2 : (env.withCordonErrors f).sleep = env.sleep := rfl
    rw [h1, h2, ih]

theorem run_updateLoop_cordon_followed {σ : Type} (env : Env σ) (interval : Duration)
    (l : List CloudInstanceGroupInstance) (s : σ) (pre post : List Event) (nodeName : String)
    (cerr : Option Err)
    (h : ((updateLoop interval l).run env s).trace = pre ++ Event.cordon nodeName cerr :: post) :
    ∃ u ∈ l, ∃ node, u.Node = some node ∧ node.Name = nodeName ∧
      ∃ terr post', post = Event.terminate u.ASGInstance.InstanceId terr :: post' := by
  induction l generalizing s pre with
  | nil => simp [run_updateLoop_nil] at h
  | cons u rest ih =>
    cases hn : u.Node with
    | none => simp [run_updateLoop_cons_none env interval s u rest hn] at h
    | some node =>
      cases ht : (env.terminate u.ASGInstance.InstanceId (env.cordon node.Name s).2).1 with
      | some e =>
        rw [run_updateLoop_cons_fail env interval s u rest node e hn ht] at h
        rcases cons_eq_split h with ⟨_, hx, hp⟩ | ⟨p1, _, h1⟩
        · simp only [Event.cordon.injEq] at hx
          exact ⟨u, List.mem_cons_self _ _, node, hn, hx.1, _, _, hp.symm⟩
        · rcases cons_eq_split h1 with ⟨_, hx, _⟩ | ⟨p2, _, h2⟩
          · cases hx
          · simp at h2
      | none =>
        rw [run_updateLoop_cons_ok env interval s u rest node hn ht] at h
        simp only [Run.prepend, List.cons_append] at h
        rcases cons_eq_split h with ⟨_, hx, hp⟩ | ⟨p1, _, h1⟩
        · simp only [Event.cordon.injEq] at hx
          exact ⟨u, List.mem_cons_self _ _, node, hn, hx.1, _, _, hp.symm⟩
        · rcases cons_eq_split h1 with ⟨_, hx, _⟩ | ⟨p2, _, h2⟩
          · cases hx
          · rcases cons_eq_split h2 with ⟨_, hx, _⟩ | ⟨p3, _, h3⟩
            · cases hx
            · have hnot : Event.cordon nodeName cerr ∉
                  (validateWait env node.ClusterName interval retries
                    (env.sleep interval
                      (env.terminate u.ASGInstance.InstanceId (env.cordon node.Name s).2).2)).1 := by
                intro hm
                have := validateWait_isWait _ _ _ _ _ _ hm
                simp [Event.isWait] at this
              obtain ⟨p4, _, h4⟩ := append_eq_split h3 hnot
              obtain ⟨u', hu', rest'⟩ := ih _ _ h4
              exact ⟨u', List.mem_cons_of_mem _ hu', rest'⟩

theorem run_updateLoop_withCordonErrors {σ : Type} (env : Env σ) (f : String → σ → Option Err)
    (interval : Duration) (l : List CloudInstanceGroupInstance) (s : σ) :
    ((updateLoop interval l).run (env.withCordonErrors f) s).result =
        ((updateLoop interval l).run env s).result ∧
      ((updateLoop interval l).run (env.withCordonErrors f) s).world =
        ((updateLoop interval l).run env s).world ∧
      ((updateLoop interval l).run (env.withCordonErrors f) s).trace.map Event.forgetCordon =
        ((updateLoop interval l).run env s).trace.map Event.forgetCordon := by
  induction l generalizing s with
  | nil => simp [run_updateLoop_nil]
  | cons u rest ih =>
    cases hn : u.Node with
    | none => simp [run_updateLoop_cons_none _ interval s u rest hn]
    | some node =>
      have hc : ((env.withCordonErrors f).cordon node.Name s).2 = (env.cordon node.Name s).2 := rfl
      have hterm : (env.withCordonErrors f).terminate = env.terminate := rfl
      have hsleep : (env.withCordonErrors f).sleep = env.sleep := rfl
      cases ht : (env.terminate u.ASGInstance.InstanceId (env.cordon node.Name s).2).1 with
      | some e =>
        have ht' : ((env.withCordonErrors f).terminate u.ASGInstance.InstanceId
            ((env.withCordonErrors f).cordon node.Name s).2).1 = some e := by
          rw [hterm, hc, ht]
        rw [run_updateLoop_cons_fail env interval s u rest node e hn ht,
          run_updateLoop_cons_fail _ interval s u rest node e hn ht']
        simp [hterm, hc, Event.forgetCordon]
      | none =>
        have ht' : ((env.withCordonErrors f).terminate u.ASGInstance.InstanceId
            ((env.withCordonErrors f).cordon node.Name s).2).1 = none := by
          rw [hterm, hc, ht]
        rw [run_updateLoop_cons_ok env interval s u rest node hn ht,
          run_updateLoop_cons_ok _ interval s u rest node hn ht']
        simp only [validateWait_withCordonErrors, hterm, hc, hsleep, Run.prepend,
          List.cons_append, List.map_cons, List.map_append, Event.forgetCordon]
        have := ih (validateWait env node.ClusterName interval retries
          (env.sleep interval
            (env.terminate u.ASGInstance.InstanceId (env.cordon node.Name s).2).2)).2
        simp [this.1, this.2.1, this.2.2]

/-- C9: a cordon call of `CloudInstanceGroup.RollingUpdate`, whatever error it
returned, is followed at once by the termination call for the same selected
instance; and replacing the errors returned by the cordon calls by any others
(`Env.withCordonErrors`) changes neither the returned result, nor the world left,
nor any other call of the run. -/
theorem RollingUpdate_cordon_best_effort {σ : Type} (env : Env σ) (n : CloudInstanceGroup)
    (force : Bool) (interval : Duration) (s : σ) :
    (∀ pre post nodeName cerr,
        ((n.RollingUpdate force interval).run env s).trace =
          pre ++ Event.cordon nodeName cerr :: post →
        ∃ u ∈ (if force = true then n.NeedUpdate ++ n.Ready else n.NeedUpdate),
          ∃ node, u.Node = some node ∧ node.Name = nodeName ∧
            ∃ terr post', post = Event.terminate u.ASGInstance.InstanceId terr :: post') ∧
      ∀ f : String → σ → Option Err,
        ((n.RollingUpdate force interval).run (env.withCordonErrors f) s).result =
            ((n.RollingUpdate force interval).run env s).result ∧
          ((n.RollingUpdate force interval).run (env.withCordonErrors f) s).world =
            ((n.RollingUpdate force interval).run env s).world ∧
          ((n.RollingUpdate force interval).run (env.withCordonErrors f) s).trace.map
              Event.forgetCordon =
            ((n.RollingUpdate force interval).run env s).trace.map Event.forgetCordon :=
  ⟨fun pre post nodeName cerr h =>
      run_updateLoop_cordon_followed env interval _ s pre post nodeName cerr h,
    fun f => run_updateLoop_withCordonErrors env f interval _ s⟩

theorem RollingUpdate_cordon_best_effort_witness :
    (((exampleGroup "nodes" InstanceGroupRoleNode [] [linkedInstance "i-2" "lc-1"]).RollingUpdate
        false 5).run (scriptedEnv (some (Err.collaborator "cordon failed")) [] fun _ => false)
        0).trace =
      [] ++ Event.cordon "i-2" (some (Err.collaborator "cordon failed")) ::
        [Event.terminate (some "i-2") none, Event.sleep 5, Event.validate "c.example.com" none] ∧
    ∃ u ∈ (if false = true then
        (exampleGroup "nodes" InstanceGroupRoleNode [] [linkedInstance "i-2" "lc-1"]).NeedUpdate ++
          (exampleGroup "nodes" InstanceGroupRoleNode [] [linkedInstance "i-2" "lc-1"]).Ready
        else (exampleGroup "nodes" InstanceGroupRoleNode [] [linkedInstance "i-2" "lc-1"]).NeedUpdate),
      ∃ node, u.Node = some node ∧ node.Name = "i-2" ∧
        ∃ terr post', [Event.terminate (some "i-2") none, Event.sleep 5,
          Event.validate "c.example.com" none] =
            Event.terminate u.ASGInstance.InstanceId terr :: post' :=
  ⟨by decide,
    (RollingUpdate_cordon_best_effort
      (scriptedEnv (some (Err.collaborator "cordon failed")) [] fun _ => false)
      (exampleGroup "nodes" InstanceGroupRoleNode [] [linkedInstance "i-2" "lc-1"]) false 5 0).1
      [] _ "i-2" (some (Err.collaborator "cordon failed")) (by decide)⟩

theorem after_done (r : Result) (t : List Event) (q : Prog)
    (h : (Prog.done r).after t = some q) : t = [] ∧ q = Prog.done r := by
  cases t with
  | nil => simp [Prog.after] at h; exact ⟨rfl, h.symm⟩
  | cons e t => simp [Prog.after] at h

theorem after_append (p : Prog) (t1 t2 : List Event) :
    p.after (t1 ++ t2) = (p.after t1).bind fun q => q.after t2 := by
  induction t1 generalizing p with
  | nil => simp [Prog.after]
  | cons e t ih =>
    cases p <;> cases e <;> simp [Prog.after, ih] <;> split <;> simp [ih]

theorem run_after {σ : Type} (env : Env σ) (p : Prog) (s : σ) :
    p.after (p.run env s).trace = some (Prog.done (p.run env s).result) := by
  induction p generalizing s with
  | done r => simp [Prog.run, Prog.after]
  | cordon nodeName k ih => simp [Prog.run, Prog.after, Run.cons, ih]
  | terminate instanceId k ih => simp [Prog.run, Prog.after, Run.cons, ih]
  | sleep interval k ih => simp [Prog.run, Prog.after, Run.cons, ih]
  | validate clusterName k ih => simp [Prog.run, Prog.after, Run.cons, ih]

theorem step_after {σ : Type} (env : Env σ) (p p' : Prog) (s s' : σ) (e : Event)
    (t : List Event) (h : p.step env s = some (e, p', s')) :
    p.after (e :: t) = p'.after t := by
  cases p with
  | done r => simp [Prog.step] at h
  | cordon nodeName k =>
    simp only [Prog.step, Option.some.injEq, Prod.mk.injEq] at h
    obtain ⟨rfl, rfl, _⟩ := h
    simp [Prog.after]
  | terminate instanceId k =>
    simp only [Prog.step, Option.some.injEq, Prod.mk.injEq] at h
    obtain ⟨rfl, rfl, _⟩ := h
    simp [Prog.after]
  | sleep interval k =>
    simp only [Prog.step, Option.some.injEq, Prod.mk.injEq] at h
    obtain ⟨rfl, rfl, _⟩ := h
    simp [Prog.after]
  | validate clusterName k =>
    simp only [Prog.step, Option.some.injEq, Prod.mk.injEq] at h
    obtain ⟨rfl, rfl, _⟩ := h
    simp [Prog.after]

theorem step_none {σ : Type} (env : Env σ) (p : Prog) (s : σ) (h : p.step env s = none) :
    ∃ r, p = Prog.done r := by
  cases p <;> simp [Prog.step] at h
  exact ⟨_, rfl⟩

theorem run_done {σ : Type} (env : Env σ) (r : Result) (s : σ) :
    (Prog.done r).run env s = { result := r, trace := [], world := s } := by
  simp [Prog.run]

theorem after_validateLoop (clusterName : String) (interval : Duration) (next : Prog)
    (remaining : Nat) (t : List Event) (r : Result)
    (h : (validateLoop clusterName interval next remaining).after t = some (Prog.done r)) :
    ∃ w t', t = w ++ t' ∧ (∀ e ∈ w, e.isWait = true) ∧ next.after t' = some (Prog.done r) := by
  induction remaining generalizing t with
  | zero => exact ⟨[], t, rfl, by simp, h⟩
  | succ n ih =>
    rw [validateLoop] at h
    cases t with
    | nil => simp [Prog.after] at h
    | cons e t =>
      cases e with
      | validate c err =>
        simp only [Prog.after] at h
        split at h
        · cases err with
          | none =>
            exact ⟨[Event.validate c none], t, rfl, by simp [Event.isWait], h⟩
          | some e' =>
            simp only at h
            cases t with
            | nil => simp [Prog.after] at h
            | cons e2 t2 =>
              cases e2 with
              | sleep i2 =>
                simp only [Prog.after] at h
                split at h
                · obtain ⟨w, t', rfl, hw, hn⟩ := ih t2 h
                  refine ⟨Event.validate c (some e') :: Event.sleep i2 :: w, t', rfl, ?_, hn⟩
                  intro x hx
                  simp only [List.mem_cons] at hx
                  rcases hx with rfl | rfl | hx
                  · rfl
                  · rfl
                  · exact hw x hx
                · simp at h
              | _ => simp [Prog.after] at h
        · simp at h
      | _ => simp [Prog.after] at h

theorem after_updateLoop_start (interval : Duration) (u : CloudInstanceGroupInstance)
    (rest : List CloudInstanceGroupInstance) (node : Node) (t : List Event) (r : Result)
    (hn : u.Node = some node)
    (h : (updateLoop interval (u :: rest)).after t = some (Prog.done r)) :
    ∃ cerr terr t', t = Event.cordon node.Name cerr ::
        Event.terminate u.ASGInstance.InstanceId terr :: t' ∧
      (match terr with
        | some e => Prog.done (Result.returned
            (some (Err.deletingInstance (StringValue u.ASGInstance.InstanceId) e)))
        | none => Prog.sleep interval
            (validateLoop node.ClusterName interval (updateLoop interval rest) retries)).after t' =
        some (Prog.done r) := by
  rw [updateLoop] at h
  simp only [hn] at h
  cases t with
  | nil => simp [Prog.after] at h
  | cons e1 t1 =>
    cases e1 with
    | cordon name' cerr =>
      simp only [Prog.after] at h
      split at h
      · rename_i hname
        cases t1 with
        | nil => simp [Prog.after] at h
        | cons e2 t2 =>
          cases e2 with
          | terminate id' terr =>
            simp only [Prog.after] at h
            split at h
            · rename_i hid
              subst hname hid
              exact ⟨cerr, terr, t2, rfl, h⟩
            · simp at h
          | _ => simp [Prog.after] at h
      · simp at h
    | _ => simp [Prog.after] at h

theorem after_updateLoop_terminate_error (interval : Duration)
    (l : List CloudInstanceGroupInstance) (t : List Event) (r : Result)
    (h : (updateLoop interval l).after t = some (Prog.done r))
    (instanceId : Option String) (e : Err)
    (hmem : Event.terminate instanceId (some e) ∈ t) :
    r = Result.returned (some (Err.deletingInstance (StringValue instanceId) e)) := by
  induction l generalizing t with
  | nil =>
    rw [updateLoop] at h
    rw [(after_done _ _ _ h).1] at hmem
    simp at hmem
  | cons u rest ih =>
    cases hn : u.Node with
    | none =>
      rw [updateLoop] at h
      simp only [hn] at h
      rw [(after_done _ _ _ h).1] at hmem
      simp at hmem
    | some node =>
      obtain ⟨cerr, terr, t', rfl, h'⟩ := after_updateLoop_start interval u rest node t r hn h
      cases terr with
      | some e' =>
        simp only at h'
        obtain ⟨rfl, hq⟩ := after_done _ _ _ h'
        simp only [List.mem_cons, Event.terminate.injEq, Option.some.injEq, List.mem_nil_iff,
          or_false] at hmem
        rcases hmem with hc | ⟨rfl, rfl⟩
        · cases hc
        · simp only [Prog.done.injEq] at hq
          exact hq
      | none =>
        simp only at h'
        cases t' with
        | nil => simp [Prog.after] at h'
        | cons e3 t3 =>
          cases e3 with
          | sleep i3 =>
            simp only [Prog.after] at h'
            split at h'
            · obtain ⟨w, t4, rfl, hw, hnext⟩ := after_validateLoop _ _ _ _ _ _ h'
              apply ih t4 hnext
              simp only [List.mem_cons, List.mem_append] at hmem
              rcases hmem with hc | hc | hc | hc | hc
              · cases hc
              · simp at hc
              · cases hc
              · have := hw _ hc
                simp [Event.isWait] at this
              · exact hc
            · simp at h'
          | _ => simp [Prog.after] at h'

theorem GoMap.get_set_eq {α : Type} (m : GoMap α) (k : String) (v : α) :
    GoMap.get (GoMap.set m k v) k = some v := by
  induction m with
  | nil => simp [GoMap.set, GoMap.get]
  | cons kv rest ih =>
    obtain ⟨k', v'⟩ := kv
    by_cases h : k' = k
    · simp [GoMap.set, GoMap.get, h]
    · simp [GoMap.set, GoMap.get, h, ih]

theorem GoMap.get_set_ne {α : Type} (m : GoMap α) (k k2 : String) (v : α) (hne : k2 ≠ k) :
    GoMap.get (GoMap.set m k v) k2 = GoMap.get m k2 := by
  induction m with
  | nil => simp [GoMap.set, GoMap.get, Ne.symm hne]
  | cons kv rest ih =>
    obtain ⟨k', v'⟩ := kv
    by_cases h : k' = k
    · subst h
      simp [GoMap.set, GoMap.get, Ne.symm hne]
    · by_cases h2 : k' = k2
      · subst h2
        simp [GoMap.set, GoMap.get, h]
      · simp [GoMap.set, GoMap.get, h, h2, ih]

theorem GoMap.set_of_not_mem {α : Type} (m : GoMap α) (k : String) (v : α)
    (h : k ∉ m.map Prod.fst) : GoMap.set m k v = m ++ [(k, v)] := by
  induction m with
  | nil => rfl
  | cons kv rest ih =>
    obtain ⟨k', v'⟩ := kv
    simp only [List.map_cons, List.mem_cons, not_or] at h
    simp [GoMap.set, Ne.symm h.1, ih h.2]

theorem nodup_keys_unique {α : Type} (l : List (String × α)) (h : (l.map Prod.fst).Nodup)
    (k : String) (a b : α) (ha : (k, a) ∈ l) (hb : (k, b) ∈ l) : a = b := by
  induction l with
  | nil => simp at ha
  | cons kv rest ih =>
    simp only [List.map_cons, List.nodup_cons] at h
    simp only [List.mem_cons] at ha hb
    rcases ha with rfl | ha
    · rcases hb with hb | hb
      · exact (Prod.mk.inj hb).2.symm
      · exact absurd (List.mem_map_of_mem Prod.fst hb) h.1
    · rcases hb with rfl | hb
      · exact absurd (List.mem_map_of_mem Prod.fst ha) h.1
      · exact ih h.2 ha hb

theorem callsOf_append (k : String) (t1 t2 : List (String × Event)) :
    callsOf k (t1 ++ t2) = callsOf k t1 ++ callsOf k t2 := by
  simp [callsOf]

theorem callsOf_tagged_self (k : String) (t : List Event) :
    callsOf k (t.map (Prod.mk k)) = t := by
  induction t with
  | nil => rfl
  | cons e t ih =>
    simp only [callsOf] at ih
    simp [callsOf, ih]

theorem callsOf_eq_nil (k : String) (t : List (String × Event)) (h : ∀ x ∈ t, x.1 ≠ k) :
    callsOf k t = [] := by
  induction t with
  | nil => rfl
  | cons x t ih =>
    have hx := h x (List.mem_cons_self _ _)
    have ht := ih fun y hy => h y (List.mem_cons_of_mem _ hy)
    simp only [callsOf] at ht
    simp [callsOf, hx, ht]

theorem callsOf_cons_self (k : String) (e : Event) (t : List (String × Event)) :
    callsOf k ((k, e) :: t) = e :: callsOf k t := by
  simp [callsOf]

theorem callsOf_cons_ne (k k2 : String) (e : Event) (t : List (String × Event))
    (h : k2 ≠ k) : callsOf k ((k2, e) :: t) = callsOf k t := by
  simp [callsOf, h]

theorem mem_of_mem_callsOf (k : String) (e : Event) (t : List (String × Event))
    (h : e ∈ callsOf k t) : (k, e) ∈ t := by
  simp only [callsOf, List.mem_map, List.mem_filter, decide_eq_true_eq] at h
  obtain ⟨x, ⟨hx, hk⟩, rfl⟩ := h
  obtain ⟨k', e'⟩ := x
  simp only at hk
  subst hk
  exact hx

theorem mem_callsOf_of_mem (k : String) (e : Event) (t : List (String × Event))
    (h : (k, e) ∈ t) : e ∈ callsOf k t := by
  simp only [callsOf, List.mem_map, List.mem_filter, decide_eq_true_eq]
  exact ⟨(k, e), ⟨h, rfl⟩, rfl⟩

theorem pool_set_facts (pool : List (String × Prog)) (i : Nat) (k : String) (p p' : Prog)
    (h : pool.get? i = some (k, p)) :
    (pool.set i (k, p')).map Prod.fst = pool.map Prod.fst ∧ (k, p') ∈ pool.set i (k, p') ∧
      (k, p) ∈ pool ∧ ∀ kp ∈ pool, kp.1 ≠ k → kp ∈ pool.set i (k, p') := by
  induction pool generalizing i with
  | nil => simp at h
  | cons x rest ih =>
    cases i with
    | zero =>
      simp only [List.get?, Option.some.injEq] at h
      subst h
      refine ⟨by simp, by simp, by simp, ?_⟩
      intro kp hkp hne
      simp only [List.mem_cons] at hkp
      rcases hkp with rfl | hkp
      · exact absurd rfl hne
      · simp [hkp]
    | succ j =>
      simp only [List.get?] at h
      obtain ⟨h1, h2, h3, h4⟩ := ih j h
      refine ⟨by simp [h1], by simp [h2], by simp [h3], ?_⟩
      intro kp hkp hne
      simp only [List.mem_cons] at hkp
      rcases hkp with rfl | hkp
      · simp
      · simp [h4 kp hkp hne]

theorem runSerial_spec {σ : Type} (env : Env σ) (pool : List (String × Prog))
    (results : GoMap (Option Err)) (s : σ) (hnd : (pool.map Prod.fst).Nodup) :
    PoolSpec pool results (runSerial env pool results s) := by
  induction pool generalizing results s with
  | nil => simp [PoolSpec, runSerial]
  | cons kp rest ih =>
    obtain ⟨k, p⟩ := kp
    simp only [List.map_cons, List.nodup_cons] at hnd
    rw [runSerial]
    cases hres : (p.run env s).result with
    | panicked =>
      refine ⟨?_, fun _ _ => rfl, ?_⟩
      · intro x hx
        simp only [List.mem_map] at hx
        obtain ⟨e, _, rfl⟩ := hx
        simp
      · intro h
        simp at h
    | returned err =>
      obtain ⟨h1, h2, h3⟩ := ih (GoMap.set results k err) (p.run env s).world hnd.2
      have hrest : ∀ x ∈ (runSerial env rest (GoMap.set results k err) (p.run env s).world).trace,
          x.1 ≠ k := fun x hx hk => hnd.1 (hk ▸ h1 x hx)
      refine ⟨?_, ?_, ?_⟩
      · intro x hx
        simp only [PoolRun.prepend, List.mem_append, List.mem_map] at hx
        rcases hx with ⟨e, _, rfl⟩ | hx
        · simp
        · exact List.mem_cons_of_mem _ (h1 x hx)
      · intro k' hk'
        simp only [List.map_cons, List.mem_cons, not_or] at hk'
        simp only [PoolRun.prepend]
        rw [h2 k' hk'.2, GoMap.get_set_ne _ _ _ _ hk'.1]
      · intro hc kp hkp
        simp only [PoolRun.prepend] at hc
        simp only [List.mem_cons] at hkp
        rcases hkp with rfl | hkp
        · refine ⟨err, ?_, ?_⟩
          · simp only [PoolRun.prepend, callsOf_append, callsOf_tagged_self,
              callsOf_eq_nil k _ hrest, List.append_nil]
            rw [run_after, hres]
          · simp only [PoolRun.prepend]
            rw [h2 k hnd.1, GoMap.get_set_eq]
        · obtain ⟨err', ha, hg⟩ := h3 hc kp hkp
          have hne : k ≠ kp.1 := fun hk => hnd.1 (hk ▸ List.mem_map_of_mem Prod.fst hkp)
          refine ⟨err', ?_, hg⟩
          simp only [PoolRun.prepend, callsOf_append]
          rw [callsOf_eq_nil kp.1 _ (by
            intro x hx
            simp only [List.mem_map] at hx
            obtain ⟨e, _, rfl⟩ := hx
            exact hne), List.nil_append]
          exact ha

theorem runPool_spec {σ : Type} (env : Env σ) (schedule : List Nat)
    (pool : List (String × Prog)) (results : GoMap (Option Err)) (s : σ)
    (hnd : (pool.map Prod.fst).Nodup) :
    PoolSpec pool results (runPool env schedule pool results s) := by
  induction schedule generalizing pool s with
  | nil => exact runSerial_spec env pool results s hnd
  | cons i schedule ih =>
    rw [runPool]
    cases hget : pool.get? i with
    | none => exact ih pool s hnd
    | some kp =>
      obtain ⟨k, p⟩ := kp
      simp only
      split
      · refine ⟨by simp, fun _ _ => rfl, ?_⟩
        intro h
        simp at h
      · cases hstep : p.step env s with
        | none => exact ih pool s hnd
        | some x =>
          obtain ⟨e, p', s'⟩ := x
          simp only
          obtain ⟨hkeys, hmem', hmem, hothers⟩ := pool_set_facts pool i k p p' hget
          obtain ⟨h1, h2, h3⟩ := ih (pool.set i (k, p')) s' (by rw [hkeys]; exact hnd)
          refine ⟨?_, ?_, ?_⟩
          · intro x hx
            simp only [PoolRun.prepend, List.singleton_append, List.mem_cons] at hx
            rcases hx with rfl | hx
            · exact List.mem_map_of_mem Prod.fst hmem
            · rw [← hkeys]
              exact h1 x hx
          · intro k' hk'
            simp only [PoolRun.prepend]
            exact h2 k' (by rw [hkeys]; exact hk')
          · intro hc kp hkp
            simp only [PoolRun.prepend] at hc
            by_cases hk : kp.1 = k
            · have hp : kp.2 = p := by
                obtain ⟨k2, p2⟩ := kp
                simp only at hk
                subst hk
                exact nodup_keys_unique pool hnd k2 p2 p hkp hmem
              obtain ⟨err, ha, hg⟩ := h3 hc (k, p') hmem'
              refine ⟨err, ?_, ?_⟩
              · simp only [PoolRun.prepend, List.singleton_append]
                rw [hk, hp, callsOf_cons_self, step_after env p p' s s' e _ hstep]
                exact ha
              · rw [hk]
                exact hg
            · obtain ⟨err, ha, hg⟩ := h3 hc kp (hothers kp hkp hk)
              refine ⟨err, ?_, hg⟩
              simp only [PoolRun.prepend, List.singleton_append]
              rw [callsOf_cons_ne _ _ _ _ (Ne.symm hk)]
              exact ha

theorem role_node_ne_master : InstanceGroupRoleNode ≠ InstanceGroupRoleMaster := by decide

theorem partitionGroups_ok (groups m n m' n' : GoMap CloudInstanceGroup)
    (hnd : (groups.map Prod.fst).Nodup)
    (hm : ∀ kg ∈ groups, kg.1 ∉ m.map Prod.fst) (hn : ∀ kg ∈ groups, kg.1 ∉ n.map Prod.fst)
    (h : partitionGroups groups m n = Except.ok (m', n')) :
    m' = m ++ mastersOf groups ∧ n' = n ++ nodesOf groups := by
  induction groups generalizing m n with
  | nil =>
    simp only [partitionGroups, Except.ok.injEq, Prod.mk.injEq] at h
    simp [mastersOf, nodesOf, h.1, h.2]
  | cons kg rest ih =>
    obtain ⟨k, g⟩ := kg
    simp only [List.map_cons, List.nodup_cons] at hnd
    have hk_m := hm (k, g) (List.mem_cons_self _ _)
    have hk_n := hn (k, g) (List.mem_cons_self _ _)
    have hrest_m : ∀ kg ∈ rest, kg.1 ∉ m.map Prod.fst :=
      fun kg hkg => hm kg (List.mem_cons_of_mem _ hkg)
    have hrest_n : ∀ kg ∈ rest, kg.1 ∉ n.map Prod.fst :=
      fun kg hkg => hn kg (List.mem_cons_of_mem _ hkg)
    have hrest_k : ∀ kg ∈ rest, kg.1 ≠ k :=
      fun kg hkg hk => hnd.1 (hk ▸ List.mem_map_of_mem Prod.fst hkg)
    rw [partitionGroups] at h
    by_cases hN : g.InstanceGroup.Spec.Role = InstanceGroupRoleNode
    · have hM : g.InstanceGroup.Spec.Role ≠ InstanceGroupRoleMaster :=
        hN ▸ role_node_ne_master
      simp only [hN, if_true] at h
      rw [GoMap.set_of_not_mem n k g hk_n] at h
      obtain ⟨h1, h2⟩ := ih m (n ++ [(k, g)]) hnd.2 hrest_m (by
        intro kg hkg
        simp only [List.map_append, List.map_cons, List.map_nil, List.mem_append,
          List.mem_singleton, not_or]
        exact ⟨hrest_n kg hkg, hrest_k kg hkg⟩) h
      simp [mastersOf, nodesOf, List.filter_cons, hN, hM, h1, h2,
        role_node_ne_master]
    · by_cases hM : g.InstanceGroup.Spec.Role = InstanceGroupRoleMaster
      · simp only [hN, if_false, hM, if_true] at h
        rw [GoMap.set_of_not_mem m k g hk_m] at h
        obtain ⟨h1, h2⟩ := ih (m ++ [(k, g)]) n hnd.2 (by
          intro kg hkg
          simp only [List.map_append, List.map_cons, List.map_nil, List.mem_append,
            List.mem_singleton, not_or]
          exact ⟨hrest_m kg hkg, hrest_k kg hkg⟩) hrest_n h
        simp [mastersOf, nodesOf, List.filter_cons, hM, h1, h2,
          Ne.symm role_node_ne_master]
      · simp [hN, hM] at h

theorem partitionGroups_known (groups m n : GoMap CloudInstanceGroup)
    (hknown : ∀ kg ∈ groups, kg.2.InstanceGroup.Spec.Role = InstanceGroupRoleNode ∨
      kg.2.InstanceGroup.Spec.Role = InstanceGroupRoleMaster) :
    ∃ m' n', partitionGroups groups m n = Except.ok (m', n') := by
  induction groups generalizing m n with
  | nil => exact ⟨m, n, rfl⟩
  | cons kg rest ih =>
    obtain ⟨k, g⟩ := kg
    have hrest : ∀ kg ∈ rest, kg.2.InstanceGroup.Spec.Role = InstanceGroupRoleNode ∨
        kg.2.InstanceGroup.Spec.Role = InstanceGroupRoleMaster :=
      fun kg hkg => hknown kg (List.mem_cons_of_mem _ hkg)
    rw [partitionGroups]
    rcases hknown (k, g) (List.mem_cons_self _ _) with hN | hM
    · rw [if_pos hN]
      exact ih _ _ hrest
    · by_cases hN : g.InstanceGroup.Spec.Role = InstanceGroupRoleNode
      · rw [if_pos hN]
        exact ih _ _ hrest
      · rw [if_neg hN, if_pos hM]
        exact ih _ _ hrest

theorem seedResults_get (keys : List String) (results : GoMap (Option Err)) (k : String)
    (h : k ∉ keys) : GoMap.get (seedResults keys results) k = GoMap.get results k := by
  unfold seedResults
  induction keys generalizing results with
  | nil => rfl
  | cons k' keys ih =>
    simp only [List.mem_cons, not_or] at h
    rw [List.foldl_cons, ih _ h.2, GoMap.get_set_ne _ _ _ _ h.1]

theorem groupProgs_keys (force : Bool) (interval : Duration) (groups : GoMap CloudInstanceGroup) :
    (groupProgs force interval groups).map Prod.fst = groups.map Prod.fst := by
  simp [groupProgs]

theorem mem_groupProgs (force : Bool) (interval : Duration) (groups : GoMap CloudInstanceGroup)
    (k : String) (g : CloudInstanceGroup) (h : (k, g) ∈ groups) :
    (k, g.RollingUpdate force interval) ∈ groupProgs force interval groups := by
  simp only [groupProgs, List.mem_map]
  exact ⟨(k, g), h, rfl⟩

theorem mem_groupProgs_inv (force : Bool) (interval : Duration)
    (groups : GoMap CloudInstanceGroup) (kp : String × Prog)
    (h : kp ∈ groupProgs force interval groups) :
    ∃ g, (kp.1, g) ∈ groups ∧ kp.2 = g.RollingUpdate force interval := by
  simp only [groupProgs, List.mem_map] at h
  obtain ⟨⟨k, g⟩, hkg, rfl⟩ := h
  exact ⟨g, hkg, rfl⟩

theorem mastersOf_keys_nodup (groups : GoMap CloudInstanceGroup)
    (hnd : (groups.map Prod.fst).Nodup) : ((mastersOf groups).map Prod.fst).Nodup :=
  List.Nodup.sublist (List.Sublist.map _ (List.filter_sublist _)) hnd

theorem nodesOf_keys_nodup (groups : GoMap CloudInstanceGroup)
    (hnd : (groups.map Prod.fst).Nodup) : ((nodesOf groups).map Prod.fst).Nodup :=
  List.Nodup.sublist (List.Sublist.map _ (List.filter_sublist _)) hnd

theorem mem_mastersOf (groups : GoMap CloudInstanceGroup) (kg : String × CloudInstanceGroup) :
    kg ∈ mastersOf groups ↔
      kg ∈ groups ∧ kg.2.InstanceGroup.Spec.Role = InstanceGroupRoleMaster := by
  simp [mastersOf, List.mem_filter]

theorem mem_nodesOf (groups : GoMap CloudInstanceGroup) (kg : String × CloudInstanceGroup) :
    kg ∈ nodesOf groups ↔
      kg ∈ groups ∧ kg.2.InstanceGroup.Spec.Role = InstanceGroupRoleNode := by
  simp [nodesOf, List.mem_filter]

theorem master_key_not_node (groups : GoMap CloudInstanceGroup)
    (hnd : (groups.map Prod.fst).Nodup) (k : String)
    (hm : k ∈ (mastersOf groups).map Prod.fst) : k ∉ (nodesOf groups).map Prod.fst := by
  intro hn
  simp only [List.mem_map] at hm hn
  obtain ⟨⟨k1, g1⟩, h1, rfl⟩ := hm
  obtain ⟨⟨k2, g2⟩, h2, hk⟩ := hn
  simp only at hk
  subst hk
  rw [mem_mastersOf] at h1
  rw [mem_nodesOf] at h2
  have := nodup_keys_unique groups hnd k2 g1 g2 h1.1 h2.1
  subst this
  exact role_node_ne_master (h2.2.symm.trans h1.2)

/-- The cases of a run of `RollingUpdateCluster.RollingUpdate`. -/
theorem RollingUpdate_cases {σ : Type} (c : RollingUpdateCluster) (env : Env σ) (rt : Runtime)
    (groups : GoMap CloudInstanceGroup) (s : σ) (hnd : (groups.map Prod.fst).Nodup) :
    ((c.RollingUpdate env rt groups s).trace = [] ∧ (c.RollingUpdate env rt groups s).results = [] ∧
        (groups = [] ∨ ∃ err, partitionGroups groups [] [] = Except.error err)) ∨
      ((masterPhase c env rt groups s).crashed = true ∧
        (c.RollingUpdate env rt groups s).result = Result.panicked ∧
        (c.RollingUpdate env rt groups s).trace = (masterPhase c env rt groups s).trace) ∨
      ((masterPhase c env rt groups s).crashed = false ∧
        (workerPhase c env rt groups s).crashed = true ∧
        (c.RollingUpdate env rt groups s).result = Result.panicked ∧
        (c.RollingUpdate env rt groups s).trace =
          (masterPhase c env rt groups s).trace ++ (workerPhase c env rt groups s).trace) ∨
      ((masterPhase c env rt groups s).crashed = false ∧
        (workerPhase c env rt groups s).crashed = false ∧
        (c.RollingUpdate env rt groups s).result =
          Result.returned (firstError (rt.rangeResults (workerPhase c env rt groups s).results)) ∧
        (c.RollingUpdate env rt groups s).results = (workerPhase c env rt groups s).results ∧
        (c.RollingUpdate env rt groups s).trace =
          (masterPhase c env rt groups s).trace ++ (workerPhase c env rt groups s).trace) := by
  unfold RollingUpdateCluster.RollingUpdate
  by_cases h0 : groups.length = 0
  · left
    simp [h0, List.length_eq_zero.mp h0]
  · simp only [h0, if_false]
    cases hp : partitionGroups groups [] [] with
    | error err =>
      left
      exact ⟨rfl, rfl, Or.inr ⟨err, rfl⟩⟩
    | ok mn =>
      obtain ⟨M, N⟩ := mn
      obtain ⟨hM, hN⟩ := partitionGroups_ok groups [] [] M N hnd (by simp) (by simp) hp
      simp only [List.nil_append] at hM hN
      subst hM hN
      right
      simp only
      by_cases hmc : (masterPhase c env rt groups s).crashed = true
      · left
        have hmc' := hmc
        unfold masterPhase at hmc'
        refine ⟨hmc, ?_, ?_⟩
        · simp only [hmc', if_true]
        · simp only [hmc', if_true]
          rfl
      · right
        have hmf : (masterPhase c env rt groups s).crashed = false := by
          simpa using hmc
        have hmc' := hmf
        unfold masterPhase at hmc'
        simp only [hmc']
        by_cases hwc : (workerPhase c env rt groups s).crashed = true
        · left
          have hwc' := hwc
          unfold workerPhase masterPhase at hwc'
          refine ⟨hmf, hwc, ?_, ?_⟩ <;> (simp only [hwc', if_true]; rfl)
        · right
          have hwf : (workerPhase c env rt groups s).crashed = false := by
            simpa using hwc
          have hwc' := hwf
          unfold workerPhase masterPhase at hwc'
          refine ⟨hmf, hwf, ?_, ?_, ?_⟩ <;> simp only [hwc'] <;> rfl

theorem masterPool_nodup (c : RollingUpdateCluster) (rt : Runtime)
    (groups : GoMap CloudInstanceGroup) (hnd : (groups.map Prod.fst).Nodup) (hv : rt.Valid) :
    ((groupProgs c.Force c.MasterInterval (rt.rangeMasters (mastersOf groups))).map
      Prod.fst).Nodup := by
  rw [groupProgs_keys]
  exact ((hv.1 (mastersOf groups)).map Prod.fst).nodup_iff.mpr (mastersOf_keys_nodup groups hnd)

theorem nodePool_nodup (c : RollingUpdateCluster) (rt : Runtime)
    (groups : GoMap CloudInstanceGroup) (hnd : (groups.map Prod.fst).Nodup) (hv : rt.Valid) :
    ((groupProgs c.Force c.NodeInterval (rt.rangeNodes (nodesOf groups))).map
      Prod.fst).Nodup := by
  rw [groupProgs_keys]
  exact ((hv.2.1 (nodesOf groups)).map Prod.fst).nodup_iff.mpr (nodesOf_keys_nodup groups hnd)

theorem masterPool_keys (c : RollingUpdateCluster) (rt : Runtime)
    (groups : GoMap CloudInstanceGroup) (hv : rt.Valid) (k : String) :
    k ∈ (groupProgs c.Force c.MasterInterval (rt.rangeMasters (mastersOf groups))).map Prod.fst ↔
      k ∈ (mastersOf groups).map Prod.fst := by
  rw [groupProgs_keys]
  exact ((hv.1 (mastersOf groups)).map Prod.fst).mem_iff

theorem nodePool_keys (c : RollingUpdateCluster) (rt : Runtime)
    (groups : GoMap CloudInstanceGroup) (hv : rt.Valid) (k : String) :
    k ∈ (groupProgs c.Force c.NodeInterval (rt.rangeNodes (nodesOf groups))).map Prod.fst ↔
      k ∈ (nodesOf groups).map Prod.fst := by
  rw [groupProgs_keys]
  exact ((hv.2.1 (nodesOf groups)).map Prod.fst).mem_iff

theorem masterPhase_spec {σ : Type} (c : RollingUpdateCluster) (env : Env σ) (rt : Runtime)
    (groups : GoMap CloudInstanceGroup) (s : σ) (hnd : (groups.map Prod.fst).Nodup)
    (hv : rt.Valid) :
    PoolSpec (groupProgs c.Force c.MasterInterval (rt.rangeMasters (mastersOf groups)))
      (seedResults (GoMap.keys (mastersOf groups)) []) (masterPhase c env rt groups s) :=
  runSerial_spec env _ _ s (masterPool_nodup c rt groups hnd hv)

theorem workerPhase_spec {σ : Type} (c : RollingUpdateCluster) (env : Env σ) (rt : Runtime)
    (groups : GoMap CloudInstanceGroup) (s : σ) (hnd : (groups.map Prod.fst).Nodup)
    (hv : rt.Valid) :
    PoolSpec (groupProgs c.Force c.NodeInterval (rt.rangeNodes (nodesOf groups)))
      (seedResults (GoMap.keys (nodesOf groups)) (masterPhase c env rt groups s).results)
      (workerPhase c env rt groups s) :=
  runPool_spec env _ _ _ _ (nodePool_nodup c rt groups hnd hv)

theorem masterPhase_tag {σ : Type} (c : RollingUpdateCluster) (env : Env σ) (rt : Runtime)
    (groups : GoMap CloudInstanceGroup) (s : σ) (hnd : (groups.map Prod.fst).Nodup)
    (hv : rt.Valid) (x : String × Event) (hx : x ∈ (masterPhase c env rt groups s).trace) :
    x.1 ∈ (mastersOf groups).map Prod.fst :=
  (masterPool_keys c rt groups hv x.1).mp ((masterPhase_spec c env rt groups s hnd hv).1 x hx)

theorem workerPhase_tag {σ : Type} (c : RollingUpdateCluster) (env : Env σ) (rt : Runtime)
    (groups : GoMap CloudInstanceGroup) (s : σ) (hnd : (groups.map Prod.fst).Nodup)
    (hv : rt.Valid) (x : String × Event) (hx : x ∈ (workerPhase c env rt groups s).trace) :
    x.1 ∈ (nodesOf groups).map Prod.fst :=
  (nodePool_keys c rt groups hv x.1).mp ((workerPhase_spec c env rt groups s hnd hv).1 x hx)

/-- In a run that did not panic, the goroutine of every group ran to its end
along the calls made for the group, and what it returned is in the result slot
of the group. -/
theorem RollingUpdate_group_result {σ : Type} (c : RollingUpdateCluster) (env : Env σ)
    (rt : Runtime) (groups : GoMap CloudInstanceGroup) (s : σ)
    (hnd : (groups.map Prod.fst).Nodup) (hv : rt.Valid)
    (hres : (c.RollingUpdate env rt groups s).result ≠ Result.panicked)
    (hne : (c.RollingUpdate env rt groups s).trace ≠ [] ∨
      ∀ kg ∈ groups, kg.2.InstanceGroup.Spec.Role = InstanceGroupRoleNode ∨
        kg.2.InstanceGroup.Spec.Role = InstanceGroupRoleMaster)
    (k : String) (g : CloudInstanceGroup) (hkg : (k, g) ∈ groups) :
    (g.InstanceGroup.Spec.Role = InstanceGroupRoleMaster →
      ∃ err, (g.RollingUpdate c.Force c.MasterInterval).after
          (callsOf k (c.RollingUpdate env rt groups s).trace) =
            some (Prog.done (Result.returned err)) ∧
        GoMap.get (c.RollingUpdate env rt groups s).results k = some err) ∧
    (g.InstanceGroup.Spec.Role = InstanceGroupRoleNode →
      ∃ err, (g.RollingUpdate c.Force c.NodeInterval).after
          (callsOf k (c.RollingUpdate env rt groups s).trace) =
            some (Prog.done (Result.returned err)) ∧
        GoMap.get (c.RollingUpdate env rt groups s).results k = some err) := by
  rcases RollingUpdate_cases c env rt groups s hnd with h | h | h | h
  · rcases hne with hne | hknown
    · exact absurd h.1 hne
    · rcases h.2.2 with h0 | ⟨err, herr⟩
      · rw [h0] at hkg
        simp at hkg
      · obtain ⟨m', n', hok⟩ := partitionGroups_known groups [] [] hknown
        rw [hok] at herr
        cases herr
  · exact absurd h.2.1 hres
  · exact absurd h.2.2.1 hres
  · obtain ⟨hmc, hwc, _, hresults, htrace⟩ := h
    have hm := masterPhase_spec c env rt groups s hnd hv
    have hw := workerPhase_spec c env rt groups s hnd hv
    rw [hresults, htrace, callsOf_append]
    constructor
    · intro hrole
      have hkM : (k, g) ∈ mastersOf groups := (mem_mastersOf groups (k, g)).mpr ⟨hkg, hrole⟩
      have hkeyM : k ∈ (mastersOf groups).map Prod.fst := List.mem_map_of_mem Prod.fst hkM
      have hkeyN : k ∉ (nodesOf groups).map Prod.fst := master_key_not_node groups hnd k hkeyM
      obtain ⟨err, ha, hg⟩ := hm.2.2 hmc (k, g.RollingUpdate c.Force c.MasterInterval)
        (mem_groupProgs _ _ _ k g ((hv.1 (mastersOf groups)).mem_iff.mpr hkM))
      refine ⟨err, ?_, ?_⟩
      · rw [callsOf_eq_nil k (workerPhase c env rt groups s).trace (fun x hx hk =>
          hkeyN (hk ▸ workerPhase_tag c env rt groups s hnd hv x hx)), List.append_nil]
        exact ha
      · rw [hw.2.1 k (fun hk => hkeyN ((nodePool_keys c rt groups hv k).mp hk))]
        exact (seedResults_get (GoMap.keys (nodesOf groups)) _ k hkeyN).trans hg
    · intro hrole
      have hkN : (k, g) ∈ nodesOf groups := (mem_nodesOf groups (k, g)).mpr ⟨hkg, hrole⟩
      have hkeyN : k ∈ (nodesOf groups).map Prod.fst := List.mem_map_of_mem Prod.fst hkN
      have hkeyM : k ∉ (mastersOf groups).map Prod.fst :=
        fun hk => master_key_not_node groups hnd k hk hkeyN
      obtain ⟨err, ha, hg⟩ := hw.2.2 hwc (k, g.RollingUpdate c.Force c.NodeInterval)
        (mem_groupProgs _ _ _ k g ((hv.2.1 (nodesOf groups)).mem_iff.mpr hkN))
      refine ⟨err, ?_, hg⟩
      rw [callsOf_eq_nil k (masterPhase c env rt groups s).trace (fun x hx hk =>
          hkeyM (hk ▸ masterPhase_tag c env rt groups s hnd hv x hx)), List.nil_append]
      exact ha

theorem RollingUpdate_tag {σ : Type} (c : RollingUpdateCluster) (env : Env σ)
    (rt : Runtime) (groups : GoMap CloudInstanceGroup) (s : σ)
    (hnd : (groups.map Prod.fst).Nodup) (hv : rt.Valid) (x : String × Event)
    (hx : x ∈ (c.RollingUpdate env rt groups s).trace) :
    ∃ g, (x.1, g) ∈ groups ∧ (g.InstanceGroup.Spec.Role = InstanceGroupRoleMaster ∨
      g.InstanceGroup.Spec.Role = InstanceGroupRoleNode) := by
  have hM : x ∈ (masterPhase c env rt groups s).trace →
      ∃ g, (x.1, g) ∈ groups ∧ (g.InstanceGroup.Spec.Role = InstanceGroupRoleMaster ∨
        g.InstanceGroup.Spec.Role = InstanceGroupRoleNode) := by
    intro h
    have := masterPhase_tag c env rt groups s hnd hv x h
    simp only [List.mem_map] at this
    obtain ⟨⟨k, g⟩, hkg, hk⟩ := this
    simp only at hk
    subst hk
    rw [mem_mastersOf] at hkg
    exact ⟨g, hkg.1, Or.inl hkg.2⟩
  have hN : x ∈ (workerPhase c env rt groups s).trace →
      ∃ g, (x.1, g) ∈ groups ∧ (g.InstanceGroup.Spec.Role = InstanceGroupRoleMaster ∨
        g.InstanceGroup.Spec.Role = InstanceGroupRoleNode) := by
    intro h
    have := workerPhase_tag c env rt groups s hnd hv x h
    simp only [List.mem_map] at this
    obtain ⟨⟨k, g⟩, hkg, hk⟩ := this
    simp only at hk
    subst hk
    rw [mem_nodesOf] at hkg
    exact ⟨g, hkg.1, Or.inr hkg.2⟩
  rcases RollingUpdate_cases c env rt groups s hnd with h | h | h | h
  · rw [h.1] at hx
    simp at hx
  · rw [h.2.2] at hx
    exact hM hx
  · rw [h.2.2.2, List.mem_append] at hx
    exact hx.elim hM hN
  · rw [h.2.2.2.2, List.mem_append] at hx
    exact hx.elim hM hN

theorem run_updateLoop_terminate_error {σ : Type} (env : Env σ) (interval : Duration)
    (l : List CloudInstanceGroupInstance) (s : σ) (pre post : List Event)
    (instanceId : Option String) (e : Err)
    (h : ((updateLoop interval l).run env s).trace =
      pre ++ Event.terminate instanceId (some e) :: post) :
    post = [] ∧
      ((updateLoop interval l).run env s).result =
        Result.returned (some (Err.deletingInstance (StringValue instanceId) e)) ∧
      ∃ before u later, l = before ++ u :: later ∧ u.ASGInstance.InstanceId = instanceId ∧
        terminated pre = before.map fun u => u.ASGInstance.InstanceId := by
  induction l generalizing s pre with
  | nil => simp [run_updateLoop_nil] at h
  | cons u rest ih =>
    cases hn : u.Node with
    | none => simp [run_updateLoop_cons_none env interval s u rest hn] at h
    | some node =>
      cases ht : (env.terminate u.ASGInstance.InstanceId (env.cordon node.Name s).2).1 with
      | some e' =>
        rw [run_updateLoop_cons_fail env interval s u rest node e' hn ht] at h ⊢
        rcases cons_eq_split h with ⟨_, hx, _⟩ | ⟨p1, hp1, h1⟩
        · cases hx
        · rcases cons_eq_split h1 with ⟨hp, hx, hpost⟩ | ⟨p2, _, h2⟩
          · simp only [Event.terminate.injEq, Option.some.injEq] at hx
            obtain ⟨rfl, rfl⟩ := hx
            subst hp hp1
            exact ⟨hpost.symm, rfl, [], u, rest, rfl, rfl, by simp [terminated]⟩
          · simp at h2
      | none =>
        rw [run_updateLoop_cons_ok env interval s u rest node hn ht] at h ⊢
        simp only [Run.prepend, List.cons_append] at h ⊢
        rcases cons_eq_split h with ⟨_, hx, _⟩ | ⟨p1, hp1, h1⟩
        · cases hx
        · rcases cons_eq_split h1 with ⟨_, hx, _⟩ | ⟨p2, hp2, h2⟩
          · simp at hx
          · rcases cons_eq_split h2 with ⟨_, hx, _⟩ | ⟨p3, hp3, h3⟩
            · cases hx
            · have hwait := validateWait_isWait env node.ClusterName interval retries
                (env.sleep interval
                  (env.terminate u.ASGInstance.InstanceId (env.cordon node.Name s).2).2)
              have hnot : Event.terminate instanceId (some e) ∉
                  (validateWait env node.ClusterName interval retries
                    (env.sleep interval
                      (env.terminate u.ASGInstance.InstanceId (env.cordon node.Name s).2).2)).1 := by
                intro hm
                have := hwait _ hm
                simp [Event.isWait] at this
              obtain ⟨p4, hp4, h4⟩ := append_eq_split h3 hnot
              obtain ⟨hpost, hresult, before, u', later, hl, hid, hterm⟩ := ih _ _ h4
              refine ⟨hpost, hresult, u :: before, u', later, by rw [hl]; rfl, hid, ?_⟩
              subst hp1 hp2 hp3 hp4
              simp only [terminated, terminated_append, terminated_of_isWait _ hwait, hterm,
                List.nil_append, List.map_cons]

theorem RollingUpdate_terminate_error_slot {σ : Type} (c : RollingUpdateCluster) (env : Env σ)
    (rt : Runtime) (groups : GoMap CloudInstanceGroup) (s : σ) (k : String)
    (instanceId : Option String) (e : Err)
    (hnd : (groups.map Prod.fst).Nodup) (hv : rt.Valid)
    (hres : (c.RollingUpdate env rt groups s).result ≠ Result.panicked)
    (hmem : (k, Event.terminate instanceId (some e)) ∈ (c.RollingUpdate env rt groups s).trace) :
    GoMap.get (c.RollingUpdate env rt groups s).results k =
      some (some (Err.deletingInstance (StringValue instanceId) e)) := by
  obtain ⟨g, hkg, hrole⟩ := RollingUpdate_tag c env rt groups s hnd hv _ hmem
  have hne : (c.RollingUpdate env rt groups s).trace ≠ [] := List.ne_nil_of_mem hmem
  have hgr := RollingUpdate_group_result c env rt groups s hnd hv hres (Or.inl hne) k g hkg
  have hcall := mem_callsOf_of_mem k _ _ hmem
  rcases hrole with hrole | hrole
  · obtain ⟨err, ha, hget⟩ := hgr.1 hrole
    have := after_updateLoop_terminate_error _ _ _ _ ha instanceId e hcall
    simp only [Result.returned.injEq] at this
    rw [hget, this]
  · obtain ⟨err, ha, hget⟩ := hgr.2 hrole
    have := after_updateLoop_terminate_error _ _ _ _ ha instanceId e hcall
    simp only [Result.returned.injEq] at this
    rw [hget, this]

/-- C8: when a termination call of `CloudInstanceGroup.RollingUpdate` returns an
error, it is the last call of the run (no later instance is cordoned or
terminated, nothing is slept or validated after it), the instances terminated
before it are exactly those selected before the failing one, and the returned
error is the "error deleting instance" error carrying the id of the failing
instance; and in a run of `RollingUpdateCluster.RollingUpdate` that does not
panic, that error is in the result slot of the key of the group. -/
theorem terminate_error_aborts_group {σ : Type} (env : Env σ) :
    (∀ (n : CloudInstanceGroup) (force : Bool) (interval : Duration) (s : σ)
        (pre post : List Event) (instanceId : Option String) (e : Err),
        ((n.RollingUpdate force interval).run env s).trace =
          pre ++ Event.terminate instanceId (some e) :: post →
        post = [] ∧
          ((n.RollingUpdate force interval).run env s).result =
            Result.returned (some (Err.deletingInstance (StringValue instanceId) e)) ∧
          ∃ before u later,
            (if force = true then n.NeedUpdate ++ n.Ready else n.NeedUpdate) =
              before ++ u :: later ∧
            u.ASGInstance.InstanceId = instanceId ∧
            terminated pre = before.map fun u => u.ASGInstance.InstanceId) ∧
      ∀ (c : RollingUpdateCluster) (rt : Runtime) (groups : GoMap CloudInstanceGroup) (s : σ)
        (k : String) (instanceId : Option String) (e : Err),
        (groups.map Prod.fst).Nodup → rt.Valid →
        (c.RollingUpdate env rt groups s).result ≠ Result.panicked →
        (k, Event.terminate instanceId (some e)) ∈ (c.RollingUpdate env rt groups s).trace →
        GoMap.get (c.RollingUpdate env rt groups s).results k =
          some (some (Err.deletingInstance (StringValue instanceId) e)) :=
  ⟨fun _ _ interval s pre post instanceId e h =>
      run_updateLoop_terminate_error env interval _ s pre post instanceId e h,
    fun c rt groups s k instanceId e hnd hv hres hmem =>
      RollingUpdate_terminate_error_slot c env rt groups s k instanceId e hnd hv hres hmem⟩

theorem Runtime.inOrder_valid : Runtime.inOrder.Valid :=
  ⟨fun m => List.Perm.refl m, fun m => List.Perm.refl m, fun m => List.Perm.refl m⟩

theorem terminate_error_aborts_group_witness :
    (((exampleGroup "master-a" InstanceGroupRoleMaster [] [linkedInstance "i-m1" "lc-1"]).RollingUpdate
        false 5).run (scriptedEnv none [some "i-m1"] fun _ => false) 0).result =
      Result.returned (some (Err.deletingInstance "i-m1" (Err.collaborator "terminate failed"))) ∧
    GoMap.get (exampleUpdate.RollingUpdate (scriptedEnv none [some "i-m1"] fun _ => false)
        Runtime.inOrder exampleCluster 0).results "master-a" =
      some (some (Err.deletingInstance "i-m1" (Err.collaborator "terminate failed"))) :=
  ⟨((terminate_error_aborts_group (scriptedEnv none [some "i-m1"] fun _ => false)).1
      (exampleGroup "master-a" InstanceGroupRoleMaster [] [linkedInstance "i-m1" "lc-1"])
      false 5 0 [Event.cordon "i-m1" none] [] (some "i-m1") (Err.collaborator "terminate failed")
      (by decide)).2.1,
    (terminate_error_aborts_group (scriptedEnv none [some "i-m1"] fun _ => false)).2
      exampleUpdate Runtime.inOrder exampleCluster 0 "master-a" (some "i-m1")
      (Err.collaborator "terminate failed") (by decide) Runtime.inOrder_valid (by decide)
      (by decide)⟩

theorem rank_lt_of_mem (ks : List String) (x : String) (h : x ∈ ks) :
    rank ks x < ks.length := by
  induction ks with
  | nil => simp at h
  | cons k ks ih =>
    by_cases hx : x = k
    · simp [rank, hx]
    · simp only [List.mem_cons, hx, false_or] at h
      simp only [rank, hx, if_false, List.length_cons]
      have := ih h
      omega

theorem rank_of_not_mem (ks : List String) (x : String) (h : x ∉ ks) :
    rank ks x = ks.length := by
  induction ks with
  | nil => rfl
  | cons k ks ih =>
    simp only [List.mem_cons, not_or] at h
    simp [rank, h.1, ih h.2]

theorem rank_inj (ks : List String) (x y : String) (hx : x ∈ ks)
    (h : rank ks x = rank ks y) : y = x := by
  induction ks with
  | nil => simp at hx
  | cons k ks ih =>
    by_cases hxk : x = k
    · by_cases hyk : y = k
      · rw [hxk, hyk]
      · simp [rank, hxk, hyk] at h
    · by_cases hyk : y = k
      · simp [rank, hxk, hyk] at h
      · simp only [List.mem_cons, hxk, false_or] at hx
        simp only [rank, hxk, hyk, if_false, Nat.add_right_cancel_iff] at h
        exact ih hx h

theorem runSerial_sorted {σ : Type} (env : Env σ) (pool : List (String × Prog))
    (results : GoMap (Option Err)) (s : σ) (hnd : (pool.map Prod.fst).Nodup) :
    (runSerial env pool results s).trace.Pairwise
      fun a b => rank (pool.map Prod.fst) a.1 ≤ rank (pool.map Prod.fst) b.1 := by
  induction pool generalizing results s with
  | nil => simp [runSerial]
  | cons kp rest ih =>
    obtain ⟨k, p⟩ := kp
    have hblock : ∀ (t : List Event),
        (t.map (Prod.mk k)).Pairwise fun a b =>
          rank (((k, p) :: rest).map Prod.fst) a.1 ≤ rank (((k, p) :: rest).map Prod.fst) b.1 := by
      intro t
      apply List.Pairwise.imp_of_mem (R := fun _ _ => True)
      · intro a b ha _ _
        simp only [List.mem_map] at ha
        obtain ⟨e, _, rfl⟩ := ha
        simp [rank]
      · exact List.pairwise_of_forall fun _ _ => trivial
    simp only [List.map_cons, List.nodup_cons] at hnd
    rw [runSerial]
    cases hres : (p.run env s).result with
    | panicked => exact hblock _
    | returned err =>
      simp only [PoolRun.prepend]
      rw [List.pairwise_append]
      have hspec := runSerial_spec env rest (GoMap.set results k err) (p.run env s).world hnd.2
      refine ⟨hblock _, ?_, ?_⟩
      · apply List.Pairwise.imp_of_mem _ (ih (GoMap.set results k err) (p.run env s).world hnd.2)
        intro a b ha hb hab
        have hak : a.1 ≠ k := fun h => hnd.1 (h ▸ hspec.1 a ha)
        have hbk : b.1 ≠ k := fun h => hnd.1 (h ▸ hspec.1 b hb)
        simp only [List.map_cons, rank, hak, hbk, if_false]
        omega
      · intro a ha b _
        simp only [List.mem_map] at ha
        obtain ⟨e, _, rfl⟩ := ha
        simp [rank]

theorem RollingUpdate_sorted {σ : Type} (c : RollingUpdateCluster) (env : Env σ) (rt : Runtime)
    (groups : GoMap CloudInstanceGroup) (s : σ) (hnd : (groups.map Prod.fst).Nodup)
    (hv : rt.Valid) :
    (c.RollingUpdate env rt groups s).trace.Pairwise fun a b =>
      rank ((rt.rangeMasters (mastersOf groups)).map Prod.fst) a.1 ≤
        rank ((rt.rangeMasters (mastersOf groups)).map Prod.fst) b.1 := by
  have hm : (masterPhase c env rt groups s).trace.Pairwise fun a b =>
      rank ((rt.rangeMasters (mastersOf groups)).map Prod.fst) a.1 ≤
        rank ((rt.rangeMasters (mastersOf groups)).map Prod.fst) b.1 := by
    have := runSerial_sorted env
      (groupProgs c.Force c.MasterInterval (rt.rangeMasters (mastersOf groups)))
      (seedResults (GoMap.keys (mastersOf groups)) []) s (masterPool_nodup c rt groups hnd hv)
    rw [groupProgs_keys] at this
    exact this
  have hmem : ∀ k, k ∈ (rt.rangeMasters (mastersOf groups)).map Prod.fst ↔
      k ∈ (mastersOf groups).map Prod.fst :=
    fun k => ((hv.1 (mastersOf groups)).map Prod.fst).mem_iff
  have hw : ∀ x ∈ (workerPhase c env rt groups s).trace,
      rank ((rt.rangeMasters (mastersOf groups)).map Prod.fst) x.1 =
        ((rt.rangeMasters (mastersOf groups)).map Prod.fst).length := by
    intro x hx
    apply rank_of_not_mem
    intro hk
    exact master_key_not_node groups hnd x.1 ((hmem x.1).mp hk)
      (workerPhase_tag c env rt groups s hnd hv x hx)
  have hboth : ((masterPhase c env rt groups s).trace ++
      (workerPhase c env rt groups s).trace).Pairwise fun a b =>
      rank ((rt.rangeMasters (mastersOf groups)).map Prod.fst) a.1 ≤
        rank ((rt.rangeMasters (mastersOf groups)).map Prod.fst) b.1 := by
    rw [List.pairwise_append]
    refine ⟨hm, ?_, ?_⟩
    · apply List.Pairwise.imp_of_mem (R := fun _ _ => True)
      · intro a b ha hb _
        rw [hw a ha, hw b hb]
      · exact List.pairwise_of_forall fun _ _ => trivial
    · intro a ha b hb
      rw [hw b hb]
      exact Nat.le_of_lt (rank_lt_of_mem _ _
        ((hmem a.1).mpr (masterPhase_tag c env rt groups s hnd hv a ha)))
  rcases RollingUpdate_cases c env rt groups s hnd with h | h | h | h
  · rw [h.1]
    exact List.Pairwise.nil
  · rw [h.2.2]
    exact hm
  · rw [h.2.2.2]
    exact hboth
  · rw [h.2.2.2.2]
    exact hboth

theorem pairwise_split {α : Type} {R : α → α → Prop} {t l1 l2 l3 : List α} {a b : α}
    (hp : t.Pairwise R) (h : t = l1 ++ a :: (l2 ++ b :: l3)) : R a b := by
  subst h
  have h1 := (List.pairwise_append.mp hp).2.1
  exact (List.pairwise_cons.mp h1).1 b (by simp)

/-- C2: in every run of `RollingUpdateCluster.RollingUpdate` every call is made
for a master-role or node-role group of the map; a call made for a node-role
group is never followed by a call made for a master-role group (all the calls of
the master groups come first); and between two calls made for the same
master-role group there is no call made for another group (the master groups
are processed one whole group after another). -/
theorem RollingUpdate_masters_before_workers {σ : Type} (c : RollingUpdateCluster)
    (env : Env σ) (rt : Runtime) (groups : GoMap CloudInstanceGroup) (s : σ)
    (hnd : (groups.map Prod.fst).Nodup) (hv : rt.Valid) :
    (∀ x ∈ (c.RollingUpdate env rt groups s).trace,
        ∃ g, (x.1, g) ∈ groups ∧ (g.InstanceGroup.Spec.Role = InstanceGroupRoleMaster ∨
          g.InstanceGroup.Spec.Role = InstanceGroupRoleNode)) ∧
      (∀ l1 a l2 b l3, (c.RollingUpdate env rt groups s).trace = l1 ++ a :: (l2 ++ b :: l3) →
        (∃ g, (a.1, g) ∈ groups ∧ g.InstanceGroup.Spec.Role = InstanceGroupRoleNode) →
        ¬ ∃ g, (b.1, g) ∈ groups ∧ g.InstanceGroup.Spec.Role = InstanceGroupRoleMaster) ∧
      (∀ l1 a l2 b l3 d l4,
        (c.RollingUpdate env rt groups s).trace = l1 ++ a :: (l2 ++ b :: (l3 ++ d :: l4)) →
        (∃ g, (a.1, g) ∈ groups ∧ g.InstanceGroup.Spec.Role = InstanceGroupRoleMaster) →
        d.1 = a.1 → b.1 = a.1) := by
  have hsorted := RollingUpdate_sorted c env rt groups s hnd hv
  have hmem : ∀ k, k ∈ (rt.rangeMasters (mastersOf groups)).map Prod.fst ↔
      k ∈ (mastersOf groups).map Prod.fst :=
    fun k => ((hv.1 (mastersOf groups)).map Prod.fst).mem_iff
  have hmaster : ∀ k, (∃ g, (k, g) ∈ groups ∧
      g.InstanceGroup.Spec.Role = InstanceGroupRoleMaster) →
      k ∈ (rt.rangeMasters (mastersOf groups)).map Prod.fst := by
    rintro k ⟨g, hkg, hrole⟩
    exact (hmem k).mpr (List.mem_map_of_mem Prod.fst
      ((mem_mastersOf groups (k, g)).mpr ⟨hkg, hrole⟩))
  refine ⟨fun x hx => RollingUpdate_tag c env rt groups s hnd hv x hx, ?_, ?_⟩
  · rintro l1 a l2 b l3 htrace ⟨g, hkg, hrole⟩ hb
    have hab := pairwise_split hsorted htrace
    have ha : a.1 ∉ (rt.rangeMasters (mastersOf groups)).map Prod.fst := by
      intro hk
      exact master_key_not_node groups hnd a.1 ((hmem a.1).mp hk)
        (List.mem_map_of_mem Prod.fst ((mem_nodesOf groups (a.1, g)).mpr ⟨hkg, hrole⟩))
    rw [rank_of_not_mem _ _ ha] at hab
    have := rank_lt_of_mem _ _ (hmaster b.1 hb)
    omega
  · rintro l1 a l2 b l3 d l4 htrace ha hda
    have hab := pairwise_split hsorted htrace
    have h2 : (c.RollingUpdate env rt groups s).trace =
        (l1 ++ a :: l2) ++ b :: (l3 ++ d :: l4) := by
      rw [htrace]
      simp
    have hbd := pairwise_split hsorted h2
    rw [hda] at hbd
    exact rank_inj _ a.1 b.1 (hmaster a.1 ha) (Nat.le_antisymm hab hbd)

theorem RollingUpdate_masters_before_workers_witness :
    (exampleUpdate.RollingUpdate
        (scriptedEnv none [some "i-m1", some "i-m2", some "i-n1"] fun _ => false)
        Runtime.inOrder exampleCluster 0).trace =
      [("master-a", Event.cordon "i-m1" none),
        ("master-a", Event.terminate (some "i-m1") (some (Err.collaborator "terminate failed"))),
        ("master-b", Event.cordon "i-m2" none),
        ("master-b", Event.terminate (some "i-m2") (some (Err.collaborator "terminate failed")))] ++
      ("nodes", Event.cordon "i-n1" none) :: ([] ++
        ("nodes", Event.terminate (some "i-n1") (some (Err.collaborator "terminate failed"))) ::
          []) ∧
    ¬ ∃ g, ("nodes", g) ∈ exampleCluster ∧
      g.InstanceGroup.Spec.Role = InstanceGroupRoleMaster :=
  ⟨by decide,
    (RollingUpdate_masters_before_workers exampleUpdate
      (scriptedEnv none [some "i-m1", some "i-m2", some "i-n1"] fun _ => false)
      Runtime.inOrder exampleCluster 0 (by decide) Runtime.inOrder_valid).2.1
      [("master-a", Event.cordon "i-m1" none),
        ("master-a", Event.terminate (some "i-m1") (some (Err.collaborator "terminate failed"))),
        ("master-b", Event.cordon "i-m2" none),
        ("master-b", Event.terminate (some "i-m2") (some (Err.collaborator "terminate failed")))]
      ("nodes", Event.cordon "i-n1" none) []
      ("nodes", Event.terminate (some "i-n1") (some (Err.collaborator "terminate failed"))) []
      (by decide)
      ⟨exampleGroup "nodes" InstanceGroupRoleNode [] [linkedInstance "i-n1" "lc-1"],
        by decide, rfl⟩⟩

/-- C10 (counterexample): the first master group fails (the termination of its
instance returns an error, which is stored in its result slot), and the instance
of the node group is cordoned and terminated all the same. -/
theorem RollingUpdate_master_error_workers_run :
    (GoMap.get exampleCluster "master-a").map (fun g => g.InstanceGroup.Spec.Role) =
        some InstanceGroupRoleMaster ∧
      (GoMap.get exampleCluster "nodes").map (fun g => g.InstanceGroup.Spec.Role) =
        some InstanceGroupRoleNode ∧
      GoMap.get (exampleUpdate.RollingUpdate (scriptedEnv none [some "i-m1"] fun _ => false)
          Runtime.inOrder exampleCluster 0).results "master-a" =
        some (some (Err.deletingInstance "i-m1" (Err.collaborator "terminate failed"))) ∧
      ("nodes", Event.cordon "i-n1" none) ∈
        (exampleUpdate.RollingUpdate (scriptedEnv none [some "i-m1"] fun _ => false)
          Runtime.inOrder exampleCluster 0).trace ∧
      ("nodes", Event.terminate (some "i-n1") none) ∈
        (exampleUpdate.RollingUpdate (scriptedEnv none [some "i-m1"] fun _ => false)
          Runtime.inOrder exampleCluster 0).trace := by
  decide

/-- C10 (amended): the worker phase does not depend on what the master groups
returned. When every group has role Master or Node and no goroutine panics,
then, whether or not the rolling update of a master-role group returned an
error, every node-role group is started: the first instance it selects, when it
has a linked node, is cordoned and its termination is issued. -/
theorem RollingUpdate_workers_start_regardless {σ : Type} (c : RollingUpdateCluster)
    (env : Env σ) (rt : Runtime) (groups : GoMap CloudInstanceGroup) (s : σ)
    (k : String) (g : CloudInstanceGroup) (u : CloudInstanceGroupInstance)
    (rest : List CloudInstanceGroupInstance) (node : Node)
    (hnd : (groups.map Prod.fst).Nodup) (hv : rt.Valid)
    (hknown : ∀ kg ∈ groups, kg.2.InstanceGroup.Spec.Role = InstanceGroupRoleMaster ∨
      kg.2.InstanceGroup.Spec.Role = InstanceGroupRoleNode)
    (hres : (c.RollingUpdate env rt groups s).result ≠ Result.panicked)
    (hkg : (k, g) ∈ groups) (hrole : g.InstanceGroup.Spec.Role = InstanceGroupRoleNode)
    (hsel : (if c.Force = true then g.NeedUpdate ++ g.Ready else g.NeedUpdate) = u :: rest)
    (hnode : u.Node = some node) :
    ∃ cerr terr,
      (k, Event.cordon node.Name cerr) ∈ (c.RollingUpdate env rt groups s).trace ∧
      (k, Event.terminate u.ASGInstance.InstanceId terr) ∈
        (c.RollingUpdate env rt groups s).trace := by
  have hgr := RollingUpdate_group_result c env rt groups s hnd hv hres
    (Or.inr fun kg hkg => (hknown kg hkg).symm) k g hkg
  obtain ⟨err, ha, _⟩ := hgr.2 hrole
  unfold CloudInstanceGroup.RollingUpdate CloudInstanceGroup.update at ha
  rw [hsel] at ha
  obtain ⟨cerr, terr, t', ht, _⟩ := after_updateLoop_start _ u rest node _ _ hnode ha
  refine ⟨cerr, terr, mem_of_mem_callsOf k _ _ ?_, mem_of_mem_callsOf k _ _ ?_⟩
  · rw [ht]
    simp
  · rw [ht]
    simp

theorem RollingUpdate_workers_start_regardless_witness :
    GoMap.get (exampleUpdate.RollingUpdate (scriptedEnv none [some "i-m1"] fun _ => false)
        Runtime.inOrder exampleCluster 0).results "master-a" =
      some (some (Err.deletingInstance "i-m1" (Err.collaborator "terminate failed"))) ∧
    ∃ cerr terr,
      ("nodes", Event.cordon "i-n1" cerr) ∈
        (exampleUpdate.RollingUpdate (scriptedEnv none [some "i-m1"] fun _ => false)
          Runtime.inOrder exampleCluster 0).trace ∧
      ("nodes", Event.terminate (some "i-n1") terr) ∈
        (exampleUpdate.RollingUpdate (scriptedEnv none [some "i-m1"] fun _ => false)
          Runtime.inOrder exampleCluster 0).trace :=
  ⟨by decide,
    RollingUpdate_workers_start_regardless exampleUpdate
      (scriptedEnv none [some "i-m1"] fun _ => false) Runtime.inOrder exampleCluster 0 "nodes"
      (exampleGroup "nodes" InstanceGroupRoleNode [] [linkedInstance "i-n1" "lc-1"])
      (linkedInstance "i-n1" "lc-1") []
      { Name := "i-n1", ClusterName := "c.example.com", Spec := { ExternalID := "i-n1" } }
      (by decide) Runtime.inOrder_valid (by decide) (by decide) (by decide) rfl rfl rfl⟩

theorem run_updateLoop_after_terminate {σ : Type} (env : Env σ) (interval : Duration)
    (l : List CloudInstanceGroupInstance) (s : σ) (pre post : List Event)
    (instanceId : Option String)
    (h : ((updateLoop interval l).run env s).trace =
      pre ++ Event.terminate instanceId none :: post) :
    ∃ clusterName w wait tail,
      wait = (validateWait env clusterName interval retries w).1 ∧
      post = Event.sleep interval :: (wait ++ tail) ∧
      (tail = [] ∨ ∃ nodeName err tail', tail = Event.cordon nodeName err :: tail') := by
  induction l generalizing s pre with
  | nil => simp [run_updateLoop_nil] at h
  | cons u rest ih =>
    cases hn : u.Node with
    | none => simp [run_updateLoop_cons_none env interval s u rest hn] at h
    | some node =>
      cases ht : (env.terminate u.ASGInstance.InstanceId (env.cordon node.Name s).2).1 with
      | some e =>
        rw [run_updateLoop_cons_fail env interval s u rest node e hn ht] at h
        rcases cons_eq_split h with ⟨_, hx, _⟩ | ⟨p1, _, h1⟩
        · cases hx
        · rcases cons_eq_split h1 with ⟨_, hx, _⟩ | ⟨p2, _, h2⟩
          · simp at hx
          · simp at h2
      | none =>
        rw [run_updateLoop_cons_ok env interval s u rest node hn ht] at h
        simp only [Run.prepend, List.cons_append] at h
        rcases cons_eq_split h with ⟨_, hx, _⟩ | ⟨p1, _, h1⟩
        · cases hx
        · rcases cons_eq_split h1 with ⟨_, _, hpost⟩ | ⟨p2, _, h2⟩
          · exact ⟨node.ClusterName, _, _, _, rfl, hpost.symm, run_updateLoop_head env interval rest _⟩
          · rcases cons_eq_split h2 with ⟨_, hx, _⟩ | ⟨p3, _, h3⟩
            · cases hx
            · have hnot : Event.terminate instanceId none ∉
                  (validateWait env node.ClusterName interval retries
                    (env.sleep interval
                      (env.terminate u.ASGInstance.InstanceId (env.cordon node.Name s).2).2)).1 := by
                intro hm
                have := validateWait_isWait _ _ _ _ _ _ hm
                simp [Event.isWait] at this
              obtain ⟨p4, _, h4⟩ := append_eq_split h3 hnot
              exact ih _ _ h4

theorem validations_validateWait_failed {σ : Type} (env : Env σ) (clusterName : String)
    (interval : Duration) (hv : ∀ c w, (env.validate c w).1 ≠ none)
    (remaining : Nat) (s : σ) :
    (validations (validateWait env clusterName interval remaining s).1).length = remaining ∧
      ∀ e ∈ validations (validateWait env clusterName interval remaining s).1,
        ∃ c err, e = Event.validate c (some err) := by
  obtain ⟨h1, h2⟩ := validations_validateWait_stuck env clusterName interval (hv clusterName)
    remaining s
  exact ⟨h1, fun e he => ⟨clusterName, h2 e he⟩⟩

/-- C5 (amended): when the validator fails on every call, every termination call
of `CloudInstanceGroup.RollingUpdate` that succeeds is followed by a sleep and
then by sleeps and exactly `retries = 8` validation calls, all failed, after
which the trace ends or goes on with the cordon of another instance. -/
theorem RollingUpdate_validator_calls {σ : Type} (env : Env σ) (n : CloudInstanceGroup)
    (force : Bool) (interval : Duration) (s : σ) (pre post : List Event)
    (instanceId : Option String)
    (hstuck : ∀ clusterName w, (env.validate clusterName w).1 ≠ none)
    (hterminate : ((n.RollingUpdate force interval).run env s).trace =
      pre ++ Event.terminate instanceId none :: post) :
    ∃ wait tail,
      post = Event.sleep interval :: (wait ++ tail) ∧
        (∀ e ∈ wait, e.isWait = true) ∧
        (validations wait).length = retries ∧ retries = 8 ∧
        (∀ e ∈ validations wait, ∃ clusterName err, e = Event.validate clusterName (some err)) ∧
        (tail = [] ∨ ∃ nodeName err tail', tail = Event.cordon nodeName err :: tail') := by
  obtain ⟨clusterName, w, wait, tail, hwait, hpost, htail⟩ :=
    run_updateLoop_after_terminate env interval _ s pre post instanceId hterminate
  subst hwait
  exact ⟨_, tail, hpost, validateWait_isWait _ _ _ _ _,
    (validations_validateWait_failed env clusterName interval hstuck _ _).1, rfl,
    (validations_validateWait_failed env clusterName interval hstuck _ _).2, htail⟩

theorem RollingUpdate_validator_calls_witness :
    (((exampleGroup "nodes" InstanceGroupRoleNode [] [linkedInstance "i-2" "lc-1"]).RollingUpdate
        false 5).run (scriptedEnv none [] fun _ => true) 0).trace =
      [Event.cordon "i-2" none] ++ Event.terminate (some "i-2") none ::
        (Event.sleep 5 :: (List.replicate 8
          [Event.validate "c.example.com" (some (Err.collaborator "not ready")),
            Event.sleep 5]).flatten) ∧
    ∃ wait tail,
      (Event.sleep 5 :: (List.replicate 8
          [Event.validate "c.example.com" (some (Err.collaborator "not ready")),
            Event.sleep 5]).flatten) = Event.sleep 5 :: (wait ++ tail) ∧
        (∀ e ∈ wait, e.isWait = true) ∧
        (validations wait).length = retries ∧ retries = 8 ∧
        (∀ e ∈ validations wait, ∃ clusterName err, e = Event.validate clusterName (some err)) ∧
        (tail = [] ∨ ∃ nodeName err tail', tail = Event.cordon nodeName err :: tail') :=
  ⟨by decide,
    RollingUpdate_validator_calls (scriptedEnv none [] fun _ => true)
      (exampleGroup "nodes" InstanceGroupRoleNode [] [linkedInstance "i-2" "lc-1"]) false 5 0
      [Event.cordon "i-2" none] _ (some "i-2") (by intro c w; simp [scriptedEnv]) (by decide)⟩

/-- C16: the group built by `buildCloudInstanceGroup` has `Status` equal to
"Ready" if and only if its `NeedUpdate` list is empty, and equal to
"NeedsUpdate" otherwise. -/
theorem buildCloudInstanceGroup_Status (ig : InstanceGroup) (g : AutoscalingGroup)
    (nodeMap : GoMap Node) :
    ((buildCloudInstanceGroup ig g nodeMap).Status = "Ready" ↔
        (buildCloudInstanceGroup ig g nodeMap).NeedUpdate = []) ∧
      ((buildCloudInstanceGroup ig g nodeMap).NeedUpdate ≠ [] →
        (buildCloudInstanceGroup ig g nodeMap).Status = "NeedsUpdate") := by
  unfold buildCloudInstanceGroup
  simp only []
  split
  · rename_i h
    simp [List.length_eq_zero.mp h]
  · rename_i h
    have hne : (List.foldl (buildStep (StringValue g.LaunchConfigurationName) nodeMap)
        { InstanceGroup := ig, ASGName := StringValue g.AutoScalingGroupName, Status := "",
          Ready := [], NeedUpdate := [], asg := g } g.Instances).NeedUpdate ≠ [] :=
      fun h0 => h (by rw [h0]; rfl)
    simp only [hne, iff_false, ne_eq, not_false_eq_true, forall_const, and_true]
    decide

theorem matchInstanceGroup_nomatch (cluster : Cluster) (name : String)
    (l : List InstanceGroup) (acc : Option InstanceGroup)
    (h : ∀ g ∈ l, asgNameOf cluster g ≠ some name) :
    (matchInstanceGroup cluster name l acc).1 = Except.ok acc := by
  induction l generalizing acc with
  | nil => rfl
  | cons g rest ih =>
    have hg := h g (List.mem_cons_self _ _)
    have hrest := fun a => ih a (fun x hx => h x (List.mem_cons_of_mem _ hx))
    rw [matchInstanceGroup]
    cases hn : asgNameOf cluster g with
    | none => exact hrest acc
    | some asgName =>
      have hne : ¬ name = asgName := fun he => hg (by rw [hn, he])
      simp only [hne, if_false]
      exact hrest acc

theorem matchInstanceGroup_taken (cluster : Cluster) (name : String)
    (l : List InstanceGroup) (a : InstanceGroup)
    (h : ∃ g ∈ l, asgNameOf cluster g = some name) :
    ∃ err, (matchInstanceGroup cluster name l (some a)).1 = Except.error err := by
  induction l with
  | nil => simp at h
  | cons g rest ih =>
    rw [matchInstanceGroup]
    cases hn : asgNameOf cluster g with
    | none =>
      obtain ⟨x, hx, hxn⟩ := h
      simp only [List.mem_cons] at hx
      rcases hx with rfl | hx
      · rw [hn] at hxn
        cases hxn
      · exact ih ⟨x, hx, hxn⟩
    | some asgName =>
      by_cases he : name = asgName
      · simp only [he, if_true]
        exact ⟨_, rfl⟩
      · simp only [he, if_false]
        obtain ⟨x, hx, hxn⟩ := h
        simp only [List.mem_cons] at hx
        rcases hx with rfl | hx
        · rw [hn] at hxn
          exact absurd (Option.some.inj hxn).symm he
        · exact ih ⟨x, hx, hxn⟩

theorem matchInstanceGroup_error (cluster : Cluster) (name : String)
    (l : List InstanceGroup) (acc : Option InstanceGroup) (err : Err)
    (h : (matchInstanceGroup cluster name l acc).1 = Except.error err) :
    err = Err.multipleInstanceGroups name := by
  induction l generalizing acc with
  | nil => simp [matchInstanceGroup] at h
  | cons g rest ih =>
    rw [matchInstanceGroup] at h
    cases hn : asgNameOf cluster g with
    | none =>
      simp only [hn] at h
      exact ih acc h
    | some asgName =>
      simp only [hn] at h
      by_cases he : name = asgName
      · simp only [he, if_true] at h
        cases acc with
        | none => exact ih _ (he ▸ h)
        | some a =>
          simp only [Except.error.injEq] at h
          rw [he, h]
      · simp only [he, if_false] at h
        exact ih acc h

theorem matchInstanceGroup_twice (cluster : Cluster) (name : String)
    (l1 l2 : List InstanceGroup) (g1 : InstanceGroup) (acc : Option InstanceGroup)
    (h1 : asgNameOf cluster g1 = some name)
    (h2 : ∃ g ∈ l2, asgNameOf cluster g = some name) :
    ∃ err, (matchInstanceGroup cluster name (l1 ++ g1 :: l2) acc).1 = Except.error err := by
  induction l1 generalizing acc with
  | nil =>
    rw [List.nil_append, matchInstanceGroup]
    simp only [h1, if_true]
    cases acc with
    | none => exact matchInstanceGroup_taken cluster name l2 g1 h2
    | some a => exact ⟨_, rfl⟩
  | cons g rest ih =>
    rw [List.cons_append, matchInstanceGroup]
    cases hn : asgNameOf cluster g with
    | none => exact ih acc
    | some asgName =>
      by_cases he : name = asgName
      · simp only [he, if_true]
        cases acc with
        | none => exact he ▸ ih (some g)
        | some a => exact ⟨_, rfl⟩
      · simp only [he, if_false]
        exact ih acc

theorem matchInstanceGroup_ok (cluster : Cluster) (name : String)
    (l : List InstanceGroup) (acc r : Option InstanceGroup)
    (h : (matchInstanceGroup cluster name l acc).1 = Except.ok r) :
    (∀ g ∈ l, asgNameOf cluster g = some name → r = some g) ∧
      (∀ ig, r = some ig → acc = some ig ∨ (ig ∈ l ∧ asgNameOf cluster ig = some name)) := by
  induction l generalizing acc with
  | nil =>
    simp only [matchInstanceGroup, Except.ok.injEq] at h
    subst h
    exact ⟨by simp, fun ig hig => Or.inl hig⟩
  | cons g rest ih =>
    rw [matchInstanceGroup] at h
    cases hn : asgNameOf cluster g with
    | none =>
      simp only [hn] at h
      obtain ⟨i1, i2⟩ := ih acc h
      refine ⟨?_, ?_⟩
      · intro x hx hxn
        simp only [List.mem_cons] at hx
        rcases hx with rfl | hx
        · rw [hn] at hxn
          cases hxn
        · exact i1 x hx hxn
      · intro ig hig
        rcases i2 ig hig with h' | h'
        · exact Or.inl h'
        · exact Or.inr ⟨List.mem_cons_of_mem _ h'.1, h'.2⟩
    | some asgName =>
      simp only [hn] at h
      by_cases he : name = asgName
      · subst he
        simp only [if_true] at h
        cases acc with
        | some a => cases h
        | none =>
          simp only at h
          by_cases hmore : ∃ x ∈ rest, asgNameOf cluster x = some name
          · obtain ⟨err, herr⟩ := matchInstanceGroup_taken cluster name rest g hmore
            rw [herr] at h
            cases h
          · have hno : ∀ x ∈ rest, asgNameOf cluster x ≠ some name :=
              fun x hx hxn => hmore ⟨x, hx, hxn⟩
            rw [matchInstanceGroup_nomatch cluster name rest (some g) hno] at h
            simp only [Except.ok.injEq] at h
            subst h
            refine ⟨?_, ?_⟩
            · intro x hx hxn
              simp only [List.mem_cons] at hx
              rcases hx with rfl | hx
              · rfl
              · exact absurd hxn (hno x hx)
            · intro ig hig
              simp only [Option.some.injEq] at hig
              subst hig
              exact Or.inr ⟨List.mem_cons_self _ _, hn⟩
      · simp only [he, if_false] at h
        obtain ⟨i1, i2⟩ := ih acc h
        refine ⟨?_, ?_⟩
        · intro x hx hxn
          simp only [List.mem_cons] at hx
          rcases hx with rfl | hx
          · rw [hn] at hxn
            exact absurd (Option.some.inj hxn).symm he
          · exact i1 x hx hxn
        · intro ig hig
          rcases i2 ig hig with h' | h'
          · exact Or.inl h'
          · exact Or.inr ⟨List.mem_cons_of_mem _ h'.1, h'.2⟩

theorem matchInstanceGroup_skip (cluster : Cluster) (name : String)
    (l1 l2 : List InstanceGroup) (g : InstanceGroup) (acc : Option InstanceGroup)
    (hg : asgNameOf cluster g ≠ some name) :
    (matchInstanceGroup cluster name (l1 ++ g :: l2) acc).1 =
      (matchInstanceGroup cluster name (l1 ++ l2) acc).1 := by
  induction l1 generalizing acc with
  | nil =>
    rw [List.nil_append, List.nil_append, matchInstanceGroup]
    cases hn : asgNameOf cluster g with
    | none => rfl
    | some asgName =>
      have hne : ¬ name = asgName := fun he => hg (by rw [hn, he])
      simp only [hne, if_false]
  | cons x rest ih =>
    rw [List.cons_append, List.cons_append, matchInstanceGroup, matchInstanceGroup]
    cases hn : asgNameOf cluster x with
    | none => exact ih acc
    | some asgName =>
      by_cases he : name = asgName
      · simp only [he, if_true]
        cases acc with
        | none => exact he ▸ ih (some x)
        | some a => rfl
      · simp only [he, if_false]
        exact ih acc

theorem discoverLoop_cons_error (cluster : Cluster) (instancegroups : List InstanceGroup)
    (warnUnmatched : Bool) (nodeMap : GoMap Node) (asg : AutoscalingGroup)
    (rest : List AutoscalingGroup) (groups : GoMap CloudInstanceGroup) (err : Err)
    (h : (matchInstanceGroup cluster (StringValue asg.AutoScalingGroupName) instancegroups
      none).1 = Except.error err) :
    (discoverLoop cluster instancegroups warnUnmatched nodeMap (asg :: rest) groups).groups =
        none ∧
      (discoverLoop cluster instancegroups warnUnmatched nodeMap (asg :: rest) groups).err =
        some err := by
  rw [discoverLoop]
  cases hm : matchInstanceGroup cluster (StringValue asg.AutoScalingGroupName) instancegroups
    none with
  | mk r w =>
    rw [hm] at h
    simp only at h
    subst h
    exact ⟨rfl, rfl⟩

theorem discoverLoop_cons_none (cluster : Cluster) (instancegroups : List InstanceGroup)
    (warnUnmatched : Bool) (nodeMap : GoMap Node) (asg : AutoscalingGroup)
    (rest : List AutoscalingGroup) (groups : GoMap CloudInstanceGroup)
    (h : (matchInstanceGroup cluster (StringValue asg.AutoScalingGroupName) instancegroups
      none).1 = Except.ok none) :
    (discoverLoop cluster instancegroups warnUnmatched nodeMap (asg :: rest) groups).groups =
        (discoverLoop cluster instancegroups warnUnmatched nodeMap rest groups).groups ∧
      (discoverLoop cluster instancegroups warnUnmatched nodeMap (asg :: rest) groups).err =
        (discoverLoop cluster instancegroups warnUnmatched nodeMap rest groups).err := by
  rw [discoverLoop]
  cases hm : matchInstanceGroup cluster (StringValue asg.AutoScalingGroupName) instancegroups
    none with
  | mk r w =>
    rw [hm] at h
    simp only at h
    subst h
    exact ⟨rfl, rfl⟩

theorem discoverLoop_cons_some (cluster : Cluster) (instancegroups : List InstanceGroup)
    (warnUnmatched : Bool) (nodeMap : GoMap Node) (asg : AutoscalingGroup)
    (rest : List AutoscalingGroup) (groups : GoMap CloudInstanceGroup) (ig : InstanceGroup)
    (h : (matchInstanceGroup cluster (StringValue asg.AutoScalingGroupName) instancegroups
      none).1 = Except.ok (some ig)) :
    (discoverLoop cluster instancegroups warnUnmatched nodeMap (asg :: rest) groups).groups =
        (discoverLoop cluster instancegroups warnUnmatched nodeMap rest
          (GoMap.set groups ig.Name (buildCloudInstanceGroup ig asg nodeMap))).groups ∧
      (discoverLoop cluster instancegroups warnUnmatched nodeMap (asg :: rest) groups).err =
        (discoverLoop cluster instancegroups warnUnmatched nodeMap rest
          (GoMap.set groups ig.Name (buildCloudInstanceGroup ig asg nodeMap))).err := by
  rw [discoverLoop]
  cases hm : matchInstanceGroup cluster (StringValue asg.AutoScalingGroupName) instancegroups
    none with
  | mk r w =>
    rw [hm] at h
    simp only at h
    subst h
    exact ⟨rfl, rfl⟩

/-- The three ways an iteration of the loop over the autoscaling groups goes. -/
theorem matchInstanceGroup_cases (cluster : Cluster) (name : String)
    (l : List InstanceGroup) :
    (∃ err, (matchInstanceGroup cluster name l none).1 = Except.error err) ∨
      (matchInstanceGroup cluster name l none).1 = Except.ok none ∨
      ∃ ig, (matchInstanceGroup cluster name l none).1 = Except.ok (some ig) := by
  cases h : (matchInstanceGroup cluster name l none).1 with
  | error err => exact Or.inl ⟨err, rfl⟩
  | ok r =>
    cases r with
    | none => exact Or.inr (Or.inl rfl)
    | some ig => exact Or.inr (Or.inr ⟨ig, rfl⟩)

theorem discoverLoop_shape (cluster : Cluster) (instancegroups : List InstanceGroup)
    (warnUnmatched : Bool) (nodeMap : GoMap Node) (asgs : List AutoscalingGroup)
    (groups : GoMap CloudInstanceGroup) :
    ((discoverLoop cluster instancegroups warnUnmatched nodeMap asgs groups).groups = none ∧
        ∃ name, (discoverLoop cluster instancegroups warnUnmatched nodeMap asgs groups).err =
          some (Err.multipleInstanceGroups name)) ∨
      ((discoverLoop cluster instancegroups warnUnmatched nodeMap asgs groups).err = none ∧
        ∃ m, (discoverLoop cluster instancegroups warnUnmatched nodeMap asgs groups).groups =
          some m) := by
  induction asgs generalizing groups with
  | nil => exact Or.inr ⟨rfl, groups, rfl⟩
  | cons asg rest ih =>
    rcases matchInstanceGroup_cases cluster (StringValue asg.AutoScalingGroupName)
      instancegroups with ⟨err, h⟩ | h | ⟨ig, h⟩
    · obtain ⟨h1, h2⟩ := discoverLoop_cons_error cluster instancegroups warnUnmatched nodeMap
        asg rest groups err h
      rw [h1, h2]
      exact Or.inl ⟨rfl, _, by rw [matchInstanceGroup_error _ _ _ _ _ h]⟩
    · obtain ⟨h1, h2⟩ := discoverLoop_cons_none cluster instancegroups warnUnmatched nodeMap
        asg rest groups h
      rw [h1, h2]
      exact ih groups
    · obtain ⟨h1, h2⟩ := discoverLoop_cons_some cluster instancegroups warnUnmatched nodeMap
        asg rest groups ig h
      rw [h1, h2]
      exact ih _

theorem GoMap.mem_set {α : Type} (m : GoMap α) (k : String) (v : α) (x : String × α)
    (h : x ∈ GoMap.set m k v) : x = (k, v) ∨ x ∈ m := by
  induction m with
  | nil =>
    simp only [GoMap.set, List.mem_singleton] at h
    exact Or.inl h
  | cons kv rest ih =>
    obtain ⟨k', v'⟩ := kv
    by_cases hk : k' = k
    · simp only [GoMap.set, hk, if_true, List.mem_cons] at h
      rcases h with h | h
      · exact Or.inl h
      · exact Or.inr (List.mem_cons_of_mem _ h)
    · simp only [GoMap.set, hk, if_false, List.mem_cons] at h
      rcases h with h | h
      · exact Or.inr (h ▸ List.mem_cons_self _ _)
      · rcases ih h with h' | h'
        · exact Or.inl h'
        · exact Or.inr (List.mem_cons_of_mem _ h')

theorem discoverLoop_entries (cluster : Cluster) (instancegroups : List InstanceGroup)
    (warnUnmatched : Bool) (nodeMap : GoMap Node) (asgs : List AutoscalingGroup)
    (groups m : GoMap CloudInstanceGroup)
    (h : (discoverLoop cluster instancegroups warnUnmatched nodeMap asgs groups).groups =
      some m) (x : String × CloudInstanceGroup) (hx : x ∈ m) :
    x ∈ groups ∨ ∃ g ∈ instancegroups, ∃ asg ∈ asgs,
      asgNameOf cluster g = some (StringValue asg.AutoScalingGroupName) ∧ x.1 = g.Name ∧
        x.2 = buildCloudInstanceGroup g asg nodeMap := by
  induction asgs generalizing groups with
  | nil =>
    simp only [discoverLoop, Option.some.injEq] at h
    subst h
    exact Or.inl hx
  | cons asg rest ih =>
    rcases matchInstanceGroup_cases cluster (StringValue asg.AutoScalingGroupName)
      instancegroups with ⟨err, hm⟩ | hm | ⟨ig, hm⟩
    · rw [(discoverLoop_cons_error cluster instancegroups warnUnmatched nodeMap asg rest
        groups err hm).1] at h
      cases h
    · rw [(discoverLoop_cons_none cluster instancegroups warnUnmatched nodeMap asg rest
        groups hm).1] at h
      rcases ih groups h with h' | ⟨g, hg, a, ha, rest'⟩
      · exact Or.inl h'
      · exact Or.inr ⟨g, hg, a, List.mem_cons_of_mem _ ha, rest'⟩
    · rw [(discoverLoop_cons_some cluster instancegroups warnUnmatched nodeMap asg rest
        groups ig hm).1] at h
      rcases ih _ h with h' | ⟨g, hg, a, ha, rest'⟩
      · rcases GoMap.mem_set _ _ _ _ h' with h'' | h''
        · obtain ⟨_, hig⟩ := matchInstanceGroup_ok cluster _ instancegroups none (some ig) hm
          rcases hig ig rfl with hc | ⟨higl, hign⟩
          · cases hc
          · exact Or.inr ⟨ig, higl, asg, List.mem_cons_self _ _, hign, by rw [h''], by rw [h'']⟩
        · exact Or.inl h''
      · exact Or.inr ⟨g, hg, a, List.mem_cons_of_mem _ ha, rest'⟩

theorem buildCloudInstanceGroup_fields (ig : InstanceGroup) (g : AutoscalingGroup)
    (nodeMap : GoMap Node) :
    (buildCloudInstanceGroup ig g nodeMap).InstanceGroup = ig ∧
      (buildCloudInstanceGroup ig g nodeMap).ASGName = StringValue g.AutoScalingGroupName ∧
      (buildCloudInstanceGroup ig g nodeMap).asg = g := by
  unfold buildCloudInstanceGroup
  simp only []
  have hfold : ∀ (I : List AutoscalingInstance) (n : CloudInstanceGroup),
      (I.foldl (buildStep (StringValue g.LaunchConfigurationName) nodeMap) n).InstanceGroup =
          n.InstanceGroup ∧
        (I.foldl (buildStep (StringValue g.LaunchConfigurationName) nodeMap) n).ASGName =
          n.ASGName ∧
        (I.foldl (buildStep (StringValue g.LaunchConfigurationName) nodeMap) n).asg = n.asg := by
    intro I
    induction I with
    | nil => intro n; exact ⟨rfl, rfl, rfl⟩
    | cons i I ih =>
      intro n
      rw [List.foldl_cons]
      obtain ⟨h1, h2, h3⟩ := ih (buildStep (StringValue g.LaunchConfigurationName) nodeMap n i)
      rw [h1, h2, h3]
      unfold buildStep
      simp only []
      split <;> exact ⟨rfl, rfl, rfl⟩
  split <;> exact hfold _ _

theorem discoverLoop_warnUnmatched (cluster : Cluster) (instancegroups : List InstanceGroup)
    (w1 w2 : Bool) (nodeMap : GoMap Node) (asgs : List AutoscalingGroup)
    (groups : GoMap CloudInstanceGroup) :
    (discoverLoop cluster instancegroups w1 nodeMap asgs groups).groups =
        (discoverLoop cluster instancegroups w2 nodeMap asgs groups).groups ∧
      (discoverLoop cluster instancegroups w1 nodeMap asgs groups).err =
        (discoverLoop cluster instancegroups w2 nodeMap asgs groups).err := by
  induction asgs generalizing groups with
  | nil => exact ⟨rfl, rfl⟩
  | cons asg rest ih =>
    rcases matchInstanceGroup_cases cluster (StringValue asg.AutoScalingGroupName)
      instancegroups with ⟨err, hm⟩ | hm | ⟨ig, hm⟩
    · rw [(discoverLoop_cons_error cluster instancegroups w1 nodeMap asg rest groups err hm).1,
        (discoverLoop_cons_error cluster instancegroups w1 nodeMap asg rest groups err hm).2,
        (discoverLoop_cons_error cluster instancegroups w2 nodeMap asg rest groups err hm).1,
        (discoverLoop_cons_error cluster instancegroups w2 nodeMap asg rest groups err hm).2]
      exact ⟨rfl, rfl⟩
    · rw [(discoverLoop_cons_none cluster instancegroups w1 nodeMap asg rest groups hm).1,
        (discoverLoop_cons_none cluster instancegroups w1 nodeMap asg rest groups hm).2,
        (discoverLoop_cons_none cluster instancegroups w2 nodeMap asg rest groups hm).1,
        (discoverLoop_cons_none cluster instancegroups w2 nodeMap asg rest groups hm).2]
      exact ih groups
    · rw [(discoverLoop_cons_some cluster instancegroups w1 nodeMap asg rest groups ig hm).1,
        (discoverLoop_cons_some cluster instancegroups w1 nodeMap asg rest groups ig hm).2,
        (discoverLoop_cons_some cluster instancegroups w2 nodeMap asg rest groups ig hm).1,
        (discoverLoop_cons_some cluster instancegroups w2 nodeMap asg rest groups ig hm).2]
      exact ih _

theorem discoverLoop_drop_unmatched (cluster : Cluster) (instancegroups : List InstanceGroup)
    (warnUnmatched : Bool) (nodeMap : GoMap Node) (l1 l2 : List AutoscalingGroup)
    (a : AutoscalingGroup) (groups : GoMap CloudInstanceGroup)
    (hno : ∀ g ∈ instancegroups,
      asgNameOf cluster g ≠ some (StringValue a.AutoScalingGroupName)) :
    (discoverLoop cluster instancegroups warnUnmatched nodeMap (l1 ++ a :: l2) groups).groups =
        (discoverLoop cluster instancegroups warnUnmatched nodeMap (l1 ++ l2) groups).groups ∧
      (discoverLoop cluster instancegroups warnUnmatched nodeMap (l1 ++ a :: l2) groups).err =
        (discoverLoop cluster instancegroups warnUnmatched nodeMap (l1 ++ l2) groups).err := by
  induction l1 generalizing groups with
  | nil =>
    rw [List.nil_append, List.nil_append]
    exact discoverLoop_cons_none cluster instancegroups warnUnmatched nodeMap a l2 groups
      (matchInstanceGroup_nomatch cluster _ instancegroups none hno)
  | cons asg rest ih =>
    rw [List.cons_append, List.cons_append]
    rcases matchInstanceGroup_cases cluster (StringValue asg.AutoScalingGroupName)
      instancegroups with ⟨err, hm⟩ | hm | ⟨ig, hm⟩
    · rw [(discoverLoop_cons_error cluster instancegroups warnUnmatched nodeMap asg _ groups
          err hm).1,
        (discoverLoop_cons_error cluster instancegroups warnUnmatched nodeMap asg _ groups
          err hm).2,
        (discoverLoop_cons_error cluster instancegroups warnUnmatched nodeMap asg _ groups
          err hm).1,
        (discoverLoop_cons_error cluster instancegroups warnUnmatched nodeMap asg _ groups
          err hm).2]
      exact ⟨rfl, rfl⟩
    · rw [(discoverLoop_cons_none cluster instancegroups warnUnmatched nodeMap asg _ groups
          hm).1,
        (discoverLoop_cons_none cluster instancegroups warnUnmatched nodeMap asg _ groups hm).2,
        (discoverLoop_cons_none cluster instancegroups warnUnmatched nodeMap asg _ groups hm).1,
        (discoverLoop_cons_none cluster instancegroups warnUnmatched nodeMap asg _ groups hm).2]
      exact ih groups
    · rw [(discoverLoop_cons_some cluster instancegroups warnUnmatched nodeMap asg _ groups
          ig hm).1,
        (discoverLoop_cons_some cluster instancegroups warnUnmatched nodeMap asg _ groups
          ig hm).2,
        (discoverLoop_cons_some cluster instancegroups warnUnmatched nodeMap asg _ groups
          ig hm).1,
        (discoverLoop_cons_some cluster instancegroups warnUnmatched nodeMap asg _ groups
          ig hm).2]
      exact ih _

theorem discoverLoop_ambiguous (cluster : Cluster) (l1 l2 l3 : List InstanceGroup)
    (g1 g2 : InstanceGroup) (warnUnmatched : Bool) (nodeMap : GoMap Node)
    (asgs : List AutoscalingGroup) (groups : GoMap CloudInstanceGroup) (asg : AutoscalingGroup)
    (hasg : asg ∈ asgs)
    (h1 : asgNameOf cluster g1 = some (StringValue asg.AutoScalingGroupName))
    (h2 : asgNameOf cluster g2 = some (StringValue asg.AutoScalingGroupName)) :
    (discoverLoop cluster (l1 ++ g1 :: (l2 ++ g2 :: l3)) warnUnmatched nodeMap asgs
        groups).groups = none ∧
      ∃ name, (discoverLoop cluster (l1 ++ g1 :: (l2 ++ g2 :: l3)) warnUnmatched nodeMap asgs
        groups).err = some (Err.multipleInstanceGroups name) := by
  rcases discoverLoop_shape cluster (l1 ++ g1 :: (l2 ++ g2 :: l3)) warnUnmatched nodeMap asgs
    groups with h | ⟨herr0, m, hm⟩
  · exact h
  · exfalso
    clear herr0
    induction asgs generalizing groups m with
    | nil => simp at hasg
    | cons a rest ih =>
      rcases matchInstanceGroup_cases cluster (StringValue a.AutoScalingGroupName)
        (l1 ++ g1 :: (l2 ++ g2 :: l3)) with ⟨err, hma⟩ | hma | ⟨ig, hma⟩
      · rw [(discoverLoop_cons_error cluster _ warnUnmatched nodeMap a rest groups err hma).1]
          at hm
        cases hm
      · simp only [List.mem_cons] at hasg
        rcases hasg with rfl | hasg
        · obtain ⟨err, herr⟩ := matchInstanceGroup_twice cluster
            (StringValue asg.AutoScalingGroupName) l1 (l2 ++ g2 :: l3) g1 none h1
            ⟨g2, by simp, h2⟩
          rw [herr] at hma
          cases hma
        · rw [(discoverLoop_cons_none cluster _ warnUnmatched nodeMap a rest groups hma).1]
            at hm
          exact ih groups hasg m hm
      · simp only [List.mem_cons] at hasg
        rcases hasg with rfl | hasg
        · obtain ⟨err, herr⟩ := matchInstanceGroup_twice cluster
            (StringValue asg.AutoScalingGroupName) l1 (l2 ++ g2 :: l3) g1 none h1
            ⟨g2, by simp, h2⟩
          rw [herr] at hma
          cases hma
        · rw [(discoverLoop_cons_some cluster _ warnUnmatched nodeMap a rest groups ig hma).1]
            at hm
          exact ih _ hasg m hm

theorem discoverLoop_skip_group (cluster : Cluster) (l1 l2 : List InstanceGroup)
    (g : InstanceGroup) (warnUnmatched : Bool) (nodeMap : GoMap Node)
    (asgs : List AutoscalingGroup) (groups : GoMap CloudInstanceGroup)
    (hg : asgNameOf cluster g = none) :
    (discoverLoop cluster (l1 ++ g :: l2) warnUnmatched nodeMap asgs groups).groups =
        (discoverLoop cluster (l1 ++ l2) warnUnmatched nodeMap asgs groups).groups ∧
      (discoverLoop cluster (l1 ++ g :: l2) warnUnmatched nodeMap asgs groups).err =
        (discoverLoop cluster (l1 ++ l2) warnUnmatched nodeMap asgs groups).err := by
  induction asgs generalizing groups with
  | nil => exact ⟨rfl, rfl⟩
  | cons asg rest ih =>
    have hskip := matchInstanceGroup_skip cluster (StringValue asg.AutoScalingGroupName) l1 l2 g
      none (by rw [hg]; simp)
    rcases matchInstanceGroup_cases cluster (StringValue asg.AutoScalingGroupName)
      (l1 ++ l2) with ⟨err, hm⟩ | hm | ⟨ig, hm⟩
    · have hm' := hskip.trans hm
      rw [(discoverLoop_cons_error cluster _ warnUnmatched nodeMap asg rest groups err hm).1,
        (discoverLoop_cons_error cluster _ warnUnmatched nodeMap asg rest groups err hm).2,
        (discoverLoop_cons_error cluster _ warnUnmatched nodeMap asg rest groups err hm').1,
        (discoverLoop_cons_error cluster _ warnUnmatched nodeMap asg rest groups err hm').2]
      exact ⟨rfl, rfl⟩
    · have hm' := hskip.trans hm
      rw [(discoverLoop_cons_none cluster _ warnUnmatched nodeMap asg rest groups hm).1,
        (discoverLoop_cons_none cluster _ warnUnmatched nodeMap asg rest groups hm).2,
        (discoverLoop_cons_none cluster _ warnUnmatched nodeMap asg rest groups hm').1,
        (discoverLoop_cons_none cluster _ warnUnmatched nodeMap asg rest groups hm').2]
      exact ih groups
    · have hm' := hskip.trans hm
      rw [(discoverLoop_cons_some cluster _ warnUnmatched nodeMap asg rest groups ig hm).1,
        (discoverLoop_cons_some cluster _ warnUnmatched nodeMap asg rest groups ig hm).2,
        (discoverLoop_cons_some cluster _ warnUnmatched nodeMap asg rest groups ig hm').1,
        (discoverLoop_cons_some cluster _ warnUnmatched nodeMap asg rest groups ig hm').2]
      exact ih _

/-- C13: when two declared instance groups (two places of the list) synthesize
the name of a live autoscaling group, `FindCloudInstanceGroups` returns the nil
map and a non-nil error, the "Found multiple instance groups matching ASG"
error. -/
theorem FindCloudInstanceGroups_ambiguous (asgs : List AutoscalingGroup) (cluster : Cluster)
    (l1 l2 l3 : List InstanceGroup) (g1 g2 : InstanceGroup) (warnUnmatched : Bool)
    (nodes : List Node) (asg : AutoscalingGroup) (hasg : asg ∈ asgs)
    (h1 : asgNameOf cluster g1 = some (StringValue asg.AutoScalingGroupName))
    (h2 : asgNameOf cluster g2 = some (StringValue asg.AutoScalingGroupName)) :
    (FindCloudInstanceGroups (Except.ok asgs) cluster (l1 ++ g1 :: (l2 ++ g2 :: l3))
        warnUnmatched nodes).groups = none ∧
      (FindCloudInstanceGroups (Except.ok asgs) cluster (l1 ++ g1 :: (l2 ++ g2 :: l3))
        warnUnmatched nodes).err ≠ none ∧
      ∃ name, (FindCloudInstanceGroups (Except.ok asgs) cluster (l1 ++ g1 :: (l2 ++ g2 :: l3))
        warnUnmatched nodes).err = some (Err.multipleInstanceGroups name) := by
  obtain ⟨hg, name, he⟩ := discoverLoop_ambiguous cluster l1 l2 l3 g1 g2 warnUnmatched
    (buildNodeMap nodes) asgs [] asg hasg h1 h2
  simp only [FindCloudInstanceGroups]
  exact ⟨hg, by rw [he]; simp, name, he⟩

/-- C14: the map and the error returned by `FindCloudInstanceGroups` do not
depend on `warnUnmatched`; and a live autoscaling group whose name no declared
group synthesizes changes neither of them: they are those returned for the
listing without it (so it adds no entry and causes no error). -/
theorem FindCloudInstanceGroups_unmatched (cluster : Cluster)
    (instancegroups : List InstanceGroup) (nodes : List Node) :
    (∀ found,
        (FindCloudInstanceGroups found cluster instancegroups true nodes).groups =
            (FindCloudInstanceGroups found cluster instancegroups false nodes).groups ∧
          (FindCloudInstanceGroups found cluster instancegroups true nodes).err =
            (FindCloudInstanceGroups found cluster instancegroups false nodes).err) ∧
      ∀ (l1 l2 : List AutoscalingGroup) (a : AutoscalingGroup) (warnUnmatched : Bool),
        (∀ g ∈ instancegroups,
          asgNameOf cluster g ≠ some (StringValue a.AutoScalingGroupName)) →
        (FindCloudInstanceGroups (Except.ok (l1 ++ a :: l2)) cluster instancegroups
              warnUnmatched nodes).groups =
            (FindCloudInstanceGroups (Except.ok (l1 ++ l2)) cluster instancegroups
              warnUnmatched nodes).groups ∧
          (FindCloudInstanceGroups (Except.ok (l1 ++ a :: l2)) cluster instancegroups
              warnUnmatched nodes).err =
            (FindCloudInstanceGroups (Except.ok (l1 ++ l2)) cluster instancegroups
              warnUnmatched nodes).err := by
  refine ⟨?_, ?_⟩
  · intro found
    cases found with
    | error err => exact ⟨rfl, rfl⟩
    | ok asgs =>
      simp only [FindCloudInstanceGroups]
      exact discoverLoop_warnUnmatched cluster instancegroups true false _ asgs []
  · intro l1 l2 a warnUnmatched hno
    simp only [FindCloudInstanceGroups]
    exact discoverLoop_drop_unmatched cluster instancegroups warnUnmatched _ l1 l2 a [] hno

/-- C18 (counterexample): a declared group of role "Bastion" and a live
autoscaling group: `FindCloudInstanceGroups` returns an empty map and a nil
error, having logged that it ignores the group. -/
theorem FindCloudInstanceGroups_unknown_role_no_error :
    FindCloudInstanceGroups (Except.ok [exampleAsg "bastions.c.example.com" []])
        exampleClusterSpec [{ Name := "bastions", Spec := { Role := "Bastion" } }] true [] =
      { groups := some [], err := none,
        warnings := [Warning.unknownRole "Bastion",
          Warning.unmatchedASG "bastions.c.example.com"] } := by
  decide

/-- C18 (amended): a declared instance group whose role is neither Master nor
Node never makes `FindCloudInstanceGroups` fail: it is ignored, the map and the
error returned are those returned for the declared groups without it. -/
theorem FindCloudInstanceGroups_unknown_role_ignored
    (found : Except Err (List AutoscalingGroup)) (cluster : Cluster)
    (l1 l2 : List InstanceGroup) (g : InstanceGroup) (warnUnmatched : Bool)
    (nodes : List Node)
    (hmaster : g.Spec.Role ≠ InstanceGroupRoleMaster)
    (hnode : g.Spec.Role ≠ InstanceGroupRoleNode) :
    (FindCloudInstanceGroups found cluster (l1 ++ g :: l2) warnUnmatched nodes).groups =
        (FindCloudInstanceGroups found cluster (l1 ++ l2) warnUnmatched nodes).groups ∧
      (FindCloudInstanceGroups found cluster (l1 ++ g :: l2) warnUnmatched nodes).err =
        (FindCloudInstanceGroups found cluster (l1 ++ l2) warnUnmatched nodes).err := by
  cases found with
  | error err => exact ⟨rfl, rfl⟩
  | ok asgs =>
    simp only [FindCloudInstanceGroups]
    exact discoverLoop_skip_group cluster l1 l2 g warnUnmatched _ asgs []
      (by simp [asgNameOf, hmaster, hnode])

theorem foldl_nodeMap_get (nodes : List Node) (m : GoMap Node) (id : String) :
    GoMap.get (nodes.foldl (fun nodeMap node => GoMap.set nodeMap node.Spec.ExternalID node) m)
        id =
      (nodes.reverse.find? fun node => decide (node.Spec.ExternalID = id)).or
        (GoMap.get m id) := by
  induction nodes generalizing m with
  | nil => simp
  | cons n rest ih =>
    rw [List.foldl_cons, ih, List.reverse_cons, List.find?_append]
    cases hfind : List.find? (fun node => decide (node.Spec.ExternalID = id)) rest.reverse with
    | some x => simp
    | none =>
      by_cases hn : n.Spec.ExternalID = id
      · subst hn
        simp [GoMap.get_set_eq, List.find?_cons]
      · simp [GoMap.get_set_ne _ _ _ _ (Ne.symm hn), List.find?_cons, hn]

theorem buildNodeMap_get (nodes : List Node) (id : String) :
    GoMap.get (buildNodeMap nodes) id =
      nodes.reverse.find? fun node => decide (node.Spec.ExternalID = id) := by
  unfold buildNodeMap
  rw [foldl_nodeMap_get]
  simp [GoMap.get]

theorem buildCloudInstanceGroup_Status_eq (ig : InstanceGroup) (g : AutoscalingGroup)
    (nodeMap : GoMap Node) :
    (buildCloudInstanceGroup ig g nodeMap).Status =
      if (g.Instances.filter fun i => !decide
          (StringValue g.LaunchConfigurationName = StringValue i.LaunchConfigurationName)).length
          = 0 then "Ready" else "NeedsUpdate" := by
  have hN := buildCloudInstanceGroup_NeedUpdate ig g nodeMap
  have hlen := congrArg List.length hN
  rw [List.length_map] at hlen
  rw [← hlen]
  unfold buildCloudInstanceGroup
  simp only []
  split
  · rename_i h
    simp [h]
  · rename_i h
    simp [h]

theorem buildCloudInstanceGroup_withoutNodes (ig : InstanceGroup) (g : AutoscalingGroup)
    (nm1 nm2 : GoMap Node) :
    (buildCloudInstanceGroup ig g nm1).withoutNodes =
      (buildCloudInstanceGroup ig g nm2).withoutNodes := by
  obtain ⟨a1, a2, a3⟩ := buildCloudInstanceGroup_fields ig g nm1
  obtain ⟨b1, b2, b3⟩ := buildCloudInstanceGroup_fields ig g nm2
  have s1 := buildCloudInstanceGroup_Status_eq ig g nm1
  have s2 := buildCloudInstanceGroup_Status_eq ig g nm2
  have r1 := buildCloudInstanceGroup_Ready ig g nm1
  have r2 := buildCloudInstanceGroup_Ready ig g nm2
  have n1 := buildCloudInstanceGroup_NeedUpdate ig g nm1
  have n2 := buildCloudInstanceGroup_NeedUpdate ig g nm2
  cases hx : buildCloudInstanceGroup ig g nm1
  cases hy : buildCloudInstanceGroup ig g nm2
  rw [hx] at a1 a2 a3 s1 r1 n1
  rw [hy] at b1 b2 b3 s2 r2 n2
  simp only at a1 a2 a3 s1 r1 n1 b1 b2 b3 s2 r2 n2
  simp only [CloudInstanceGroup.withoutNodes, CloudInstanceGroup.mk.injEq]
  refine ⟨by rw [a1, b1], by rw [a2, b2], by rw [s1, s2], ?_, ?_, by rw [a3, b3]⟩
  · rw [r1, r2]
    simp [CloudInstanceGroupInstance.withoutNode]
  · rw [n1, n2]
    simp [CloudInstanceGroupInstance.withoutNode]

theorem withoutNodes_set (m : GoMap CloudInstanceGroup) (k : String) (v : CloudInstanceGroup) :
    withoutNodes (GoMap.set m k v) = GoMap.set (withoutNodes m) k v.withoutNodes := by
  induction m with
  | nil => rfl
  | cons kv rest ih =>
    obtain ⟨k', v'⟩ := kv
    by_cases hk : k' = k
    · simp [GoMap.set, withoutNodes, hk]
    · simp only [withoutNodes] at ih
      simp [GoMap.set, withoutNodes, hk, ih]

theorem discoverLoop_nodes (cluster : Cluster) (instancegroups : List InstanceGroup)
    (warnUnmatched : Bool) (nm1 nm2 : GoMap Node) (asgs : List AutoscalingGroup)
    (groups1 groups2 : GoMap CloudInstanceGroup)
    (h : withoutNodes groups1 = withoutNodes groups2) :
    (discoverLoop cluster instancegroups warnUnmatched nm1 asgs groups1).err =
        (discoverLoop cluster instancegroups warnUnmatched nm2 asgs groups2).err ∧
      (discoverLoop cluster instancegroups warnUnmatched nm1 asgs groups1).groups.map
          withoutNodes =
        (discoverLoop cluster instancegroups warnUnmatched nm2 asgs groups2).groups.map
          withoutNodes := by
  induction asgs generalizing groups1 groups2 with
  | nil => simp [discoverLoop, h]
  | cons asg rest ih =>
    rcases matchInstanceGroup_cases cluster (StringValue asg.AutoScalingGroupName)
      instancegroups with ⟨err, hm⟩ | hm | ⟨ig, hm⟩
    · rw [(discoverLoop_cons_error cluster instancegroups warnUnmatched nm1 asg rest groups1
          err hm).1,
        (discoverLoop_cons_error cluster instancegroups warnUnmatched nm1 asg rest groups1
          err hm).2,
        (discoverLoop_cons_error cluster instancegroups warnUnmatched nm2 asg rest groups2
          err hm).1,
        (discoverLoop_cons_error cluster instancegroups warnUnmatched nm2 asg rest groups2
          err hm).2]
      exact ⟨rfl, rfl⟩
    · rw [(discoverLoop_cons_none cluster instancegroups warnUnmatched nm1 asg rest groups1
          hm).1,
        (discoverLoop_cons_none cluster instancegroups warnUnmatched nm1 asg rest groups1 hm).2,
        (discoverLoop_cons_none cluster instancegroups warnUnmatched nm2 asg rest groups2 hm).1,
        (discoverLoop_cons_none cluster instancegroups warnUnmatched nm2 asg rest groups2 hm).2]
      exact ih groups1 groups2 h
    · rw [(discoverLoop_cons_some cluster instancegroups warnUnmatched nm1 asg rest groups1
          ig hm).1,
        (discoverLoop_cons_some cluster instancegroups warnUnmatched nm1 asg rest groups1
          ig hm).2,
        (discoverLoop_cons_some cluster instancegroups warnUnmatched nm2 asg rest groups2
          ig hm).1,
        (discoverLoop_cons_some cluster instancegroups warnUnmatched nm2 asg rest groups2
          ig hm).2]
      apply ih
      rw [withoutNodes_set, withoutNodes_set, h, buildCloudInstanceGroup_withoutNodes ig asg nm1 nm2]

theorem buildCloudInstanceGroup_Node (ig : InstanceGroup) (g : AutoscalingGroup)
    (nodeMap : GoMap Node) (c : CloudInstanceGroupInstance)
    (hc : c ∈ (buildCloudInstanceGroup ig g nodeMap).Ready ++
      (buildCloudInstanceGroup ig g nodeMap).NeedUpdate) :
    c.Node = GoMap.get nodeMap (StringValue c.ASGInstance.InstanceId) := by
  rw [buildCloudInstanceGroup_Ready, buildCloudInstanceGroup_NeedUpdate] at hc
  simp only [List.mem_append, List.mem_map] at hc
  rcases hc with ⟨i, _, rfl⟩ | ⟨i, _, rfl⟩ <;> rfl

/-- C15: in every group of the map returned by `FindCloudInstanceGroups`, the
`Node` of an instance is the last node of the supplied list whose
`Spec.ExternalID` equals the instance id (read with `aws.StringValue`): a node
of the list with that id when there is one, nil when there is none; and the
returned error and the map, the `Node` links apart (so the `Ready` and
`NeedUpdate` lists of instances), are the same for every list of nodes. -/
theorem FindCloudInstanceGroups_links_nodes (found : Except Err (List AutoscalingGroup))
    (cluster : Cluster) (instancegroups : List InstanceGroup) (warnUnmatched : Bool)
    (nodes : List Node) :
    (∀ m, (FindCloudInstanceGroups found cluster instancegroups warnUnmatched nodes).groups =
        some m →
      ∀ x ∈ m, ∀ c ∈ x.2.Ready ++ x.2.NeedUpdate,
        c.Node = nodes.reverse.find?
          (fun node => decide (node.Spec.ExternalID = StringValue c.ASGInstance.InstanceId)) ∧
        (∀ node, c.Node = some node →
          node ∈ nodes ∧ node.Spec.ExternalID = StringValue c.ASGInstance.InstanceId) ∧
        (c.Node = none ↔
          ∀ node ∈ nodes, node.Spec.ExternalID ≠ StringValue c.ASGInstance.InstanceId)) ∧
      ∀ nodes',
        (FindCloudInstanceGroups found cluster instancegroups warnUnmatched nodes').err =
            (FindCloudInstanceGroups found cluster instancegroups warnUnmatched nodes).err ∧
          (FindCloudInstanceGroups found cluster instancegroups warnUnmatched nodes').groups.map
              withoutNodes =
            (FindCloudInstanceGroups found cluster instancegroups warnUnmatched nodes).groups.map
              withoutNodes := by
  refine ⟨?_, ?_⟩
  · intro m hok x hx c hc
    cases found with
    | error err => simp [FindCloudInstanceGroups] at hok
    | ok asgs =>
      simp only [FindCloudInstanceGroups] at hok
      rcases discoverLoop_entries cluster instancegroups warnUnmatched _ asgs [] m hok x hx
        with h | ⟨g, _, asg, _, _, _, hx2⟩
      · simp at h
      · rw [hx2] at hc
        have hnode := buildCloudInstanceGroup_Node g asg _ c hc
        rw [buildNodeMap_get] at hnode
        refine ⟨hnode, ?_, ?_⟩
        · intro node hn
          rw [hnode] at hn
          have h1 := List.mem_of_find?_eq_some hn
          have h2 := List.find?_some hn
          exact ⟨List.mem_reverse.mp h1, by simpa using h2⟩
        · rw [hnode, List.find?_eq_none]
          simp
  · intro nodes'
    cases found with
    | error err => exact ⟨rfl, rfl⟩
    | ok asgs =>
      simp only [FindCloudInstanceGroups]
      exact discoverLoop_nodes cluster instancegroups warnUnmatched _ _ asgs [] [] rfl

theorem FindCloudInstanceGroups_ambiguous_witness :
    (FindCloudInstanceGroups (Except.ok [exampleAsg "a.masters.example.com" []])
        { Name := "example.com" }
        ([] ++ { Name := "a.masters", Spec := { Role := InstanceGroupRoleNode } } ::
          ([] ++ { Name := "a", Spec := { Role := InstanceGroupRoleMaster } } :: []))
        true []).groups = none ∧
      (FindCloudInstanceGroups (Except.ok [exampleAsg "a.masters.example.com" []])
        { Name := "example.com" }
        ([] ++ { Name := "a.masters", Spec := { Role := InstanceGroupRoleNode } } ::
          ([] ++ { Name := "a", Spec := { Role := InstanceGroupRoleMaster } } :: []))
        true []).err ≠ none :=
  ⟨(FindCloudInstanceGroups_ambiguous [exampleAsg "a.masters.example.com" []]
      { Name := "example.com" } [] [] []
      { Name := "a.masters", Spec := { Role := InstanceGroupRoleNode } }
      { Name := "a", Spec := { Role := InstanceGroupRoleMaster } } true []
      (exampleAsg "a.masters.example.com" []) (by decide) (by decide) (by decide)).1,
   (FindCloudInstanceGroups_ambiguous [exampleAsg "a.masters.example.com" []]
      { Name := "example.com" } [] [] []
      { Name := "a.masters", Spec := { Role := InstanceGroupRoleNode } }
      { Name := "a", Spec := { Role := InstanceGroupRoleMaster } } true []
      (exampleAsg "a.masters.example.com" []) (by decide) (by decide) (by decide)).2.1⟩

theorem FindCloudInstanceGroups_unmatched_witness :
    (∀ g ∈ exampleInstanceGroups, asgNameOf exampleClusterSpec g ≠
        some (StringValue (exampleAsg "other.c.example.com"
          [{ InstanceId := some "i-o1",
             LaunchConfigurationName := some "lc-2" }]).AutoScalingGroupName)) ∧
      (FindCloudInstanceGroups (Except.ok
          ([exampleAsg "master-a.masters.c.example.com"
              [{ InstanceId := some "i-m1", LaunchConfigurationName := some "lc-1" }]] ++
            exampleAsg "other.c.example.com"
              [{ InstanceId := some "i-o1", LaunchConfigurationName := some "lc-2" }] :: []))
          exampleClusterSpec exampleInstanceGroups true exampleNodes).groups =
        (FindCloudInstanceGroups (Except.ok
          ([exampleAsg "master-a.masters.c.example.com"
              [{ InstanceId := some "i-m1", LaunchConfigurationName := some "lc-1" }]] ++ []))
          exampleClusterSpec exampleInstanceGroups true exampleNodes).groups :=
  ⟨by decide,
    ((FindCloudInstanceGroups_unmatched exampleClusterSpec exampleInstanceGroups
      exampleNodes).2 _ [] _ true (by decide)).1⟩

theorem FindCloudInstanceGroups_links_nodes_witness :
    ({ ASGInstance := { InstanceId := some "i-n2", LaunchConfigurationName := some "lc-1" },
       Node := none } : CloudInstanceGroupInstance).Node = none ↔
      ∀ node ∈ exampleNodes, node.Spec.ExternalID ≠ StringValue (some "i-n2") :=
  ((FindCloudInstanceGroups_links_nodes (Except.ok exampleAsgs) exampleClusterSpec
      exampleInstanceGroups true exampleNodes).1
    ((FindCloudInstanceGroups (Except.ok exampleAsgs) exampleClusterSpec
      exampleInstanceGroups true exampleNodes).groups.getD []) (by decide)
    ("nodes", buildCloudInstanceGroup { Name := "nodes", Spec := { Role := InstanceGroupRoleNode } }
      (exampleAsg "nodes.c.example.com"
        [{ InstanceId := some "i-n1", LaunchConfigurationName := some "lc-2" },
         { InstanceId := some "i-n2", LaunchConfigurationName := some "lc-1" }])
      (buildNodeMap exampleNodes)) (by decide)
    { ASGInstance := { InstanceId := some "i-n2", LaunchConfigurationName := some "lc-1" },
      Node := none } (by decide)).2.2

theorem FindCloudInstanceGroups_unknown_role_ignored_witness :
    (FindCloudInstanceGroups (Except.ok exampleAsgs) exampleClusterSpec
        ([{ Name := "master-a", Spec := { Role := InstanceGroupRoleMaster } },
          { Name := "nodes", Spec := { Role := InstanceGroupRoleNode } }] ++
          { Name := "bastions", Spec := { Role := "Bastion" } } :: [])
        true exampleNodes).err =
      (FindCloudInstanceGroups (Except.ok exampleAsgs) exampleClusterSpec
        ([{ Name := "master-a", Spec := { Role := InstanceGroupRoleMaster } },
          { Name := "nodes", Spec := { Role := InstanceGroupRoleNode } }] ++ [])
        true exampleNodes).err :=
  (FindCloudInstanceGroups_unknown_role_ignored (Except.ok exampleAsgs) exampleClusterSpec
    [{ Name := "master-a", Spec := { Role := InstanceGroupRoleMaster } },
     { Name := "nodes", Spec := { Role := InstanceGroupRoleNode } }] []
    { Name := "bastions", Spec := { Role := "Bastion" } } true exampleNodes
    (by decide) (by decide)).2

theorem panics_eq (p : Prog) (h : p.panics = true) : p = Prog.done Result.panicked := by
  cases p with
  | done r =>
    cases r with
    | panicked => rfl
    | returned err => simp [Prog.panics] at h
  | cordon nodeName k => simp [Prog.panics] at h
  | terminate instanceId k => simp [Prog.panics] at h
  | sleep interval k => simp [Prog.panics] at h
  | validate clusterName k => simp [Prog.panics] at h

theorem after_nil (p : Prog) : p.after [] = some p := by
  cases p <;> simp [Prog.after]

/-- Whatever happens, the calls made for a group of the pool are calls of its
goroutine, in order; and when the phase ended on a panic, a goroutine of the pool
is at a panic. -/
theorem runSerial_paths {σ : Type} (env : Env σ) (pool : List (String × Prog))
    (results : GoMap (Option Err)) (s : σ) (hnd : (pool.map Prod.fst).Nodup) :
    (∀ kp ∈ pool, ∃ q, kp.2.after (callsOf kp.1 (runSerial env pool results s).trace) = some q) ∧
      ((runSerial env pool results s).crashed = true → ∃ kp ∈ pool,
        kp.2.after (callsOf kp.1 (runSerial env pool results s).trace) =
          some (Prog.done Result.panicked)) := by
  induction pool generalizing results s with
  | nil => simp [runSerial]
  | cons kp rest ih =>
    obtain ⟨k, p⟩ := kp
    simp only [List.map_cons, List.nodup_cons] at hnd
    have hne : ∀ kp ∈ rest, kp.1 ≠ k :=
      fun kp hkp hk => hnd.1 (hk ▸ List.mem_map_of_mem Prod.fst hkp)
    have hblock : ∀ (t : List Event), ∀ kp ∈ rest, callsOf kp.1 (t.map (Prod.mk k)) = [] := by
      intro t kp hkp
      apply callsOf_eq_nil
      intro x hx
      simp only [List.mem_map] at hx
      obtain ⟨e, _, rfl⟩ := hx
      exact Ne.symm (hne kp hkp)
    rw [runSerial]
    cases hres : (p.run env s).result with
    | panicked =>
      simp only
      have hself : p.after (callsOf k ((p.run env s).trace.map (Prod.mk k))) =
          some (Prog.done Result.panicked) := by
        rw [callsOf_tagged_self, run_after, hres]
      refine ⟨?_, fun _ => ⟨(k, p), List.mem_cons_self _ _, hself⟩⟩
      intro kp hkp
      simp only [List.mem_cons] at hkp
      rcases hkp with rfl | hkp
      · exact ⟨_, hself⟩
      · rw [hblock _ kp hkp]
        exact ⟨_, after_nil _⟩
    | returned err =>
      simp only [PoolRun.prepend]
      obtain ⟨h1, h2⟩ := ih (GoMap.set results k err) (p.run env s).world hnd.2
      have hspec := runSerial_spec env rest (GoMap.set results k err) (p.run env s).world hnd.2
      have hrest : ∀ x ∈ (runSerial env rest (GoMap.set results k err) (p.run env s).world).trace,
          x.1 ≠ k := fun x hx hk => hnd.1 (hk ▸ hspec.1 x hx)
      refine ⟨?_, ?_⟩
      · intro kp hkp
        simp only [List.mem_cons] at hkp
        rcases hkp with rfl | hkp
        · refine ⟨Prog.done (Result.returned err), ?_⟩
          rw [callsOf_append, callsOf_tagged_self, callsOf_eq_nil k _ hrest, List.append_nil,
            run_after, hres]
        · rw [callsOf_append, hblock _ kp hkp, List.nil_append]
          exact h1 kp hkp
      · intro hc
        obtain ⟨kp, hkp, hq⟩ := h2 hc
        refine ⟨kp, List.mem_cons_of_mem _ hkp, ?_⟩
        rw [callsOf_append, hblock _ kp hkp, List.nil_append]
        exact hq

theorem runPool_paths {σ : Type} (env : Env σ) (schedule : List Nat)
    (pool : List (String × Prog)) (results : GoMap (Option Err)) (s : σ)
    (hnd : (pool.map Prod.fst).Nodup) :
    (∀ kp ∈ pool, ∃ q,
        kp.2.after (callsOf kp.1 (runPool env schedule pool results s).trace) = some q) ∧
      ((runPool env schedule pool results s).crashed = true → ∃ kp ∈ pool,
        kp.2.after (callsOf kp.1 (runPool env schedule pool results s).trace) =
          some (Prog.done Result.panicked)) := by
  induction schedule generalizing pool s with
  | nil => exact runSerial_paths env pool results s hnd
  | cons i schedule ih =>
    rw [runPool]
    cases hget : pool.get? i with
    | none => exact ih pool s hnd
    | some kp =>
      obtain ⟨k, p⟩ := kp
      simp only
      obtain ⟨hkeys0, _, hmem0, _⟩ := pool_set_facts pool i k p p hget
      split
      · rename_i hpanic
        refine ⟨fun kp _ => ⟨kp.2, after_nil _⟩, fun _ => ⟨(k, p), hmem0, ?_⟩⟩
        rw [panics_eq p hpanic]
        exact after_nil _
      · cases hstep : p.step env s with
        | none => exact ih pool s hnd
        | some x =>
          obtain ⟨e, p', s'⟩ := x
          simp only
          obtain ⟨hkeys, hmem', hmem, hothers⟩ := pool_set_facts pool i k p p' hget
          have hnd' : ((pool.set i (k, p')).map Prod.fst).Nodup := by rw [hkeys]; exact hnd
          obtain ⟨h1, h2⟩ := ih (pool.set i (k, p')) s' hnd'
          refine ⟨?_, ?_⟩
          · intro kp hkp
            simp only [PoolRun.prepend, List.singleton_append]
            by_cases hk : kp.1 = k
            · have hp : kp.2 = p := by
                obtain ⟨k2, p2⟩ := kp
                simp only at hk
                subst hk
                exact nodup_keys_unique pool hnd k2 p2 p hkp hmem
              obtain ⟨q, hq⟩ := h1 (k, p') hmem'
              rw [hk, hp, callsOf_cons_self, step_after env p p' s s' e _ hstep]
              exact ⟨q, hq⟩
            · obtain ⟨q, hq⟩ := h1 kp (hothers kp hkp hk)
              rw [callsOf_cons_ne _ _ _ _ (Ne.symm hk)]
              exact ⟨q, hq⟩
          · intro hc
            simp only [PoolRun.prepend] at hc
            obtain ⟨kp, hkp, hq⟩ := h2 hc
            simp only [PoolRun.prepend, List.singleton_append]
            by_cases hk : kp.1 = k
            · have hp : kp.2 = p' := by
                obtain ⟨k2, p2⟩ := kp
                simp only at hk
                subst hk
                exact nodup_keys_unique _ hnd' k2 p2 p' hkp hmem'
              refine ⟨(k, p), hmem, ?_⟩
              rw [callsOf_cons_self, step_after env p p' s s' e _ hstep]
              rw [hk, hp] at hq
              exact hq
            · refine ⟨kp, ?_, ?_⟩
              · rcases List.mem_or_eq_of_mem_set hkp with h | h
                · exact h
                · exact absurd (by rw [h]) hk
              · rw [callsOf_cons_ne _ _ _ _ (Ne.symm hk)]
                exact hq

theorem GoMap.set_keys {α : Type} (m : GoMap α) (k : String) (v : α) (x : String) :
    x ∈ (GoMap.set m k v).map Prod.fst ↔ x = k ∨ x ∈ m.map Prod.fst := by
  induction m with
  | nil => simp [GoMap.set]
  | cons kv rest ih =>
    obtain ⟨k', v'⟩ := kv
    by_cases hk : k' = k
    · subst hk
      simp [GoMap.set]
    · simp only [GoMap.set, hk, if_false, List.map_cons, List.mem_cons, ih]
      constructor
      · rintro (h | h | h)
        · exact Or.inr (Or.inl h)
        · exact Or.inl h
        · exact Or.inr (Or.inr h)
      · rintro (h | h | h)
        · exact Or.inr (Or.inl h)
        · exact Or.inl h
        · exact Or.inr (Or.inr h)

theorem GoMap.set_nodup {α : Type} (m : GoMap α) (k : String) (v : α)
    (h : (m.map Prod.fst).Nodup) : ((GoMap.set m k v).map Prod.fst).Nodup := by
  induction m with
  | nil => simp [GoMap.set]
  | cons kv rest ih =>
    obtain ⟨k', v'⟩ := kv
    simp only [List.map_cons, List.nodup_cons] at h
    by_cases hk : k' = k
    · subst hk
      simp only [GoMap.set, if_true, List.map_cons, List.nodup_cons]
      exact h
    · simp only [GoMap.set, hk, if_false, List.map_cons, List.nodup_cons]
      refine ⟨?_, ih h.2⟩
      intro hmem
      rcases (GoMap.set_keys rest k v k').mp hmem with h' | h'
      · exact hk h'
      · exact h.1 h'

theorem GoMap.get_of_mem {α : Type} (m : GoMap α) (k : String) (v : α)
    (hnd : (m.map Prod.fst).Nodup) (h : (k, v) ∈ m) : GoMap.get m k = some v := by
  induction m with
  | nil => simp at h
  | cons kv rest ih =>
    obtain ⟨k', v'⟩ := kv
    simp only [List.map_cons, List.nodup_cons] at hnd
    simp only [List.mem_cons, Prod.mk.injEq] at h
    rcases h with ⟨rfl, rfl⟩ | h
    · simp [GoMap.get]
    · have hne : k' ≠ k := fun hk => hnd.1 (hk ▸ List.mem_map_of_mem Prod.fst h)
      simp [GoMap.get, hne, ih hnd.2 h]

theorem GoMap.mem_of_get {α : Type} (m : GoMap α) (k : String) (v : α)
    (h : GoMap.get m k = some v) : (k, v) ∈ m := by
  induction m with
  | nil => simp [GoMap.get] at h
  | cons kv rest ih =>
    obtain ⟨k', v'⟩ := kv
    by_cases hk : k' = k
    · simp only [GoMap.get, hk, if_true, Option.some.injEq] at h
      rw [hk, h]
      exact List.mem_cons_self _ _
    · simp only [GoMap.get, hk, if_false] at h
      exact List.mem_cons_of_mem _ (ih h)

theorem seedResults_keys (keys : List String) (results : GoMap (Option Err)) :
    (∀ x, x ∈ (seedResults keys results).map Prod.fst → x ∈ keys ∨ x ∈ results.map Prod.fst) ∧
      ((results.map Prod.fst).Nodup → ((seedResults keys results).map Prod.fst).Nodup) := by
  unfold seedResults
  induction keys generalizing results with
  | nil => exact ⟨fun x hx => Or.inr hx, fun h => h⟩
  | cons k keys ih =>
    rw [List.foldl_cons]
    obtain ⟨h1, h2⟩ := ih (GoMap.set results k (some Err.functionPanic))
    refine ⟨?_, fun h => h2 (GoMap.set_nodup _ _ _ h)⟩
    intro x hx
    rcases h1 x hx with h | h
    · exact Or.inl (List.mem_cons_of_mem _ h)
    · rcases (GoMap.set_keys _ _ _ _).mp h with h' | h'
      · exact Or.inl (h' ▸ List.mem_cons_self _ _)
      · exact Or.inr h'

theorem runSerial_results_keys {σ : Type} (env : Env σ) (pool : List (String × Prog))
    (results : GoMap (Option Err)) (s : σ) :
    (∀ x, x ∈ (runSerial env pool results s).results.map Prod.fst →
        x ∈ pool.map Prod.fst ∨ x ∈ results.map Prod.fst) ∧
      ((results.map Prod.fst).Nodup →
        ((runSerial env pool results s).results.map Prod.fst).Nodup) := by
  induction pool generalizing results s with
  | nil => exact ⟨fun x hx => Or.inr hx, fun h => h⟩
  | cons kp rest ih =>
    obtain ⟨k, p⟩ := kp
    rw [runSerial]
    cases hres : (p.run env s).result with
    | panicked => exact ⟨fun x hx => Or.inr hx, fun h => h⟩
    | returned err =>
      simp only [PoolRun.prepend]
      obtain ⟨h1, h2⟩ := ih (GoMap.set results k err) (p.run env s).world
      refine ⟨?_, fun h => h2 (GoMap.set_nodup _ _ _ h)⟩
      intro x hx
      rcases h1 x hx with h | h
      · exact Or.inl (List.mem_cons_of_mem _ h)
      · rcases (GoMap.set_keys _ _ _ _).mp h with h' | h'
        · exact Or.inl (h' ▸ List.mem_cons_self _ _)
        · exact Or.inr h'

theorem runPool_results_keys {σ : Type} (env : Env σ) (schedule : List Nat)
    (pool : List (String × Prog)) (results : GoMap (Option Err)) (s : σ) :
    (∀ x, x ∈ (runPool env schedule pool results s).results.map Prod.fst →
        x ∈ pool.map Prod.fst ∨ x ∈ results.map Prod.fst) ∧
      ((results.map Prod.fst).Nodup →
        ((runPool env schedule pool results s).results.map Prod.fst).Nodup) := by
  induction schedule generalizing pool s with
  | nil => exact runSerial_results_keys env pool results s
  | cons i schedule ih =>
    rw [runPool]
    cases hget : pool.get? i with
    | none => exact ih pool s
    | some kp =>
      obtain ⟨k, p⟩ := kp
      simp only
      split
      · exact ⟨fun x hx => Or.inr hx, fun h => h⟩
      · cases hstep : p.step env s with
        | none => exact ih pool s
        | some x =>
          obtain ⟨e, p', s'⟩ := x
          simp only [PoolRun.prepend]
          obtain ⟨hkeys, _, _, _⟩ := pool_set_facts pool i k p p' hget
          have := ih (pool.set i (k, p')) s'
          rw [hkeys] at this
          exact this

theorem firstError_none (l : GoMap (Option Err)) :
    firstError l = none ↔ ∀ x ∈ l, x.2 = none := by
  induction l with
  | nil => simp [firstError]
  | cons x rest ih =>
    obtain ⟨k, v⟩ := x
    cases v with
    | none => simp [firstError, ih]
    | some e => simp [firstError]

theorem firstError_some (l : GoMap (Option Err)) (e : Err) (h : firstError l = some e) :
    ∃ k, (k, some e) ∈ l := by
  induction l with
  | nil => simp [firstError] at h
  | cons x rest ih =>
    obtain ⟨k, v⟩ := x
    cases v with
    | none =>
      simp only [firstError] at h
      obtain ⟨k', hk'⟩ := ih h
      exact ⟨k', List.mem_cons_of_mem _ hk'⟩
    | some e' =>
      simp only [firstError, Option.some.injEq] at h
      subst h
      exact ⟨k, List.mem_cons_self _ _⟩

theorem groupProg_master (c : RollingUpdateCluster) (g : CloudInstanceGroup)
    (h : g.InstanceGroup.Spec.Role = InstanceGroupRoleMaster) :
    c.groupProg g = g.RollingUpdate c.Force c.MasterInterval := by
  simp [RollingUpdateCluster.groupProg, h]

theorem groupProg_node (c : RollingUpdateCluster) (g : CloudInstanceGroup)
    (h : g.InstanceGroup.Spec.Role = InstanceGroupRoleNode) :
    c.groupProg g = g.RollingUpdate c.Force c.NodeInterval := by
  have hne : g.InstanceGroup.Spec.Role ≠ InstanceGroupRoleMaster := h ▸ role_node_ne_master
  simp [RollingUpdateCluster.groupProg, hne]

theorem partitionGroups_unknown (groups m n : GoMap CloudInstanceGroup)
    (h : ∃ kg ∈ groups, kg.2.InstanceGroup.Spec.Role ≠ InstanceGroupRoleMaster ∧
      kg.2.InstanceGroup.Spec.Role ≠ InstanceGroupRoleNode) :
    ∃ kg ∈ groups, kg.2.InstanceGroup.Spec.Role ≠ InstanceGroupRoleMaster ∧
      kg.2.InstanceGroup.Spec.Role ≠ InstanceGroupRoleNode ∧
      partitionGroups groups m n =
        Except.error (Err.unknownGroupType kg.2.InstanceGroup.Name) := by
  induction groups generalizing m n with
  | nil => simp at h
  | cons kg rest ih =>
    obtain ⟨k, g⟩ := kg
    rw [partitionGroups]
    by_cases hN : g.InstanceGroup.Spec.Role = InstanceGroupRoleNode
    · rw [if_pos hN]
      obtain ⟨x, hx, hxm, hxn⟩ := h
      simp only [List.mem_cons] at hx
      rcases hx with rfl | hx
      · exact absurd hN hxn
      · obtain ⟨y, hy, h1, h2, h3⟩ := ih m (GoMap.set n k g) ⟨x, hx, hxm, hxn⟩
        exact ⟨y, List.mem_cons_of_mem _ hy, h1, h2, h3⟩
    · rw [if_neg hN]
      by_cases hM : g.InstanceGroup.Spec.Role = InstanceGroupRoleMaster
      · rw [if_pos hM]
        obtain ⟨x, hx, hxm, hxn⟩ := h
        simp only [List.mem_cons] at hx
        rcases hx with rfl | hx
        · exact absurd hM hxm
        · obtain ⟨y, hy, h1, h2, h3⟩ := ih (GoMap.set m k g) n ⟨x, hx, hxm, hxn⟩
          exact ⟨y, List.mem_cons_of_mem _ hy, h1, h2, h3⟩
      · rw [if_neg hM]
        exact ⟨(k, g), List.mem_cons_self _ _, hM, hN, rfl⟩

/-- C17: when a group of the map has a role other than Master or Node,
`RollingUpdateCluster.RollingUpdate` returns the "unknown group type" error
naming such a group, having made no call at all: no instance is cordoned or
terminated, the world is left as it was. -/
theorem RollingUpdate_unknown_role {σ : Type} (c : RollingUpdateCluster) (env : Env σ)
    (rt : Runtime) (groups : GoMap CloudInstanceGroup) (s : σ)
    (h : ∃ kg ∈ groups, kg.2.InstanceGroup.Spec.Role ≠ InstanceGroupRoleMaster ∧
      kg.2.InstanceGroup.Spec.Role ≠ InstanceGroupRoleNode) :
    (∃ kg ∈ groups, kg.2.InstanceGroup.Spec.Role ≠ InstanceGroupRoleMaster ∧
        kg.2.InstanceGroup.Spec.Role ≠ InstanceGroupRoleNode ∧
        (c.RollingUpdate env rt groups s).result =
          Result.returned (some (Err.unknownGroupType kg.2.InstanceGroup.Name))) ∧
      (c.RollingUpdate env rt groups s).trace = [] ∧
      (c.RollingUpdate env rt groups s).world = s := by
  obtain ⟨kg, hkg, hm, hn, hp⟩ := partitionGroups_unknown groups [] [] h
  have h0 : ¬ groups.length = 0 := by
    intro h0
    rw [List.length_eq_zero.mp h0] at hkg
    simp at hkg
  have hrun : c.RollingUpdate env rt groups s =
      { result := Result.returned (some (Err.unknownGroupType kg.2.InstanceGroup.Name)),
        results := [], trace := [], world := s } := by
    unfold RollingUpdateCluster.RollingUpdate
    simp only [h0, if_false, hp]
  rw [hrun]
  exact ⟨⟨kg, hkg, hm, hn, rfl⟩, rfl, rfl⟩

theorem RollingUpdate_unknown_role_witness :
    (∃ kg ∈ exampleCluster ++ [("bastions", exampleGroup "bastions" "Bastion" []
          [linkedInstance "i-b1" "lc-1"])],
        kg.2.InstanceGroup.Spec.Role ≠ InstanceGroupRoleMaster ∧
        kg.2.InstanceGroup.Spec.Role ≠ InstanceGroupRoleNode ∧
        (exampleUpdate.RollingUpdate (scriptedEnv none [] fun _ => false) Runtime.inOrder
          (exampleCluster ++ [("bastions", exampleGroup "bastions" "Bastion" []
            [linkedInstance "i-b1" "lc-1"])]) 0).result =
          Result.returned (some (Err.unknownGroupType kg.2.InstanceGroup.Name))) ∧
      (exampleUpdate.RollingUpdate (scriptedEnv none [] fun _ => false) Runtime.inOrder
        (exampleCluster ++ [("bastions", exampleGroup "bastions" "Bastion" []
          [linkedInstance "i-b1" "lc-1"])]) 0).trace = [] ∧
      (exampleUpdate.RollingUpdate (scriptedEnv none [] fun _ => false) Runtime.inOrder
        (exampleCluster ++ [("bastions", exampleGroup "bastions" "Bastion" []
          [linkedInstance "i-b1" "lc-1"])]) 0).world = 0 :=
  RollingUpdate_unknown_role exampleUpdate (scriptedEnv none [] fun _ => false) Runtime.inOrder
    (exampleCluster ++ [("bastions", exampleGroup "bastions" "Bastion" []
      [linkedInstance "i-b1" "lc-1"])]) 0
    ⟨("bastions", exampleGroup "bastions" "Bastion" [] [linkedInstance "i-b1" "lc-1"]),
      by decide, by decide, by decide⟩

theorem RollingUpdate_group_returned {σ : Type} (c : RollingUpdateCluster) (env : Env σ)
    (rt : Runtime) (groups : GoMap CloudInstanceGroup) (s : σ)
    (hnd : (groups.map Prod.fst).Nodup) (hv : rt.Valid)
    (hknown : ∀ kg ∈ groups, kg.2.InstanceGroup.Spec.Role = InstanceGroupRoleMaster ∨
      kg.2.InstanceGroup.Spec.Role = InstanceGroupRoleNode)
    (hres : (c.RollingUpdate env rt groups s).result ≠ Result.panicked)
    (kg : String × CloudInstanceGroup) (hkg : kg ∈ groups) :
    ∃ err, (c.groupProg kg.2).after (callsOf kg.1 (c.RollingUpdate env rt groups s).trace) =
        some (Prog.done (Result.returned err)) ∧
      GoMap.get (c.RollingUpdate env rt groups s).results kg.1 = some err := by
  obtain ⟨k, g⟩ := kg
  have hgr := RollingUpdate_group_result c env rt groups s hnd hv hres
    (Or.inr fun kg hkg => (hknown kg hkg).symm) k g hkg
  rcases hknown (k, g) hkg with hrole | hrole
  · rw [groupProg_master c g hrole]
    exact hgr.1 hrole
  · rw [groupProg_node c g hrole]
    exact hgr.2 hrole

theorem RollingUpdate_group_panicked {σ : Type} (c : RollingUpdateCluster) (env : Env σ)
    (rt : Runtime) (groups : GoMap CloudInstanceGroup) (s : σ)
    (hnd : (groups.map Prod.fst).Nodup) (hv : rt.Valid)
    (hres : (c.RollingUpdate env rt groups s).result = Result.panicked) :
    ∃ kg ∈ groups, (c.groupProg kg.2).after
        (callsOf kg.1 (c.RollingUpdate env rt groups s).trace) =
      some (Prog.done Result.panicked) := by
  have hmaster : (masterPhase c env rt groups s).crashed = true → ∃ kg ∈ groups,
      kg.2.InstanceGroup.Spec.Role = InstanceGroupRoleMaster ∧
      (c.groupProg kg.2).after (callsOf kg.1 (masterPhase c env rt groups s).trace) =
        some (Prog.done Result.panicked) := by
    intro hc
    obtain ⟨kp, hkp, hq⟩ := (runSerial_paths env _ _ s (masterPool_nodup c rt groups hnd hv)).2 hc
    obtain ⟨g, hg, hp⟩ := mem_groupProgs_inv _ _ _ kp hkp
    have hgM := (mem_mastersOf groups (kp.1, g)).mp ((hv.1 (mastersOf groups)).mem_iff.mp hg)
    refine ⟨(kp.1, g), hgM.1, hgM.2, ?_⟩
    rw [groupProg_master c g hgM.2, ← hp]
    exact hq
  have hworker : (workerPhase c env rt groups s).crashed = true → ∃ kg ∈ groups,
      kg.2.InstanceGroup.Spec.Role = InstanceGroupRoleNode ∧
      (c.groupProg kg.2).after (callsOf kg.1 (workerPhase c env rt groups s).trace) =
        some (Prog.done Result.panicked) := by
    intro hc
    obtain ⟨kp, hkp, hq⟩ := (runPool_paths env _ _ _ _ (nodePool_nodup c rt groups hnd hv)).2 hc
    obtain ⟨g, hg, hp⟩ := mem_groupProgs_inv _ _ _ kp hkp
    have hgN := (mem_nodesOf groups (kp.1, g)).mp ((hv.2.1 (nodesOf groups)).mem_iff.mp hg)
    refine ⟨(kp.1, g), hgN.1, hgN.2, ?_⟩
    rw [groupProg_node c g hgN.2, ← hp]
    exact hq
  rcases RollingUpdate_cases c env rt groups s hnd with h | h | h | h
  · rcases h.2.2 with h0 | ⟨err, herr⟩
    · unfold RollingUpdateCluster.RollingUpdate at hres
      simp [h0] at hres
    · unfold RollingUpdateCluster.RollingUpdate at hres
      by_cases h0 : groups.length = 0
      · simp [h0] at hres
      · simp [h0, herr] at hres
  · obtain ⟨kg, hkg, _, hq⟩ := hmaster h.1
    exact ⟨kg, hkg, by rw [h.2.2]; exact hq⟩
  · obtain ⟨kg, hkg, hrole, hq⟩ := hworker h.2.1
    refine ⟨kg, hkg, ?_⟩
    have hkeyN : kg.1 ∈ (nodesOf groups).map Prod.fst :=
      List.mem_map_of_mem Prod.fst ((mem_nodesOf groups kg).mpr ⟨hkg, hrole⟩)
    rw [h.2.2.2, callsOf_append, callsOf_eq_nil kg.1 (masterPhase c env rt groups s).trace
      (fun x hx hk => master_key_not_node groups hnd kg.1
        (hk ▸ masterPhase_tag c env rt groups s hnd hv x hx) hkeyN), List.nil_append]
    exact hq
  · rw [h.2.2.1] at hres
    cases hres

theorem RollingUpdate_results_entries {σ : Type} (c : RollingUpdateCluster) (env : Env σ)
    (rt : Runtime) (groups : GoMap CloudInstanceGroup) (s : σ) (hv : rt.Valid) :
    (∀ x ∈ (workerPhase c env rt groups s).results, ∃ g, (x.1, g) ∈ groups) ∧
      ((workerPhase c env rt groups s).results.map Prod.fst).Nodup := by
  have hm := runSerial_results_keys env
    (groupProgs c.Force c.MasterInterval (rt.rangeMasters (mastersOf groups)))
    (seedResults (GoMap.keys (mastersOf groups)) []) s
  have hms := seedResults_keys (GoMap.keys (mastersOf groups)) []
  have hws := seedResults_keys (GoMap.keys (nodesOf groups)) (masterPhase c env rt groups s).results
  have hw := runPool_results_keys env rt.schedule
    (groupProgs c.Force c.NodeInterval (rt.rangeNodes (nodesOf groups)))
    (seedResults (GoMap.keys (nodesOf groups)) (masterPhase c env rt groups s).results)
    (masterPhase c env rt groups s).world
  have hMkey : ∀ k, k ∈ (mastersOf groups).map Prod.fst → ∃ g, (k, g) ∈ groups := by
    intro k hk
    simp only [List.mem_map] at hk
    obtain ⟨⟨k', g⟩, hkg, rfl⟩ := hk
    exact ⟨g, ((mem_mastersOf groups _).mp hkg).1⟩
  have hNkey : ∀ k, k ∈ (nodesOf groups).map Prod.fst → ∃ g, (k, g) ∈ groups := by
    intro k hk
    simp only [List.mem_map] at hk
    obtain ⟨⟨k', g⟩, hkg, rfl⟩ := hk
    exact ⟨g, ((mem_nodesOf groups _).mp hkg).1⟩
  have hmkeys : ∀ k, k ∈ (masterPhase c env rt groups s).results.map Prod.fst →
      ∃ g, (k, g) ∈ groups := by
    intro k hk
    rcases hm.1 k hk with h | h
    · exact hMkey k ((masterPool_keys c rt groups hv k).mp h)
    · rcases hms.1 k h with h' | h'
      · exact hMkey k h'
      · simp at h'
  refine ⟨?_, ?_⟩
  · intro x hx
    rcases hw.1 x.1 (List.mem_map_of_mem Prod.fst hx) with h | h
    · exact hNkey _ ((nodePool_keys c rt groups hv x.1).mp h)
    · rcases hws.1 x.1 h with h' | h'
      · exact hNkey _ h'
      · exact hmkeys _ h'
  · exact hw.2 (hws.2 (hm.2 (hms.2 (by simp))))

/-- C11: for a non-empty map of groups whose roles are all Master or Node,
`RollingUpdateCluster.RollingUpdate` returns nil if and only if the rolling
update of every group returned nil; and when it returns an error, a group's
rolling update returned that very error, which is in the result slot of that
group. -/
theorem RollingUpdate_returns_group_error {σ : Type} (c : RollingUpdateCluster)
    (env : Env σ) (rt : Runtime) (groups : GoMap CloudInstanceGroup) (s : σ)
    (hnd : (groups.map Prod.fst).Nodup) (hv : rt.Valid) (hne : groups ≠ [])
    (hknown : ∀ kg ∈ groups, kg.2.InstanceGroup.Spec.Role = InstanceGroupRoleMaster ∨
      kg.2.InstanceGroup.Spec.Role = InstanceGroupRoleNode) :
    ((c.RollingUpdate env rt groups s).result = Result.returned none ↔
        ∀ kg ∈ groups, (c.groupProg kg.2).after
            (callsOf kg.1 (c.RollingUpdate env rt groups s).trace) =
          some (Prog.done (Result.returned none))) ∧
      ∀ e, (c.RollingUpdate env rt groups s).result = Result.returned (some e) →
        ∃ kg ∈ groups,
          (c.groupProg kg.2).after (callsOf kg.1 (c.RollingUpdate env rt groups s).trace) =
              some (Prog.done (Result.returned (some e))) ∧
            GoMap.get (c.RollingUpdate env rt groups s).results kg.1 = some (some e) := by
  have hentries := RollingUpdate_results_entries c env rt groups s hv
  have hnormal : (c.RollingUpdate env rt groups s).result ≠ Result.panicked →
      (c.RollingUpdate env rt groups s).result =
          Result.returned (firstError (rt.rangeResults (workerPhase c env rt groups s).results)) ∧
        (c.RollingUpdate env rt groups s).results = (workerPhase c env rt groups s).results := by
    intro hres
    rcases RollingUpdate_cases c env rt groups s hnd with h | h | h | h
    · rcases h.2.2 with h0 | ⟨err, herr⟩
      · exact absurd h0 hne
      · obtain ⟨m', n', hok⟩ := partitionGroups_known groups [] []
          (fun kg hkg => (hknown kg hkg).symm)
        rw [hok] at herr
        cases herr
    · exact absurd h.2.1 hres
    · exact absurd h.2.2.1 hres
    · exact ⟨h.2.2.1, h.2.2.2.1⟩
  refine ⟨⟨?_, ?_⟩, ?_⟩
  · intro hnil kg hkg
    have hres : (c.RollingUpdate env rt groups s).result ≠ Result.panicked := by
      rw [hnil]
      simp
    obtain ⟨err, ha, hget⟩ := RollingUpdate_group_returned c env rt groups s hnd hv hknown hres
      kg hkg
    obtain ⟨hr, hresults⟩ := hnormal hres
    rw [hr] at hnil
    simp only [Result.returned.injEq] at hnil
    have hall := (firstError_none _).mp hnil
    have hmem : (kg.1, err) ∈ rt.rangeResults (workerPhase c env rt groups s).results := by
      rw [(hv.2.2 _).mem_iff, ← hresults]
      exact GoMap.mem_of_get _ _ _ hget
    have := hall _ hmem
    simp only at this
    rw [ha, this]
  · intro hall
    have hres : (c.RollingUpdate env rt groups s).result ≠ Result.panicked := by
      intro hp
      obtain ⟨kg, hkg, hq⟩ := RollingUpdate_group_panicked c env rt groups s hnd hv hp
      rw [hall kg hkg] at hq
      cases hq
    obtain ⟨hr, hresults⟩ := hnormal hres
    rw [hr]
    simp only [Result.returned.injEq]
    rw [firstError_none]
    intro x hx
    rw [(hv.2.2 _).mem_iff] at hx
    obtain ⟨g, hg⟩ := hentries.1 x hx
    obtain ⟨err, ha, hget⟩ := RollingUpdate_group_returned c env rt groups s hnd hv hknown hres
      (x.1, g) hg
    rw [hresults, GoMap.get_of_mem _ x.1 x.2 hentries.2 hx] at hget
    rw [hall (x.1, g) hg] at ha
    simp only [Option.some.injEq, Prog.done.injEq, Result.returned.injEq] at ha hget
    rw [hget, ← ha]
  · intro e he
    have hres : (c.RollingUpdate env rt groups s).result ≠ Result.panicked := by
      rw [he]
      simp
    obtain ⟨hr, hresults⟩ := hnormal hres
    rw [hr] at he
    simp only [Result.returned.injEq] at he
    obtain ⟨k, hk⟩ := firstError_some _ e he
    rw [(hv.2.2 _).mem_iff] at hk
    obtain ⟨g, hg⟩ := hentries.1 _ hk
    obtain ⟨err, ha, hget⟩ := RollingUpdate_group_returned c env rt groups s hnd hv hknown hres
      (k, g) hg
    have hget' := hget
    rw [hresults, GoMap.get_of_mem _ k (some e) hentries.2 hk] at hget'
    simp only [Option.some.injEq] at hget'
    refine ⟨(k, g), hg, ?_, ?_⟩
    · rw [ha, hget']
    · rw [hget, hget']

theorem RollingUpdate_returns_group_error_witness :
    (exampleUpdate.RollingUpdate (scriptedEnv none [some "i-m1"] fun _ => false)
        Runtime.inOrder exampleCluster 0).result =
      Result.returned (some (Err.deletingInstance "i-m1" (Err.collaborator "terminate failed"))) ∧
    ∃ kg ∈ exampleCluster,
      (exampleUpdate.groupProg kg.2).after (callsOf kg.1
          (exampleUpdate.RollingUpdate (scriptedEnv none [some "i-m1"] fun _ => false)
            Runtime.inOrder exampleCluster 0).trace) =
        some (Prog.done (Result.returned
          (some (Err.deletingInstance "i-m1" (Err.collaborator "terminate failed"))))) ∧
      GoMap.get (exampleUpdate.RollingUpdate (scriptedEnv none [some "i-m1"] fun _ => false)
          Runtime.inOrder exampleCluster 0).results kg.1 =
        some (some (Err.deletingInstance "i-m1" (Err.collaborator "terminate failed"))) :=
  ⟨by decide,
    (RollingUpdate_returns_group_error exampleUpdate
      (scriptedEnv none [some "i-m1"] fun _ => false) Runtime.inOrder exampleCluster 0
      (by decide) Runtime.inOrder_valid (by decide) (by decide)).2 _ (by decide)⟩

theorem sleepsAre_after (interval : Duration) (p : Prog) (h : SleepsAre interval p)
    (t : List Event) (q : Prog) (ha : p.after t = some q) (j : Duration)
    (hj : Event.sleep j ∈ t) : j = interval := by
  induction t generalizing p with
  | nil => simp at hj
  | cons e t ih =>
    cases h with
    | done r => simp [Prog.after] at ha
    | cordon nodeName k hk =>
      cases e with
      | cordon nodeName' err =>
        simp only [Prog.after] at ha
        split at ha
        · simp only [List.mem_cons] at hj
          rcases hj with hj | hj
          · cases hj
          · exact ih (k err) (hk err) ha hj
        · cases ha
      | _ => simp [Prog.after] at ha
    | terminate instanceId k hk =>
      cases e with
      | terminate instanceId' err =>
        simp only [Prog.after] at ha
        split at ha
        · simp only [List.mem_cons] at hj
          rcases hj with hj | hj
          · cases hj
          · exact ih (k err) (hk err) ha hj
        · cases ha
      | _ => simp [Prog.after] at ha
    | sleep k hk =>
      cases e with
      | sleep interval' =>
        simp only [Prog.after] at ha
        split at ha
        · rename_i heq
          simp only [List.mem_cons, Event.sleep.injEq] at hj
          rcases hj with hj | hj
          · rw [hj, heq]
          · exact ih k hk ha hj
        · cases ha
      | _ => simp [Prog.after] at ha
    | validate clusterName k hk =>
      cases e with
      | validate clusterName' err =>
        simp only [Prog.after] at ha
        split at ha
        · simp only [List.mem_cons] at hj
          rcases hj with hj | hj
          · cases hj
          · exact ih (k err) (hk err) ha hj
        · cases ha
      | _ => simp [Prog.after] at ha

theorem sleepsAre_validateLoop (clusterName : String) (interval : Duration) (next : Prog)
    (h : SleepsAre interval next) (remaining : Nat) :
    SleepsAre interval (validateLoop clusterName interval next remaining) := by
  induction remaining with
  | zero => exact h
  | succ n ih =>
    rw [validateLoop]
    apply SleepsAre.validate
    intro err
    cases err with
    | none => exact h
    | some e => exact SleepsAre.sleep _ ih

theorem sleepsAre_updateLoop (interval : Duration) (l : List CloudInstanceGroupInstance) :
    SleepsAre interval (updateLoop interval l) := by
  induction l with
  | nil => exact SleepsAre.done _
  | cons u rest ih =>
    rw [updateLoop]
    cases hn : u.Node with
    | none => exact SleepsAre.done _
    | some node =>
      simp only
      apply SleepsAre.cordon
      intro _
      apply SleepsAre.terminate
      intro err
      cases err with
      | some e => exact SleepsAre.done _
      | none => exact SleepsAre.sleep _ (sleepsAre_validateLoop _ _ _ ih _)

theorem RollingUpdate_group_path {σ : Type} (c : RollingUpdateCluster) (env : Env σ)
    (rt : Runtime) (groups : GoMap CloudInstanceGroup) (s : σ)
    (hnd : (groups.map Prod.fst).Nodup) (hv : rt.Valid)
    (k : String) (g : CloudInstanceGroup) (hkg : (k, g) ∈ groups)
    (hrole : g.InstanceGroup.Spec.Role = InstanceGroupRoleMaster ∨
      g.InstanceGroup.Spec.Role = InstanceGroupRoleNode) :
    ∃ q, (c.groupProg g).after (callsOf k (c.RollingUpdate env rt groups s).trace) = some q := by
  have hm := (runSerial_paths env
    (groupProgs c.Force c.MasterInterval (rt.rangeMasters (mastersOf groups)))
    (seedResults (GoMap.keys (mastersOf groups)) []) s (masterPool_nodup c rt groups hnd hv)).1
  have hw := (runPool_paths env rt.schedule
    (groupProgs c.Force c.NodeInterval (rt.rangeNodes (nodesOf groups)))
    (seedResults (GoMap.keys (nodesOf groups)) (masterPhase c env rt groups s).results)
    (masterPhase c env rt groups s).world (nodePool_nodup c rt groups hnd hv)).1
  have hboth : (∃ q, (c.groupProg g).after
        (callsOf k (masterPhase c env rt groups s).trace) = some q) ∧
      ∃ q, (c.groupProg g).after (callsOf k ((masterPhase c env rt groups s).trace ++
        (workerPhase c env rt groups s).trace)) = some q := by
    rcases hrole with hrole | hrole
    · have hkM : (k, g) ∈ mastersOf groups := (mem_mastersOf groups (k, g)).mpr ⟨hkg, hrole⟩
      have hkeyN : k ∉ (nodesOf groups).map Prod.fst :=
        master_key_not_node groups hnd k (List.mem_map_of_mem Prod.fst hkM)
      have hq := hm (k, g.RollingUpdate c.Force c.MasterInterval)
        (mem_groupProgs _ _ _ k g ((hv.1 (mastersOf groups)).mem_iff.mpr hkM))
      rw [groupProg_master c g hrole, callsOf_append,
        callsOf_eq_nil k (workerPhase c env rt groups s).trace (fun x hx hk =>
          hkeyN (hk ▸ workerPhase_tag c env rt groups s hnd hv x hx)), List.append_nil]
      exact ⟨hq, hq⟩
    · have hkN : (k, g) ∈ nodesOf groups := (mem_nodesOf groups (k, g)).mpr ⟨hkg, hrole⟩
      have hkeyN : k ∈ (nodesOf groups).map Prod.fst := List.mem_map_of_mem Prod.fst hkN
      have hq := hw (k, g.RollingUpdate c.Force c.NodeInterval)
        (mem_groupProgs _ _ _ k g ((hv.2.1 (nodesOf groups)).mem_iff.mpr hkN))
      have hnil := callsOf_eq_nil k (masterPhase c env rt groups s).trace (fun x hx hk =>
        master_key_not_node groups hnd k
          (hk ▸ masterPhase_tag c env rt groups s hnd hv x hx) hkeyN)
      rw [groupProg_node c g hrole, callsOf_append, hnil, List.nil_append]
      exact ⟨⟨_, after_nil _⟩, hq⟩
  rcases RollingUpdate_cases c env rt groups s hnd with h | h | h | h
  · rw [h.1]
    exact ⟨_, after_nil _⟩
  · rw [h.2.2]
    exact hboth.1
  · rw [h.2.2.2]
    exact hboth.2
  · rw [h.2.2.2.2]
    exact hboth.2

/-- C19: in every run of `RollingUpdateCluster.RollingUpdate` every sleep made
for a master-role group is for `MasterInterval` and every sleep made for a
node-role group is for `NodeInterval`; and `InitDefaults` sets the node interval
to 2 minutes and the master and bastion intervals to 5 minutes, so the node
interval is the strictly shorter one (these are the intervals handed to
`RollingUpdateCluster`). -/
theorem RollingUpdate_intervals {σ : Type} (c : RollingUpdateCluster) (env : Env σ)
    (rt : Runtime) (groups : GoMap CloudInstanceGroup) (s : σ)
    (hnd : (groups.map Prod.fst).Nodup) (hv : rt.Valid) :
    (∀ k j g, (k, Event.sleep j) ∈ (c.RollingUpdate env rt groups s).trace → (k, g) ∈ groups →
        (g.InstanceGroup.Spec.Role = InstanceGroupRoleMaster → j = c.MasterInterval) ∧
        (g.InstanceGroup.Spec.Role = InstanceGroupRoleNode → j = c.NodeInterval)) ∧
      ∀ o : RollingUpdateOptions,
        o.InitDefaults.NodeInterval = 2 * Minute ∧
        o.InitDefaults.MasterInterval = 5 * Minute ∧
        o.InitDefaults.BastionInterval = 5 * Minute ∧
        o.InitDefaults.NodeInterval < o.InitDefaults.MasterInterval ∧
        o.InitDefaults.NodeInterval < o.InitDefaults.BastionInterval ∧
        o.InitDefaults.toRollingUpdateCluster.MasterInterval = 5 * Minute ∧
        o.InitDefaults.toRollingUpdateCluster.NodeInterval = 2 * Minute := by
  refine ⟨?_, ?_⟩
  · intro k j g hmem hkg
    have hcall := mem_callsOf_of_mem k _ _ hmem
    constructor
    · intro hrole
      obtain ⟨q, hq⟩ := RollingUpdate_group_path c env rt groups s hnd hv k g hkg (Or.inl hrole)
      rw [groupProg_master c g hrole] at hq
      exact sleepsAre_after _ _ (sleepsAre_updateLoop _ _) _ q hq j hcall
    · intro hrole
      obtain ⟨q, hq⟩ := RollingUpdate_group_path c env rt groups s hnd hv k g hkg (Or.inr hrole)
      rw [groupProg_node c g hrole] at hq
      exact sleepsAre_after _ _ (sleepsAre_updateLoop _ _) _ q hq j hcall
  · intro o
    simp only [RollingUpdateOptions.InitDefaults, RollingUpdateOptions.toRollingUpdateCluster,
      Minute]
    decide

theorem RollingUpdate_intervals_witness :
    ("master-b", Event.sleep 300000000000) ∈
        (exampleUpdate.RollingUpdate (scriptedEnv none [] fun _ => false) Runtime.inOrder
          exampleCluster 0).trace ∧
      (300000000000 : Duration) = exampleUpdate.MasterInterval :=
  ⟨by decide,
    (((RollingUpdate_intervals exampleUpdate (scriptedEnv none [] fun _ => false)
      Runtime.inOrder exampleCluster 0 (by decide) Runtime.inOrder_valid).1
      "master-b" 300000000000
      (exampleGroup "master-b" InstanceGroupRoleMaster [] [linkedInstance "i-m2" "lc-1"])
      (by decide) (by decide)).1 rfl)⟩

/-! ### The Convergence Executor -/

theorem retryCall_frame {σ : Type} (find : String → σ → Option (List (String × String)))
    (call : σ → Outcome × σ) (n : String)
    (h : ∀ s, find n (call s).2 = find n s) (attempts : Nat) (s : σ) :
    find n (retryCall call attempts s).2.1 = find n s := by
  induction attempts generalizing s with
  | zero => simp [retryCall]
  | succ k ih =>
    rw [retryCall]
    split
    · exact h s
    · exact h s
    · exact (ih _).trans (h s)

theorem retryCall_success {σ : Type} (find : String → σ → Option (List (String × String)))
    (call : σ → Outcome × σ) (n : String) (d : List (String × String))
    (h : ∀ s, (call s).1 = Outcome.success → find n (call s).2 = some d)
    (attempts : Nat) (s : σ) (hs : (retryCall call attempts s).1 = Outcome.success) :
    find n (retryCall call attempts s).2.1 = some d := by
  induction attempts generalizing s with
  | zero => simp [retryCall] at hs
  | succ k ih =>
    rw [retryCall] at hs ⊢
    split at hs
    · next hc => simp only [hc]; exact h s hc
    · simp at hs
    · next hc => simp only [hc]; exact ih _ hs

theorem applyTask_settled {σ : Type} (cloud : CloudHandle σ) (attempts : Nat) (dryRun : Bool)
    (t : Task) (s : σ)
    (h : cloud.find t.name s = some t.declared ∨
      (cloud.find t.name s ≠ none ∧ t.mode = LifecycleMode.MustExist) ∨
      t.mode = LifecycleMode.WarnIfChanges) :
    (applyTask cloud attempts dryRun t s).changeSummary = [] ∧
    (applyTask cloud attempts dryRun t s).calls = [] ∧
    (applyTask cloud attempts dryRun t s).error = none ∧
    (applyTask cloud attempts dryRun t s).state = s := by
  unfold applyTask
  by_cases hf : cloud.find t.name s = some t.declared
  · simp [hf]
  · rcases h with h | ⟨h1, h2⟩ | h
    · exact absurd h hf
    · simp [hf, h1, h2]
    · simp [hf, h]

theorem applyTask_converges {σ : Type} (cloud : CloudHandle σ) (hlaw : cloud.Lawful)
    (attempts : Nat) (t : Task) (s : σ)
    (hok : (applyTask cloud attempts false t s).error = none) :
    (∀ n, n ≠ t.name →
      cloud.find n (applyTask cloud attempts false t s).state = cloud.find n s) ∧
    (cloud.find t.name (applyTask cloud attempts false t s).state = some t.declared ∨
      (cloud.find t.name (applyTask cloud attempts false t s).state ≠ none ∧
        t.mode = LifecycleMode.MustExist) ∨
      t.mode = LifecycleMode.WarnIfChanges) := by
  unfold applyTask at hok ⊢
  by_cases hf : cloud.find t.name s = some t.declared
  · simp [hf]
  · simp only [hf, if_false] at hok ⊢
    cases hm : t.mode with
    | MustExist =>
      simp only [hm] at hok ⊢
      by_cases hn : cloud.find t.name s = none
      · simp [hn] at hok
      · simp [hn]
    | ExistsAndValidates => simp [hm] at hok
    | WarnIfChanges => simp
    | Sync =>
      simp only [hm] at hok ⊢
      simp only [Bool.false_eq_true, if_false] at hok ⊢
      by_cases hn : cloud.find t.name s = none
      · simp only [hn, if_true] at hok ⊢
        cases hr : (retryCall (cloud.create t) attempts s).1 with
        | success =>
          simp only [hr]
          refine ⟨fun n hne => retryCall_frame cloud.find _ n
            (fun s0 => hlaw.create_frame t s0 n hne) attempts s, Or.inl ?_⟩
          exact retryCall_success cloud.find _ t.name t.declared
            (fun s0 h0 => hlaw.create_success t s0 h0) attempts s hr
        | retryable => simp [hr] at hok
        | fatal msg => simp [hr] at hok
      · simp only [hn, if_false] at hok ⊢
        cases hr : (retryCall (cloud.update t) attempts s).1 with
        | success =>
          simp only [hr]
          refine ⟨fun n hne => retryCall_frame cloud.find _ n
            (fun s0 => hlaw.update_frame t s0 n hne) attempts s, Or.inl ?_⟩
          exact retryCall_success cloud.find _ t.name t.declared
            (fun s0 h0 => hlaw.update_success t s0 h0) attempts s hr
        | retryable => simp [hr] at hok
        | fatal msg => simp [hr] at hok

theorem Apply_settled {σ : Type} (cloud : CloudHandle σ) (attempts : Nat) (dryRun : Bool)
    (tasks : List Task) (s : σ)
    (h : ∀ t ∈ tasks, cloud.find t.name s = some t.declared ∨
      (cloud.find t.name s ≠ none ∧ t.mode = LifecycleMode.MustExist) ∨
      t.mode = LifecycleMode.WarnIfChanges) :
    (Apply cloud attempts dryRun tasks s).changeSummary = [] ∧
    (Apply cloud attempts dryRun tasks s).calls = [] ∧
    (Apply cloud attempts dryRun tasks s).error = none ∧
    (Apply cloud attempts dryRun tasks s).state = s := by
  induction tasks with
  | nil => simp [Apply]
  | cons t rest ih =>
    obtain ⟨h1, h2, h3, h4⟩ := applyTask_settled cloud attempts dryRun t s
      (h t (List.mem_cons_self _ _))
    obtain ⟨i1, i2, i3, i4⟩ := ih (fun u hu => h u (List.mem_cons_of_mem _ hu))
    rw [Apply]
    simp only [h3, h4, h1, h2, i1, i2, i3, i4]
    simp

theorem Apply_converges {σ : Type} (cloud : CloudHandle σ) (hlaw : cloud.Lawful)
    (attempts : Nat) (tasks : List Task) (s : σ)
    (hnames : (tasks.map Task.name).Nodup)
    (hok : (Apply cloud attempts false tasks s).error = none) :
    (∀ n, n ∉ tasks.map Task.name →
      cloud.find n (Apply cloud attempts false tasks s).state = cloud.find n s) ∧
    ∀ t ∈ tasks, cloud.find t.name (Apply cloud attempts false tasks s).state = some t.declared ∨
      (cloud.find t.name (Apply cloud attempts false tasks s).state ≠ none ∧
        t.mode = LifecycleMode.MustExist) ∨
      t.mode = LifecycleMode.WarnIfChanges := by
  induction tasks generalizing s with
  | nil => simp [Apply]
  | cons t rest ih =>
    rw [List.map_cons, List.nodup_cons] at hnames
    rw [Apply] at hok ⊢
    cases he : (applyTask cloud attempts false t s).error with
    | some err => simp [he] at hok
    | none =>
      simp only [he] at hok ⊢
      obtain ⟨hframe, hset⟩ := applyTask_converges cloud hlaw attempts t s he
      obtain ⟨iframe, iset⟩ := ih _ hnames.2 hok
      refine ⟨fun n hn => ?_, fun u hu => ?_⟩
      · rw [List.map_cons, List.mem_cons, not_or] at hn
        exact (iframe n hn.2).trans (hframe n hn.1)
      · rcases List.mem_cons.1 hu with rfl | hu
        · rw [iframe _ hnames.1]
          exact hset
        · exact iset u hu

theorem mapCloud_lawful : mapCloud.Lawful := by
  refine ⟨fun t s _ => ?_, fun t s _ => ?_, fun t s n hn => ?_, fun t s n hn => ?_⟩
  · exact GoMap.get_set_eq _ _ _
  · exact GoMap.get_set_eq _ _ _
  · exact GoMap.get_set_ne _ _ _ _ hn
  · exact GoMap.get_set_ne _ _ _ _ hn

/-- C20: idempotence of the Convergence Executor, for the executor as the
specification describes it: over a cloud handle whose successful call leaves
the object matching the declaration and whose calls touch only the object of
their task, for every task set `tasks` with distinct names and every cloud
state `s` on which `Apply` (not in dry-run) succeeded leaving the state `s1`, a
second `Apply` of the same tasks on `s1`, in dry-run or not, makes no
create/update call and yields an empty change summary; it also succeeds and
leaves `s1` as it is. -/
theorem Apply_idempotent {σ : Type} (cloud : CloudHandle σ) (hlaw : cloud.Lawful)
    (attempts : Nat) (tasks : List Task) (s : σ) (dryRun : Bool)
    (hnames : (tasks.map Task.name).Nodup)
    (hok : (Apply cloud attempts false tasks s).error = none) :
    (Apply cloud attempts dryRun tasks (Apply cloud attempts false tasks s).state).changeSummary
      = [] ∧
    (Apply cloud attempts dryRun tasks (Apply cloud attempts false tasks s).state).calls = [] ∧
    (Apply cloud attempts dryRun tasks (Apply cloud attempts false tasks s).state).error
      = none ∧
    (Apply cloud attempts dryRun tasks (Apply cloud attempts false tasks s).state).state
      = (Apply cloud attempts false tasks s).state :=
  Apply_settled cloud attempts dryRun tasks _
    (Apply_converges cloud hlaw attempts tasks s hnames hok).2

theorem Apply_idempotent_witness :
    mapCloud.Lawful ∧ (exampleTasks.map Task.name).Nodup ∧
    (Apply mapCloud 3 false exampleTasks exampleCloudState).error = none ∧
    (Apply mapCloud 3 false exampleTasks exampleCloudState).changeSummary =
      [{ task := "network", kind := ChangeKind.create },
       { task := "api-lb", kind := ChangeKind.update }] ∧
    (Apply mapCloud 3 true exampleTasks
      (Apply mapCloud 3 false exampleTasks exampleCloudState).state).changeSummary = [] ∧
    (Apply mapCloud 3 true exampleTasks
      (Apply mapCloud 3 false exampleTasks exampleCloudState).state).calls = [] ∧
    (Apply mapCloud 3 true exampleTasks
      (Apply mapCloud 3 false exampleTasks exampleCloudState).state).error = none ∧
    (Apply mapCloud 3 true exampleTasks
      (Apply mapCloud 3 false exampleTasks exampleCloudState).state).state =
      (Apply mapCloud 3 false exampleTasks exampleCloudState).state :=
  ⟨mapCloud_lawful, by decide, by decide, by decide,
    Apply_idempotent mapCloud mapCloud_lawful 3 exampleTasks exampleCloudState true
      (by decide) (by decide)⟩

/-! ### Package `fi` and the block device mappings -/

/-- C29: the pointer helpers of package `fi` are inverse on values
(`StringValue(String(v)) = v`, and the same for `Bool`, `Int`, `Int64`), and the
five readers return the zero value on nil: the empty string, false, 0, 0, 0. -/
theorem fi_value_helpers :
    (∀ v : String, fi.StringValue (fi.String v) = v) ∧
    (∀ v : Bool, fi.BoolValue (fi.Bool v) = v) ∧
    (∀ v : Int, fi.IntValue (fi.Int v) = v) ∧
    (∀ v : Int, fi.Int64Value (fi.Int64 v) = v) ∧
    fi.StringValue none = "" ∧ fi.BoolValue none = false ∧ fi.IntValue none = 0 ∧
    fi.Int64Value none = 0 ∧ fi.Uint64Value none = 0 :=
  ⟨fun _ => rfl, fun _ => rfl, fun _ => rfl, fun _ => rfl, rfl, rfl, rfl, rfl, rfl⟩

/-- C22: `BlockDeviceMapping.GetDependencies` returns the empty (nil) list of
tasks for every block device mapping and every map of tasks. -/
theorem BlockDeviceMapping_GetDependencies_nil {τ : Type} (f : BlockDeviceMapping)
    (tasks : GoMap τ) :
    f.GetDependencies tasks = [] ∧ (f.GetDependencies tasks).length = 0 :=
  ⟨rfl, rfl⟩

/-- C28: a block device mapping survives the round trip through the EC2 form and
through the autoscaling form: for every mapping `m` and device name `d`,
`BlockDeviceMappingFromEC2 (m.ToEC2 d)` and
`BlockDeviceMappingFromAutoscaling (m.ToAutoscaling d)` are `(d, m)`; an `Ebs`
block is emitted exactly when one of the three Ebs fields is not nil, so the
round trip holds as well when all three are nil and no block is emitted. -/
theorem BlockDeviceMapping_round_trip (m : BlockDeviceMapping) (d : String) :
    BlockDeviceMappingFromEC2 (m.ToEC2 d) = (d, m) ∧
    BlockDeviceMappingFromAutoscaling (m.ToAutoscaling d) = (d, m) ∧
    ((m.ToEC2 d).Ebs = none ↔
      m.EbsDeleteOnTermination = none ∧ m.EbsVolumeSize = none ∧ m.EbsVolumeType = none) ∧
    ((m.ToAutoscaling d).Ebs = none ↔
      m.EbsDeleteOnTermination = none ∧ m.EbsVolumeSize = none ∧ m.EbsVolumeType = none) := by
  obtain ⟨vn, dt, vs, vt⟩ := m
  refine ⟨?_, ?_, ?_, ?_⟩
  · by_cases h : dt ≠ none ∨ vs ≠ none ∨ vt ≠ none
    · simp [BlockDeviceMappingFromEC2, BlockDeviceMapping.ToEC2, aws.String, StringValue, h]
    · have h2 := h
      simp only [not_or, not_not] at h2
      obtain ⟨h1, h2, h3⟩ := h2
      subst h1 h2 h3
      simp [BlockDeviceMappingFromEC2, BlockDeviceMapping.ToEC2, aws.String, StringValue]
  · by_cases h : dt ≠ none ∨ vs ≠ none ∨ vt ≠ none
    · simp [BlockDeviceMappingFromAutoscaling, BlockDeviceMapping.ToAutoscaling, aws.String,
        StringValue, h]
    · have h2 := h
      simp only [not_or, not_not] at h2
      obtain ⟨h1, h2, h3⟩ := h2
      subst h1 h2 h3
      simp [BlockDeviceMappingFromAutoscaling, BlockDeviceMapping.ToAutoscaling, aws.String,
        StringValue]
  · by_cases h : dt ≠ none ∨ vs ≠ none ∨ vt ≠ none
    · simp only [BlockDeviceMapping.ToEC2, h, if_true]
      constructor
      · intro hh; simp at hh
      · intro hh
        rcases h with h | h | h
        · exact absurd hh.1 h
        · exact absurd hh.2.1 h
        · exact absurd hh.2.2 h
    · have h2 := h
      simp only [not_or, not_not] at h2
      simp [BlockDeviceMapping.ToEC2, h2]
  · by_cases h : dt ≠ none ∨ vs ≠ none ∨ vt ≠ none
    · simp only [BlockDeviceMapping.ToAutoscaling, h, if_true]
      constructor
      · intro hh; simp at hh
      · intro hh
        rcases h with h | h | h
        · exact absurd hh.1 h
        · exact absurd hh.2.1 h
        · exact absurd hh.2.2 h
    · have h2 := h
      simp only [not_or, not_not] at h2
      simp [BlockDeviceMapping.ToAutoscaling, h2]

/-! ### IAM subjects -/

theorem BuildNodeRoleSubject_cases (igRole : String) (enableLifecycleHookPermissions : Bool) :
    (igRole = InstanceGroupRoleMaster ∧
        BuildNodeRoleSubject igRole enableLifecycleHookPermissions =
          (some Subject.NodeRoleMaster, none)) ∨
      (igRole = InstanceGroupRoleAPIServer ∧
        BuildNodeRoleSubject igRole enableLifecycleHookPermissions =
          (some (Subject.NodeRoleAPIServer enableLifecycleHookPermissions), none)) ∨
      (igRole = InstanceGroupRoleNode ∧
        BuildNodeRoleSubject igRole enableLifecycleHookPermissions =
          (some (Subject.NodeRoleNode enableLifecycleHookPermissions), none)) ∨
      (igRole = InstanceGroupRoleBastion ∧
        BuildNodeRoleSubject igRole enableLifecycleHookPermissions =
          (some Subject.NodeRoleBastion, none)) ∨
      ((igRole ≠ InstanceGroupRoleMaster ∧ igRole ≠ InstanceGroupRoleAPIServer ∧
          igRole ≠ InstanceGroupRoleNode ∧ igRole ≠ InstanceGroupRoleBastion) ∧
        BuildNodeRoleSubject igRole enableLifecycleHookPermissions =
          (none, some (Err.unknownInstanceGroupRole igRole))) := by
  unfold BuildNodeRoleSubject
  by_cases h1 : igRole = InstanceGroupRoleMaster
  · exact Or.inl ⟨h1, by rw [if_pos h1]⟩
  · by_cases h2 : igRole = InstanceGroupRoleAPIServer
    · exact Or.inr (Or.inl ⟨h2, by rw [if_neg h1, if_pos h2]⟩)
    · by_cases h3 : igRole = InstanceGroupRoleNode
      · exact Or.inr (Or.inr (Or.inl ⟨h3, by rw [if_neg h1, if_neg h2, if_pos h3]⟩))
      · by_cases h4 : igRole = InstanceGroupRoleBastion
        · exact Or.inr (Or.inr (Or.inr (Or.inl
            ⟨h4, by rw [if_neg h1, if_neg h2, if_neg h3, if_pos h4]⟩)))
        · exact Or.inr (Or.inr (Or.inr (Or.inr
            ⟨⟨h1, h2, h3, h4⟩, by rw [if_neg h1, if_neg h2, if_neg h3, if_neg h4]⟩)))

/-- C23: `BuildNodeRoleSubject` returns a non-nil error exactly when the role is
none of Master, APIServer, Node and Bastion, and then the subject is nil; for
each of the four roles it returns, with a nil error, the subject of that role,
whose `ServiceAccount()` is the empty `NamespacedName` and false; and
`GenericServiceAccount.ServiceAccount()` returns its own `NamespacedName` and
true. -/
theorem BuildNodeRoleSubject_roles (igRole : String) (enableLifecycleHookPermissions : Bool) :
    ((BuildNodeRoleSubject igRole enableLifecycleHookPermissions).2 ≠ none ↔
        igRole ≠ InstanceGroupRoleMaster ∧ igRole ≠ InstanceGroupRoleAPIServer ∧
          igRole ≠ InstanceGroupRoleNode ∧ igRole ≠ InstanceGroupRoleBastion) ∧
      ((BuildNodeRoleSubject igRole enableLifecycleHookPermissions).2 ≠ none ↔
        (BuildNodeRoleSubject igRole enableLifecycleHookPermissions).1 = none) ∧
      (∀ subject, (BuildNodeRoleSubject igRole enableLifecycleHookPermissions).1 = some subject →
        subject.ServiceAccount = ({ Namespace := "", Name := "" }, false)) ∧
      (∀ g : NamespacedName, (Subject.GenericServiceAccount g).ServiceAccount = (g, true)) ∧
      (BuildNodeRoleSubject InstanceGroupRoleMaster enableLifecycleHookPermissions).1 =
        some Subject.NodeRoleMaster ∧
      (BuildNodeRoleSubject InstanceGroupRoleAPIServer enableLifecycleHookPermissions).1 =
        some (Subject.NodeRoleAPIServer enableLifecycleHookPermissions) ∧
      (BuildNodeRoleSubject InstanceGroupRoleNode enableLifecycleHookPermissions).1 =
        some (Subject.NodeRoleNode enableLifecycleHookPermissions) ∧
      (BuildNodeRoleSubject InstanceGroupRoleBastion enableLifecycleHookPermissions).1 =
        some Subject.NodeRoleBastion := by
  refine ⟨?_, ?_, ?_, fun _ => rfl, ?_, ?_, ?_, ?_⟩
  · rcases BuildNodeRoleSubject_cases igRole enableLifecycleHookPermissions with
      ⟨h, hb⟩ | ⟨h, hb⟩ | ⟨h, hb⟩ | ⟨h, hb⟩ | ⟨h, hb⟩
    · rw [hb]; simp [h]
    · rw [hb]; simp [h]
    · rw [hb]; simp [h]
    · rw [hb]; simp [h]
    · rw [hb]; simp [h]
  · rcases BuildNodeRoleSubject_cases igRole enableLifecycleHookPermissions with
      ⟨_, hb⟩ | ⟨_, hb⟩ | ⟨_, hb⟩ | ⟨_, hb⟩ | ⟨_, hb⟩ <;> rw [hb] <;> simp
  · intro subject hs
    rcases BuildNodeRoleSubject_cases igRole enableLifecycleHookPermissions with
      ⟨_, hb⟩ | ⟨_, hb⟩ | ⟨_, hb⟩ | ⟨_, hb⟩ | ⟨_, hb⟩ <;> rw [hb] at hs <;>
      simp only [Option.some.injEq] at hs
    · subst hs; rfl
    · subst hs; rfl
    · subst hs; rfl
    · subst hs; rfl
    · cases hs
  · cases enableLifecycleHookPermissions <;> decide
  · cases enableLifecycleHookPermissions <;> decide
  · cases enableLifecycleHookPermissions <;> decide
  · cases enableLifecycleHookPermissions <;> decide

/-! ### The GCE cloud -/

theorem matchItems_true (findClusterName : String) (items : List compute.MetadataItems) :
    matchItems findClusterName items true =
      items.all fun item => decide (item.Key = "cluster-name" →
        strings.TrimSpace (fi.StringValue item.Value) = findClusterName) := by
  induction items with
  | nil => rfl
  | cons item rest ih =>
    rw [matchItems]
    by_cases hk : item.Key = "cluster-name"
    · by_cases hv : strings.TrimSpace (fi.StringValue item.Value) = findClusterName
      · simp [hk, hv, ih]
      · simp [hk, hv]
    · simp [hk, ih]

theorem matchItems_false (findClusterName : String) (items : List compute.MetadataItems) :
    matchItems findClusterName items false =
      ((items.any fun item => decide (item.Key = "cluster-name")) &&
        items.all fun item => decide (item.Key = "cluster-name" →
          strings.TrimSpace (fi.StringValue item.Value) = findClusterName)) := by
  induction items with
  | nil => rfl
  | cons item rest ih =>
    rw [matchItems]
    by_cases hk : item.Key = "cluster-name"
    · by_cases hv : strings.TrimSpace (fi.StringValue item.Value) = findClusterName
      · simp [hk, hv, matchItems_true]
      · simp [hk, hv]
    · simp [hk, ih]

theorem scanItems_filter (findClusterName : String) (items found : List compute.InstanceTemplate)
    (h : ∀ t ∈ items, ∃ properties metadata,
      t.Properties = some properties ∧ properties.Metadata = some metadata) :
    scanItems findClusterName items found =
      some (found ++ items.filter fun t =>
        matchItems findClusterName t.metadataItems false) := by
  induction items generalizing found with
  | nil => simp [scanItems]
  | cons t rest ih =>
    obtain ⟨properties, metadata, hp, hm⟩ := h t (List.mem_cons_self _ _)
    have hrest := fun fd => ih fd (fun u hu => h u (List.mem_cons_of_mem _ hu))
    have hmt : matchTemplate findClusterName t =
        some (matchItems findClusterName t.metadataItems false) := by
      simp [matchTemplate, compute.InstanceTemplate.metadataItems, hp, hm]
    rw [scanItems, hmt]
    cases hb : matchItems findClusterName t.metadataItems false with
    | true => simp [hrest, List.filter_cons, hb]
    | false => simp [hrest, List.filter_cons, hb]

theorem scanPages_filter (findClusterName : String) (pages : List compute.InstanceTemplateList)
    (found : List compute.InstanceTemplate)
    (h : ∀ page ∈ pages, ∀ t ∈ page.Items, ∃ properties metadata,
      t.Properties = some properties ∧ properties.Metadata = some metadata) :
    scanPages findClusterName pages found =
      some (found ++ (pages.flatMap fun page => page.Items).filter fun t =>
        matchItems findClusterName t.metadataItems false) := by
  induction pages generalizing found with
  | nil => simp [scanPages]
  | cons page rest ih =>
    have hrest := fun fd => ih fd (fun q hq => h q (List.mem_cons_of_mem _ hq))
    rw [scanPages, scanItems_filter findClusterName page.Items found
      (h page (List.mem_cons_self _ _))]
    simp [hrest, List.flatMap_cons, List.filter_append]

/-- C24: when the listing succeeds and every listed template has its properties
and metadata, `FindInstanceTemplates` returns, with a nil error and in listing
order, exactly the listed templates that carry at least one metadata item of key
"cluster-name" and all of whose "cluster-name" items have a value equal, after
`strings.TrimSpace`, to the trimmed cluster name. -/
theorem FindInstanceTemplates_matches (pages : List compute.InstanceTemplateList)
    (clusterName : String)
    (h : ∀ page ∈ pages, ∀ t ∈ page.Items, ∃ properties metadata,
      t.Properties = some properties ∧ properties.Metadata = some metadata) :
    FindInstanceTemplates pages none clusterName =
      Returns.returned
        ((pages.flatMap fun page => page.Items).filter fun t =>
          (t.metadataItems.any fun item => decide (item.Key = "cluster-name")) &&
            t.metadataItems.all fun item => decide (item.Key = "cluster-name" →
              strings.TrimSpace (fi.StringValue item.Value) = strings.TrimSpace clusterName))
        none := by
  unfold FindInstanceTemplates
  simp only [scanPages_filter _ pages [] h, List.nil_append]
  congr 1
  apply List.filter_congr
  intro t _
  exact matchItems_false _ _

/-- C30: what `GetApiIngressStatus` does with the answer of the forwarding-rule
lookup. When the lookup fails with a not-found error it returns no ingress and
the "error getting ForwardingRule" error (it fails); when the lookup fails with
any other error it returns no ingress and a nil error (the error is dropped);
when the rule is found with a non-empty IP address it returns the one ingress
with that address and a nil error. -/
theorem GetApiIngressStatus_not_found_fails (IsNotFound : Err → Bool) (name : String)
    (rule : Option compute.ForwardingRule) (err : Err) (found : compute.ForwardingRule) :
    (GetApiIngressStatus IsNotFound name (rule, some err) =
        if IsNotFound err then ([], some (Err.gettingForwardingRule name err))
        else ([], none)) ∧
      (GetApiIngressStatus IsNotFound name (some found, none) =
        if found.IPAddress = "" then ([], some (Err.forwardRuleWithoutIPAddress name))
        else ([{ IP := found.IPAddress }], none)) ∧
      GetApiIngressStatus IsNotFound name (none, none) = ([], none) := by
  refine ⟨?_, ?_, rfl⟩
  · unfold GetApiIngressStatus
    cases h : IsNotFound err <;> simp [h]
  · unfold GetApiIngressStatus
    by_cases h : found.IPAddress = "" <;> simp [h]

/-! ### The test helper `Validate` -/

theorem validateIterations_failure (stderr : Nat → Option Err) (remaining i : Nat) (e : Err)
    (h : stderr i = some e) (hi : i ≠ ApiTimeoutIterations) :
    validateIterations stderr (remaining + 1) i =
      { err := none,
        trace := [TestEvent.ExecOuput (some e), TestEvent.Sleep ApiTimeoutDuration] } := by
  rw [validateIterations]
  simp [h, hi]

theorem validateIterations_err (stderr : Nat → Option Err) (remaining i : Nat) :
    (validateIterations stderr remaining i).err ≠ none ↔
      (i ≤ ApiTimeoutIterations ∧ ApiTimeoutIterations < i + remaining) ∧
        (∀ j, i ≤ j → j < ApiTimeoutIterations → stderr j = none) ∧
          stderr ApiTimeoutIterations ≠ none := by
  induction remaining generalizing i with
  | zero =>
    simp only [validateIterations, ne_eq, not_true_eq_false, add_zero, false_iff]
    intro h
    omega
  | succ r ih =>
    rw [validateIterations]
    cases hs : stderr i with
    | some e =>
      by_cases hi : i = ApiTimeoutIterations
      · subst hi
        simp only [if_true, ne_eq, reduceCtorEq, not_false_eq_true, true_iff]
        refine ⟨⟨le_refl _, by omega⟩, fun j h1 h2 => absurd h1 (by omega), ?_⟩
        rw [hs]
        simp
      · simp only [hi, if_false, ne_eq, not_true_eq_false, false_iff]
        rintro ⟨⟨h1, _⟩, h2, _⟩
        have := h2 i (le_refl _) (lt_of_le_of_ne h1 hi)
        rw [hs] at this
        cases this
    | none =>
      simp only
      rw [ih (i + 1)]
      constructor
      · rintro ⟨⟨h1, h2⟩, h3, h4⟩
        refine ⟨⟨by omega, by omega⟩, fun j hj1 hj2 => ?_, h4⟩
        rcases Nat.eq_or_lt_of_le hj1 with rfl | hlt
        · exact hs
        · exact h3 j hlt hj2
      · rintro ⟨⟨h1, h2⟩, h3, h4⟩
        have hne : i ≠ ApiTimeoutIterations := fun he => h4 (by rw [← he]; exact hs)
        exact ⟨⟨by omega, by omega⟩, fun j hj1 hj2 => h3 j (by omega) hj2, h4⟩

theorem validateIterations_success (remaining i : Nat) :
    validateIterations (fun _ => none) remaining i =
      { err := none, trace := List.replicate remaining (TestEvent.ExecOuput none) } := by
  induction remaining generalizing i with
  | zero => rfl
  | succ r ih =>
    rw [validateIterations]
    simp [ih, List.replicate_succ]

/-- C27: what the test helper `Validate` does. When the validate-cluster command
fails on every attempt, `Validate` makes one attempt, sleeps
`ApiTimeoutDuration` once and returns nil (the `break` leaves the loop after the
first failure). It returns the "Unable to validate after timeout" error only
when the first `ApiTimeoutIterations` attempts succeed and the attempt after
them fails; and when every attempt succeeds it runs the command
`ApiTimeoutIterations + 1` times before it returns nil. -/
theorem Validate_failure_returns_nil (e : Err) (stderr : Nat → Option Err) :
    Validate (fun _ => some e) =
        { err := none,
          trace := [TestEvent.ExecOuput (some e), TestEvent.Sleep ApiTimeoutDuration] } ∧
      ((Validate stderr).err ≠ none ↔
        (∀ j, j < ApiTimeoutIterations → stderr j = none) ∧
          stderr ApiTimeoutIterations ≠ none) ∧
      Validate (fun _ => none) =
        { err := none,
          trace := List.replicate (ApiTimeoutIterations + 1) (TestEvent.ExecOuput none) } := by
  refine ⟨?_, ?_, ?_⟩
  · exact validateIterations_failure _ ApiTimeoutIterations 0 e rfl (by decide)
  · unfold Validate
    rw [validateIterations_err]
    constructor
    · rintro ⟨_, h3, h4⟩
      exact ⟨fun j hj => h3 j (Nat.zero_le _) hj, h4⟩
    · rintro ⟨h3, h4⟩
      exact ⟨⟨Nat.zero_le _, by omega⟩, fun j _ hj => h3 j hj, h4⟩
  · exact validateIterations_success _ 0

theorem FindInstanceTemplates_matches_witness :
    (∀ page ∈ examplePages, ∀ t ∈ page.Items, ∃ properties metadata,
      t.Properties = some properties ∧ properties.Metadata = some metadata) ∧
    FindInstanceTemplates examplePages none "c.example.com  " =
      Returns.returned
        [exampleTemplate "nodes-1" [{ Key := "cluster-name", Value := some " c.example.com " },
                                    { Key := "startup-script", Value := some "#!/bin/bash" }],
         exampleTemplate "masters-1" [{ Key := "cluster-name", Value := some "c.example.com" }]]
        none := by
  have h : ∀ page ∈ examplePages, ∀ t ∈ page.Items, ∃ properties metadata,
      t.Properties = some properties ∧ properties.Metadata = some metadata := by
    intro page hp t ht
    simp only [examplePages, List.mem_cons, List.mem_singleton, List.not_mem_nil, or_false] at hp
    rcases hp with rfl | rfl
    · simp only [List.mem_cons, List.mem_singleton, List.not_mem_nil, or_false] at ht
      rcases ht with rfl | rfl | rfl <;> exact ⟨_, _, rfl, rfl⟩
    · simp only [List.mem_cons, List.mem_singleton, List.not_mem_nil, or_false] at ht
      rcases ht with rfl | rfl <;> exact ⟨_, _, rfl, rfl⟩
  refine ⟨h, ?_⟩
  rw [FindInstanceTemplates_matches examplePages "c.example.com  " h]
  decide

/-! ### The command `kops rolling-update cluster` -/

theorem needUpdate_iff (groups : GoMap CloudInstanceGroup) :
    needUpdate groups = true ↔ ∃ kg ∈ groups, kg.2.NeedUpdate ≠ [] := by
  unfold needUpdate
  simp only [List.any_eq_true, bne_iff_ne, ne_eq, List.length_eq_zero]

theorem RunRollingUpdateCluster_not_required {σ : Type} (f : Factory)
    (options : RollingUpdateOptions) (env : Env σ) (rt : Runtime)
    (rangeGroups : GoMap CloudInstanceGroup → GoMap CloudInstanceGroup) (s : σ)
    (groups : GoMap CloudInstanceGroup)
    (hdisc : discoverGroups f options = Except.ok groups)
    (hnu : needUpdate groups = false) (hf : options.Force = false) :
    RunRollingUpdateCluster f options env rt rangeGroups s =
      { result := Result.returned none, notice := some Notice.noRollingUpdateRequired,
        update := none } := by
  unfold RunRollingUpdateCluster
  rw [hdisc]
  simp [hnu, hf]

theorem RunRollingUpdateCluster_needs_yes {σ : Type} (f : Factory)
    (options : RollingUpdateOptions) (env : Env σ) (rt : Runtime)
    (rangeGroups : GoMap CloudInstanceGroup → GoMap CloudInstanceGroup) (s : σ)
    (groups : GoMap CloudInstanceGroup)
    (hdisc : discoverGroups f options = Except.ok groups)
    (h : needUpdate groups = true ∨ options.Force = true) (hy : options.Yes = false) :
    RunRollingUpdateCluster f options env rt rangeGroups s =
      { result := Result.returned none, notice := some Notice.mustSpecifyYes,
        update := none } := by
  unfold RunRollingUpdateCluster
  rw [hdisc]
  rcases h with h | h <;> simp [h, hy]

theorem RunRollingUpdateCluster_updates {σ : Type} (f : Factory)
    (options : RollingUpdateOptions) (env : Env σ) (rt : Runtime)
    (rangeGroups : GoMap CloudInstanceGroup → GoMap CloudInstanceGroup) (s : σ)
    (groups : GoMap CloudInstanceGroup)
    (hdisc : discoverGroups f options = Except.ok groups)
    (h : needUpdate groups = true ∨ options.Force = true) (hy : options.Yes = true) :
    RunRollingUpdateCluster f options env rt rangeGroups s =
      { result :=
          (options.toRollingUpdateCluster.RollingUpdate env rt (rangeGroups groups) s).result
        notice := none
        update :=
          some (options.toRollingUpdateCluster.RollingUpdate env rt (rangeGroups groups) s) } := by
  unfold RunRollingUpdateCluster
  rw [hdisc]
  rcases h with h | h <;> simp [h, hy]

/-- C26: once the groups are discovered (every step of `RunRollingUpdateCluster`
up to the rendering of the table succeeded), the rolling update is called if and
only if (some group has a non-empty `NeedUpdate` or `--force` is set) and
`--yes` is set; when it is called the command returns what it returns; in every
other case the command returns nil and makes no call: nothing is cordoned or
terminated, the world is left as it was. -/
theorem RunRollingUpdateCluster_gate {σ : Type} (f : Factory) (options : RollingUpdateOptions)
    (env : Env σ) (rt : Runtime)
    (rangeGroups : GoMap CloudInstanceGroup → GoMap CloudInstanceGroup) (s : σ)
    (groups : GoMap CloudInstanceGroup)
    (hdisc : discoverGroups f options = Except.ok groups) :
    ((RunRollingUpdateCluster f options env rt rangeGroups s).update.isSome = true ↔
        ((∃ kg ∈ groups, kg.2.NeedUpdate ≠ []) ∨ options.Force = true) ∧
          options.Yes = true) ∧
      ((RunRollingUpdateCluster f options env rt rangeGroups s).update = none →
        (RunRollingUpdateCluster f options env rt rangeGroups s).result =
            Result.returned none ∧
          (RunRollingUpdateCluster f options env rt rangeGroups s).trace = [] ∧
          (RunRollingUpdateCluster f options env rt rangeGroups s).world s = s) ∧
      ∀ u, (RunRollingUpdateCluster f options env rt rangeGroups s).update = some u →
        u = options.toRollingUpdateCluster.RollingUpdate env rt (rangeGroups groups) s ∧
          (RunRollingUpdateCluster f options env rt rangeGroups s).result = u.result ∧
          (RunRollingUpdateCluster f options env rt rangeGroups s).trace = u.trace ∧
          (RunRollingUpdateCluster f options env rt rangeGroups s).world s = u.world := by
  have hn := needUpdate_iff groups
  cases hnu : needUpdate groups with
  | false =>
    have hno : ¬ ∃ kg ∈ groups, kg.2.NeedUpdate ≠ [] := by
      rw [← hn, hnu]
      simp
    cases hf : options.Force with
    | false =>
      rw [RunRollingUpdateCluster_not_required f options env rt rangeGroups s groups hdisc
        hnu hf]
      refine ⟨?_, fun _ => ⟨rfl, rfl, rfl⟩, fun u hu => by cases hu⟩
      simp only [Option.isSome_none, Bool.false_eq_true, false_iff]
      rintro ⟨h | h, _⟩
      · exact hno h
      · cases h
    | true =>
      cases hy : options.Yes with
      | false =>
        rw [RunRollingUpdateCluster_needs_yes f options env rt rangeGroups s groups hdisc
          (Or.inr hf) hy]
        refine ⟨?_, fun _ => ⟨rfl, rfl, rfl⟩, fun u hu => by cases hu⟩
        simp
      | true =>
        rw [RunRollingUpdateCluster_updates f options env rt rangeGroups s groups hdisc
          (Or.inr hf) hy]
        refine ⟨?_, (fun hu => nomatch hu), fun u hu => ?_⟩
        · simp
        · simp only [Option.some.injEq] at hu
          subst hu
          exact ⟨rfl, rfl, rfl, rfl⟩
  | true =>
    have hyes : ∃ kg ∈ groups, kg.2.NeedUpdate ≠ [] := hn.1 hnu
    cases hy : options.Yes with
    | false =>
      rw [RunRollingUpdateCluster_needs_yes f options env rt rangeGroups s groups hdisc
        (Or.inl hnu) hy]
      refine ⟨?_, fun _ => ⟨rfl, rfl, rfl⟩, fun u hu => by cases hu⟩
      simp
    | true =>
      rw [RunRollingUpdateCluster_updates f options env rt rangeGroups s groups hdisc
        (Or.inl hnu) hy]
      refine ⟨?_, (fun hu => nomatch hu), fun u hu => ?_⟩
      · simp only [Option.isSome_some, true_iff]
        exact ⟨Or.inl hyes, trivial⟩
      · simp only [Option.some.injEq] at hu
        subst hu
        exact ⟨rfl, rfl, rfl, rfl⟩

theorem RunRollingUpdateCluster_gate_witness :
    discoverGroups exampleFactory (exampleOptions false false false) =
        Except.ok
          ((FindCloudInstanceGroups (Except.ok exampleAsgs) exampleClusterSpec
            exampleInstanceGroups true exampleNodes).groups.getD []) ∧
      (RunRollingUpdateCluster exampleFactory (exampleOptions false false false)
          (scriptedEnv none [] fun _ => false) Runtime.inOrder (fun m => m) 0).update = none ∧
      (RunRollingUpdateCluster exampleFactory (exampleOptions false false false)
          (scriptedEnv none [] fun _ => false) Runtime.inOrder (fun m => m) 0).result =
        Result.returned none ∧
      (RunRollingUpdateCluster exampleFactory (exampleOptions false false false)
          (scriptedEnv none [] fun _ => false) Runtime.inOrder (fun m => m) 0).trace = [] := by
  have hd : discoverGroups exampleFactory (exampleOptions false false false) =
      Except.ok
        ((FindCloudInstanceGroups (Except.ok exampleAsgs) exampleClusterSpec
          exampleInstanceGroups true exampleNodes).groups.getD []) := rfl
  have h := RunRollingUpdateCluster_gate exampleFactory (exampleOptions false false false)
    (scriptedEnv none [] fun _ => false) Runtime.inOrder (fun m => m) 0 _ hd
  have hnone : (RunRollingUpdateCluster exampleFactory (exampleOptions false false false)
      (scriptedEnv none [] fun _ => false) Runtime.inOrder (fun m => m) 0).update = none := by
    cases hu : (RunRollingUpdateCluster exampleFactory (exampleOptions false false false)
      (scriptedEnv none [] fun _ => false) Runtime.inOrder (fun m => m) 0).update with
    | none => rfl
    | some u =>
      have := h.1.1 (by rw [hu]; rfl)
      exact absurd this.2 (by decide)
  exact ⟨hd, hnone, (h.2.1 hnone).1, (h.2.1 hnone).2.1⟩

/-! ### Instances without a linked node -/

theorem update_without_nodes (ig : InstanceGroup) (g : AutoscalingGroup) (force : Bool)
    (c : CloudInstanceGroupInstance)
    (hc : c ∈ (buildCloudInstanceGroup ig g (buildNodeMap [])).update force) :
    c.Node = none := by
  have hmem : c ∈ (buildCloudInstanceGroup ig g (buildNodeMap [])).Ready ++
      (buildCloudInstanceGroup ig g (buildNodeMap [])).NeedUpdate := by
    unfold CloudInstanceGroup.update at hc
    cases force with
    | true =>
      simp only [if_true, List.mem_append] at hc
      exact List.mem_append.2 hc.symm
    | false =>
      simp only [Bool.false_eq_true, if_false] at hc
      exact List.mem_append_right _ hc
  rw [buildCloudInstanceGroup_Node ig g _ c hmem, buildNodeMap_get]
  rfl

/-- C25: an instance without a linked node makes `CloudInstanceGroup.RollingUpdate`
panic. The update loop, reaching an instance whose `Node` is nil, dereferences
it (`u.Node.Name`) before any call is made for that instance; so a group built
by discovery from an empty node list either has no instance to replace or
panics before its first call; and the command run with `--cloudonly --yes` on
the example cluster panics without having replaced any instance. -/
theorem RollingUpdate_nil_node_panics {σ : Type} (env : Env σ) (s : σ) (interval : Duration)
    (i : AutoscalingInstance) (rest : List CloudInstanceGroupInstance) (ig : InstanceGroup)
    (g : AutoscalingGroup) (force : Bool) :
    (updateLoop interval ({ ASGInstance := i, Node := none } :: rest)).run env s =
        { result := Result.panicked, trace := [], world := s } ∧
      ((buildCloudInstanceGroup ig g (buildNodeMap [])).RollingUpdate force interval).run env s =
        (if (buildCloudInstanceGroup ig g (buildNodeMap [])).update force = [] then
          { result := Result.returned none, trace := [], world := s }
        else
          { result := Result.panicked, trace := [], world := s }) ∧
      (RunRollingUpdateCluster exampleFactory (exampleOptions true false true)
          (scriptedEnv none [] fun _ => false) Runtime.inOrder (fun m => m) 0).result =
        Result.panicked ∧
      (RunRollingUpdateCluster exampleFactory (exampleOptions true false true)
          (scriptedEnv none [] fun _ => false) Runtime.inOrder (fun m => m) 0).trace = [] := by
  refine ⟨run_updateLoop_cons_none env interval s _ rest rfl, ?_, by decide, by decide⟩
  unfold CloudInstanceGroup.RollingUpdate
  cases hu : (buildCloudInstanceGroup ig g (buildNodeMap [])).update force with
  | nil => simp [run_updateLoop_nil]
  | cons u rest2 =>
    have hnone : u.Node = none :=
      update_without_nodes ig g force u (by rw [hu]; exact List.mem_cons_self _ _)
    simp [run_updateLoop_cons_none env interval s u rest2 hnone]

/-! ### The Dependency Resolver -/

theorem ready_iff (names placed : List String) (t : Task) :
    Task.ready names placed t = true ↔ ∀ r ∈ t.references, r ∈ names → r ∈ placed := by
  unfold Task.ready
  simp only [List.all_eq_true, Bool.or_eq_true, decide_eq_true_eq, Bool.not_eq_true',
    decide_eq_false_iff_not]
  constructor
  · intro h r hr hn
    rcases h r hr with h | h
    · exact h
    · exact absurd hn h
  · intro h r hr
    by_cases hn : r ∈ names
    · exact Or.inl (h r hr hn)
    · exact Or.inr hn

theorem ordered_snoc (names : List String) (placed : List Task) (t : Task)
    (ho : Ordered names placed)
    (hr : Task.ready names (placed.map Task.name) t = true) :
    Ordered names (placed ++ [t]) := by
  intro l1 u l2 h r hru hrn
  rcases List.append_eq_append_iff.1 h with ⟨a', hl1, hrest⟩ | ⟨c', hplaced, hrest⟩
  · cases a' with
    | nil =>
      simp only [List.nil_append, List.cons.injEq] at hrest
      obtain ⟨rfl, _⟩ := hrest
      rw [hl1, List.append_nil]
      exact (ready_iff names _ t).1 hr r hru hrn
    | cons x a'' =>
      have := congrArg List.length hrest
      simp at this
  · cases c' with
    | nil =>
      simp only [List.nil_append, List.cons.injEq] at hrest
      obtain ⟨rfl, _⟩ := hrest
      rw [List.append_nil] at hplaced
      subst hplaced
      exact (ready_iff names _ u).1 hr r hru hrn
    | cons x c'' =>
      simp only [List.cons_append, List.cons.injEq] at hrest
      obtain ⟨rfl, _⟩ := hrest
      exact ho l1 u c'' hplaced r hru hrn

theorem resolveLoop_ok (names : List String) (fuel : Nat) (remaining placed order : List Task)
    (h : resolveLoop names fuel remaining placed = Except.ok order)
    (ho : Ordered names placed) :
    order.Perm (placed ++ remaining) ∧ Ordered names order := by
  induction fuel generalizing remaining placed with
  | zero =>
    rw [resolveLoop] at h
    by_cases hr : remaining = []
    · simp only [hr, if_true, Except.ok.injEq] at h
      subst h
      subst hr
      simpa using ho
    · simp [hr] at h
  | succ k ih =>
    rw [resolveLoop] at h
    cases hf : remaining.find? (Task.ready names (placed.map Task.name)) with
    | none =>
      rw [hf] at h
      by_cases hr : remaining = []
      · simp only [hr, if_true, Except.ok.injEq] at h
        subst h
        subst hr
        simpa using ho
      · simp [hr] at h
    | some t =>
      rw [hf] at h
      simp only at h
      have hmem : t ∈ remaining := List.mem_of_find?_eq_some hf
      have hready : Task.ready names (placed.map Task.name) t = true := List.find?_some hf
      obtain ⟨hp, hord⟩ := ih _ _ h (ordered_snoc names placed t ho hready)
      refine ⟨hp.trans ?_, hord⟩
      rw [List.append_assoc]
      exact List.Perm.append_left _ (List.perm_cons_erase hmem).symm

theorem resolveLoop_error (names : List String) (fuel : Nat) (remaining placed : List Task)
    (offending : List String)
    (h : resolveLoop names fuel remaining placed = Except.error offending)
    (hfuel : remaining.length ≤ fuel) :
    ∃ stuck settled, stuck ≠ [] ∧ offending = stuck.map Task.name ∧
      (settled ++ stuck).Perm (placed ++ remaining) ∧
      ∀ t ∈ stuck, Task.ready names (settled.map Task.name) t = false := by
  induction fuel generalizing remaining placed with
  | zero =>
    have hr : remaining = [] := List.length_eq_zero.1 (Nat.le_zero.1 hfuel)
    rw [resolveLoop] at h
    simp [hr] at h
  | succ k ih =>
    rw [resolveLoop] at h
    cases hf : remaining.find? (Task.ready names (placed.map Task.name)) with
    | none =>
      rw [hf] at h
      by_cases hr : remaining = []
      · simp [hr] at h
      · simp only [hr, if_false, Except.error.injEq] at h
        refine ⟨remaining, placed, hr, h.symm, List.Perm.refl _, fun t ht => ?_⟩
        have := List.find?_eq_none.1 hf t ht
        simpa using this
    | some t =>
      rw [hf] at h
      simp only at h
      have hmem : t ∈ remaining := List.mem_of_find?_eq_some hf
      have hlen : (remaining.erase t).length ≤ k := by
        rw [List.length_erase_of_mem hmem]
        omega
      obtain ⟨stuck, settled, hne, hoff, hp, hall⟩ := ih _ _ h hlen
      refine ⟨stuck, settled, hne, hoff, hp.trans ?_, hall⟩
      rw [List.append_assoc]
      exact List.Perm.append_left _ (List.perm_cons_erase hmem).symm

theorem cycle_of_stuck (R : Task → Task → Prop) (stuck : List Task) (hne : stuck ≠ [])
    (h : ∀ t ∈ stuck, ∃ u ∈ stuck, R t u) : ∃ t, Relation.TransGen R t t := by
  by_contra hno
  have hirr : ∀ t, ¬ Relation.TransGen R t t := fun t ht => hno ⟨t, ht⟩
  haveI : IsTrans { t : Task // t ∈ stuck } (fun x y => Relation.TransGen R y.1 x.1) :=
    ⟨fun _ _ _ hab hbc => Relation.TransGen.trans hbc hab⟩
  haveI : IsIrrefl { t : Task // t ∈ stuck } (fun x y => Relation.TransGen R y.1 x.1) :=
    ⟨fun a ha => hirr a.1 ha⟩
  have hwf : WellFounded (fun x y : { t : Task // t ∈ stuck } =>
      Relation.TransGen R y.1 x.1) :=
    Finite.wellFounded_of_trans_of_irrefl _
  obtain ⟨t0, ht0⟩ := List.exists_mem_of_ne_nil stuck hne
  obtain ⟨m, _, hmin⟩ := hwf.has_min Set.univ ⟨⟨t0, ht0⟩, trivial⟩
  obtain ⟨u, hu, hR⟩ := h m.1 m.2
  exact hmin ⟨u, hu⟩ trivial (Relation.TransGen.single hR)

theorem name_inj (l : List Task) (hnd : (l.map Task.name).Nodup) (a b : Task)
    (ha : a ∈ l) (hb : b ∈ l) (h : a.name = b.name) : a = b :=
  List.inj_on_of_nodup_map hnd ha hb h

theorem rank_append_of_mem (l1 l2 : List String) (x : String) (h : x ∈ l1) :
    rank (l1 ++ l2) x = rank l1 x := by
  induction l1 with
  | nil => simp at h
  | cons k ks ih =>
    by_cases hx : x = k
    · simp [rank, hx]
    · simp only [List.mem_cons, hx, false_or] at h
      simp [rank, hx, ih h]

theorem rank_append_head (l1 l2 : List String) (x : String) (h : x ∉ l1) :
    rank (l1 ++ x :: l2) x = l1.length := by
  induction l1 with
  | nil => simp [rank]
  | cons k ks ih =>
    simp only [List.mem_cons, not_or] at h
    simp [rank, h.1, ih h.2]

/-- In an ordered list with distinct names, a referenced task of the collection
has a smaller position than the task that refers to it. -/
theorem ordered_rank (names : List String) (order : List Task)
    (hnd : (order.map Task.name).Nodup) (ho : Ordered names order) (a : Task) (r : String)
    (ha : a ∈ order) (hr : r ∈ a.references) (hn : r ∈ names) :
    rank (order.map Task.name) r < rank (order.map Task.name) a.name := by
  obtain ⟨l1, l2, rfl⟩ := List.append_of_mem ha
  have hb := ho l1 a l2 rfl r hr hn
  rw [List.map_append, List.map_cons] at hnd ⊢
  have hnot : a.name ∉ l1.map Task.name := by
    intro hin
    exact (List.disjoint_left.1 (List.nodup_append.1 hnd).2.2) hin (List.mem_cons_self _ _)
  rw [rank_append_of_mem _ _ r hb, rank_append_head _ _ _ hnot]
  have := rank_lt_of_mem _ r hb
  simpa using this

theorem ordered_acyclic (tasks order : List Task) (hnd : (tasks.map Task.name).Nodup)
    (hp : order.Perm tasks) (ho : Ordered (tasks.map Task.name) order) : ¬ HasCycle tasks := by
  have hnd' : (order.map Task.name).Nodup := (hp.map Task.name).nodup_iff.2 hnd
  have hstep : ∀ a b, Relation.TransGen (References tasks) a b →
      rank (order.map Task.name) b.name < rank (order.map Task.name) a.name := by
    intro a b hab
    induction hab with
    | single h =>
      exact ordered_rank _ order hnd' ho _ _ (hp.mem_iff.2 h.1) h.2.2
        (List.mem_map_of_mem _ h.2.1)
    | tail _ h ih =>
      exact lt_trans (ordered_rank _ order hnd' ho _ _ (hp.mem_iff.2 h.1) h.2.2
        (List.mem_map_of_mem _ h.2.1)) ih
  rintro ⟨t, ht⟩
  exact lt_irrefl _ (hstep t t ht)

theorem Resolve_error_cycle (tasks : List Task) (offending : List String)
    (h : Resolve tasks = Except.error offending) :
    HasCycle tasks ∧ offending ≠ [] ∧ ∀ n ∈ offending, n ∈ tasks.map Task.name := by
  unfold Resolve at h
  have hsort : (tasks.insertionSort fun a b => a.name.toList ≤ b.name.toList).Perm tasks :=
    List.perm_insertionSort _ _
  obtain ⟨stuck, settled, hne, hoff, hp, hall⟩ := resolveLoop_error _ _ _ _ _ h
    (by rw [List.length_insertionSort])
  rw [List.nil_append] at hp
  have hp' : (settled ++ stuck).Perm tasks := hp.trans hsort
  have hstuck : ∀ t ∈ stuck, t ∈ tasks := fun t ht =>
    hp'.mem_iff.1 (List.mem_append_right _ ht)
  refine ⟨?_, ?_, ?_⟩
  · apply cycle_of_stuck (References tasks) stuck hne
    intro t ht
    have hnr : ¬ (Task.ready (tasks.map Task.name) (settled.map Task.name) t = true) := by
      rw [hall t ht]
      simp
    rw [ready_iff] at hnr
    push_neg at hnr
    obtain ⟨r, hr, hrn, hrs⟩ := hnr
    obtain ⟨u, hu, hur⟩ := List.mem_map.1 hrn
    have hu' : u ∈ settled ++ stuck := hp'.mem_iff.2 hu
    rcases List.mem_append.1 hu' with hus | hus
    · exact absurd (hur ▸ List.mem_map_of_mem Task.name hus) hrs
    · exact ⟨u, hus, hstuck t ht, hu, hur ▸ hr⟩
  · rw [hoff]
    simpa using hne
  · intro n hn
    rw [hoff] at hn
    obtain ⟨t, ht, rfl⟩ := List.mem_map.1 hn
    exact List.mem_map_of_mem _ (hstuck t ht)

theorem Resolve_ok_ordered (tasks order : List Task) (h : Resolve tasks = Except.ok order) :
    order.Perm tasks ∧ Ordered (tasks.map Task.name) order := by
  unfold Resolve at h
  obtain ⟨hp, ho⟩ := resolveLoop_ok _ _ _ _ _ h
    (by
      intro l1 t l2 hnil
      have := congrArg List.length hnil
      simp at this
      omega)
  rw [List.nil_append] at hp
  exact ⟨hp.trans (List.perm_insertionSort _ _), ho⟩

/-- C21: for every collection of tasks with distinct names, the Dependency
Resolver, as the specification describes it, returns an ordering when the
reference graph has no cycle: a permutation of the collection in which every
task stands before all tasks that refer to it; and it returns the
cycle-detection error, naming tasks of the collection, when the graph has a
cycle; in that case a convergence run makes no create/update call, has an empty
change summary, leaves the cloud state as it was and reports an error. -/
theorem Resolve_orders_or_detects_cycle (tasks : List Task)
    (hnames : (tasks.map Task.name).Nodup) :
    (¬ HasCycle tasks → ∃ order, Resolve tasks = Except.ok order ∧ order.Perm tasks ∧
      ∀ a ∈ order, ∀ b ∈ order, b.name ∈ a.references →
        ∃ l1 l2 l3, order = l1 ++ b :: (l2 ++ a :: l3)) ∧
    (HasCycle tasks → ∃ offending, Resolve tasks = Except.error offending ∧
      offending ≠ [] ∧ (∀ n ∈ offending, n ∈ tasks.map Task.name) ∧
      ∀ (σ : Type) (cloud : CloudHandle σ) (attempts : Nat) (dryRun : Bool) (s : σ),
        (Converge cloud attempts dryRun tasks s).calls = [] ∧
        (Converge cloud attempts dryRun tasks s).changeSummary = [] ∧
        (Converge cloud attempts dryRun tasks s).state = s ∧
        (Converge cloud attempts dryRun tasks s).error ≠ none) := by
  constructor
  · intro hno
    cases hres : Resolve tasks with
    | error offending => exact absurd (Resolve_error_cycle tasks offending hres).1 hno
    | ok order =>
      obtain ⟨hp, ho⟩ := Resolve_ok_ordered tasks order hres
      have hnd : (order.map Task.name).Nodup := (hp.map Task.name).nodup_iff.2 hnames
      refine ⟨order, rfl, hp, fun a ha b hb hba => ?_⟩
      obtain ⟨l1, l3, hsplit⟩ := List.append_of_mem ha
      have hbn : b.name ∈ l1.map Task.name :=
        ho l1 a l3 hsplit b.name hba (List.mem_map_of_mem _ (hp.mem_iff.1 hb))
      obtain ⟨b', hb', hbb⟩ := List.mem_map.1 hbn
      have hb'o : b' ∈ order := by
        rw [hsplit]
        exact List.mem_append_left _ hb'
      have hbeq : b' = b := name_inj order hnd b' b hb'o hb hbb
      subst hbeq
      obtain ⟨l0, l2, hl1⟩ := List.append_of_mem hb'
      refine ⟨l0, l2, l3, ?_⟩
      rw [hsplit, hl1, List.append_assoc, List.cons_append]
  · intro hc
    cases hres : Resolve tasks with
    | ok order =>
      obtain ⟨hp, ho⟩ := Resolve_ok_ordered tasks order hres
      exact absurd hc (ordered_acyclic tasks order hnames hp ho)
    | error offending =>
      obtain ⟨_, hne, hsub⟩ := Resolve_error_cycle tasks offending hres
      refine ⟨offending, rfl, hne, hsub, fun σ cloud attempts dryRun s => ?_⟩
      unfold Converge
      rw [hres]
      exact ⟨rfl, rfl, rfl, by simp⟩

theorem Resolve_orders_or_detects_cycle_witness :
    (exampleCycle.map Task.name).Nodup ∧ (exampleGraph.map Task.name).Nodup ∧
    HasCycle exampleCycle ∧ ¬ HasCycle exampleGraph ∧
    Resolve exampleCycle = Except.error ["A", "B", "C"] ∧
    (Converge mapCloud 3 false exampleCycle exampleCloudState).calls = [] ∧
    (Converge mapCloud 3 false exampleCycle exampleCloudState).state = exampleCloudState ∧
    ∃ order, Resolve exampleGraph = Except.ok order ∧ order.Perm exampleGraph ∧
      order.map Task.name = ["network", "firewall", "subnet", "lb"] ∧
      ∀ a ∈ order, ∀ b ∈ order, b.name ∈ a.references →
        ∃ l1 l2 l3, order = l1 ++ b :: (l2 ++ a :: l3) := by
  have hcyc : HasCycle exampleCycle :=
    ⟨{ name := "A", declared := [], mode := LifecycleMode.Sync, references := ["B"] },
      Relation.TransGen.tail
        (Relation.TransGen.single
          (show References exampleCycle _
              { name := "B", declared := [], mode := LifecycleMode.Sync, references := ["A"] }
            from ⟨by decide, by decide, by decide⟩))
        ⟨by decide, by decide, by decide⟩⟩
  have hc := Resolve_orders_or_detects_cycle exampleCycle (by decide)
  have hg := Resolve_orders_or_detects_cycle exampleGraph (by decide)
  have hacyc : ¬ HasCycle exampleGraph := by
    intro h
    obtain ⟨offending, hoff, _⟩ := hg.2 h
    have hok : (Resolve exampleGraph).toOption ≠ none := by decide
    rw [hoff] at hok
    exact hok rfl
  obtain ⟨offending, hoff, _, _, hconv⟩ := hc.2 hcyc
  obtain ⟨order, hok, hperm, hbefore⟩ := hg.1 hacyc
  refine ⟨by decide, by decide, hcyc, hacyc, rfl, (hconv _ mapCloud 3 false exampleCloudState).1,
    (hconv _ mapCloud 3 false exampleCloudState).2.2.1, order, hok, hperm, ?_, hbefore⟩
  have hval : (Resolve exampleGraph).toOption.map (fun o => o.map Task.name) =
      some ["network", "firewall", "subnet", "lb"] := by decide
  rw [hok] at hval
  simpa [Except.toOption] using hval

/-! ### Selected instances without a linked node -/

theorem run_updateLoop_unlinked {σ : Type} (env : Env σ) (interval : Duration)
    (pre : List CloudInstanceGroupInstance) (u : CloudInstanceGroupInstance)
    (post : List CloudInstanceGroupInstance) (s : σ) (h : u.Node = none) :
    terminated ((updateLoop interval (pre ++ u :: post)).run env s).trace <+:
        pre.map (fun u => u.ASGInstance.InstanceId) ∧
      ((updateLoop interval (pre ++ u :: post)).run env s).result ≠ Result.returned none := by
  induction pre generalizing s with
  | nil =>
    rw [List.nil_append, run_updateLoop_cons_none env interval s u post h]
    simp [terminated]
  | cons v rest ih =>
    rw [List.cons_append]
    cases hn : v.Node with
    | none =>
      rw [run_updateLoop_cons_none env interval s v _ hn]
      simp [terminated]
    | some node =>
      cases ht : (env.terminate v.ASGInstance.InstanceId (env.cordon node.Name s).2).1 with
      | some e =>
        rw [run_updateLoop_cons_fail env interval s v _ node e hn ht]
        simp [terminated, List.cons_prefix_cons]
      | none =>
        rw [run_updateLoop_cons_ok env interval s v _ node hn ht]
        have hw := terminated_of_isWait _ (validateWait_isWait env node.ClusterName interval
          retries (env.sleep interval
            (env.terminate v.ASGInstance.InstanceId (env.cordon node.Name s).2).2))
        simp only [Run.prepend, List.cons_append, terminated, List.append_eq, terminated_append,
          hw, List.nil_append, List.map_cons, List.cons_prefix_cons, true_and]
        exact ih _

/-- C3 (what the code does): the termination calls of
`CloudInstanceGroup.RollingUpdate` are always made for the instances it selected
at the start (those of `n.NeedUpdate` when `force` is false, those of
`n.NeedUpdate` followed by those of `n.Ready` when `force` is true), in that
order and at most once each; when every selected instance has a linked node and
no termination call fails, every selected instance is terminated, exactly once
and in that order, and nil is returned. But a selected instance whose `Node` is
nil is never terminated, whether or not a termination fails: the terminations
stop among the instances selected before it, and nil is not returned (the run
panics at `u.Node.Name`). With one stale unlinked instance and terminations that
cannot fail, the run panics without a single call. -/
theorem RollingUpdate_unlinked_not_terminated {σ : Type} (env : Env σ)
    (n : CloudInstanceGroup) (pre post : List CloudInstanceGroupInstance)
    (i : AutoscalingInstance) (force : Bool) (interval : Duration) (s : σ) :
    terminated ((n.RollingUpdate force interval).run env s).trace <+:
        (if force = true then n.NeedUpdate ++ n.Ready else n.NeedUpdate).map
          (fun u => u.ASGInstance.InstanceId) ∧
      ((∀ u ∈ (if force = true then n.NeedUpdate ++ n.Ready else n.NeedUpdate),
          u.Node.isSome = true) →
        (∀ e ∈ ((n.RollingUpdate force interval).run env s).trace,
          e.isTerminateError = false) →
        terminated ((n.RollingUpdate force interval).run env s).trace =
            (if force = true then n.NeedUpdate ++ n.Ready else n.NeedUpdate).map
              (fun u => u.ASGInstance.InstanceId) ∧
          ((n.RollingUpdate force interval).run env s).result = Result.returned none) ∧
      (terminated ((({ n with
            NeedUpdate := pre ++ { ASGInstance := i, Node := none } :: post } :
              CloudInstanceGroup).RollingUpdate force interval).run env s).trace <+:
          pre.map (fun u => u.ASGInstance.InstanceId) ∧
        ((({ n with
            NeedUpdate := pre ++ { ASGInstance := i, Node := none } :: post } :
              CloudInstanceGroup).RollingUpdate force interval).run env s).result ≠
          Result.returned none) ∧
      ((exampleGroup "nodes" InstanceGroupRoleNode [] [unlinkedInstance "i-2" "lc-1"]).RollingUpdate
          false 5).run (scriptedEnv none [] fun _ => false) 0 =
        { result := Result.panicked, trace := [], world := 0 } := by
  refine ⟨run_updateLoop_terminated_initial env interval _ s,
    fun hnode hterm => RollingUpdate_terminates_all env n force interval s hnode hterm, ?_,
    run_updateLoop_cons_none (scriptedEnv none [] fun _ => false) 5 0
      (unlinkedInstance "i-2" "lc-1") [] rfl⟩
  unfold CloudInstanceGroup.RollingUpdate CloudInstanceGroup.update
  cases force with
  | false =>
    simp only [Bool.false_eq_true, if_false]
    exact run_updateLoop_unlinked env interval pre _ post s rfl
  | true =>
    simp only [if_true, List.append_assoc, List.cons_append]
    exact run_updateLoop_unlinked env interval pre _ (post ++ n.Ready) s rfl

/-- C6 (what the code does): the forced replacement of the one `Ready` instance
of a group with an empty `NeedUpdate` list. When the instance has no linked
node, `CloudInstanceGroup.RollingUpdate` panics at `u.Node.Name` before any
call, in every environment: the trace is empty and nil is not returned. With a
validator that fails on its first two calls and succeeds on the third, the run
is: a panic with no call when the instance is unlinked; the calls cordon and
terminate and the "error deleting instance" error when the termination fails;
and otherwise the eight calls cordon, terminate, sleep, validate (fails), sleep,
validate (fails), sleep, validate (succeeds) and nil. -/
theorem RollingUpdate_forced_unlinked_panics {σ : Type} (env : Env σ) (s : σ)
    (n : CloudInstanceGroup) (i : AutoscalingInstance) (inst : CloudInstanceGroupInstance)
    (cordonErr : Option Err) (failing : List (Option String)) (interval : Duration) :
    (({ n with NeedUpdate := [], Ready := [{ ASGInstance := i, Node := none }] } :
          CloudInstanceGroup).RollingUpdate true interval).run env s =
        { result := Result.panicked, trace := [], world := s } ∧
      (({ n with NeedUpdate := [], Ready := [inst] } :
          CloudInstanceGroup).RollingUpdate true interval).run
          (scriptedEnv cordonErr failing fun k => decide (k < 2)) 0 =
        (match inst.Node with
        | none => { result := Result.panicked, trace := [], world := 0 }
        | some node =>
          if inst.ASGInstance.InstanceId ∈ failing then
            { result := Result.returned (some (Err.deletingInstance
                (StringValue inst.ASGInstance.InstanceId) (Err.collaborator "terminate failed"))),
              trace := [Event.cordon node.Name cordonErr,
                Event.terminate inst.ASGInstance.InstanceId
                  (some (Err.collaborator "terminate failed"))],
              world := 0 }
          else
            { result := Result.returned none,
              trace := [Event.cordon node.Name cordonErr,
                Event.terminate inst.ASGInstance.InstanceId none,
                Event.sleep interval,
                Event.validate node.ClusterName (some (Err.collaborator "not ready")),
                Event.sleep interval,
                Event.validate node.ClusterName (some (Err.collaborator "not ready")),
                Event.sleep interval,
                Event.validate node.ClusterName none],
              world := 3 }) := by
  constructor
  · simp only [CloudInstanceGroup.RollingUpdate, CloudInstanceGroup.update, if_true,
      List.nil_append]
    exact run_updateLoop_cons_none env interval s _ [] rfl
  · cases hn : inst.Node with
    | none =>
      simp only [CloudInstanceGroup.RollingUpdate, CloudInstanceGroup.update, if_true,
        List.nil_append]
      exact run_updateLoop_cons_none _ interval 0 inst [] hn
    | some node =>
      by_cases hmem : inst.ASGInstance.InstanceId ∈ failing
      · simp only [hmem, if_true]
        simp only [CloudInstanceGroup.RollingUpdate, CloudInstanceGroup.update, if_true,
          List.nil_append]
        rw [run_updateLoop_cons_fail _ interval 0 inst [] node
          (Err.collaborator "terminate failed") hn (by simp [scriptedEnv, hmem])]
        simp [scriptedEnv]
      · simp only [hmem, if_false]
        exact RollingUpdate_forced_flaky (scriptedEnv cordonErr failing fun k => decide (k < 2))
          { n with NeedUpdate := [], Ready := [inst] } inst node interval cordonErr
          (Err.collaborator "not ready") (Err.collaborator "not ready") 0 0 0 1 2 3
          rfl rfl hn rfl (by simp [scriptedEnv, hmem]) (by simp [scriptedEnv])
          (by simp [scriptedEnv]) (by simp [scriptedEnv])

end Kops
